import Mathlib

/-!
Verification development for the HackNation web-search MCP server
(`web-search-mcp/src/index.ts` and `web-search-mcp/src/remote-sse.ts`).

Shallow embedding conventions:
* JavaScript numbers are modelled as exact rationals (`ℚ`); all numeric
  quantities appearing in the verified properties are multiples of 0.05 or
  integers, where IEEE-754 double arithmetic agrees with exact rational
  arithmetic after the code's own 2-decimal rounding.
* JavaScript objects used as string maps (`Record<string, string>`) are
  modelled as insertion-ordered association lists with JS assignment
  semantics (`objUpsert`): an assignment to an existing key overwrites the
  value in place, a new key is appended.
* `Array.prototype.sort` is stable (ES2019); sorting with the comparator
  `(a, b) => b.score - a.score` is therefore modelled as ordering by the
  lexicographic key (score descending, original index ascending).
* Human-readable strings that interpolate JS numbers (pros / cons / reason
  messages of the comparison engine) are modelled as tagged values (`Note`)
  carrying the interpolated data, since JS number-to-string formatting is
  outside the scope of the properties being checked.
-/

/-- ASCII lower-casing, modelling `String.prototype.toLowerCase` on the
ASCII fragment that the verified properties exercise. -/
def asciiLowerChar (c : Char) : Char :=
  if c.val ≥ 65 ∧ c.val ≤ 90 then Char.ofNat (c.toNat + 32) else c

/-- Lower-case a string (ASCII fragment of `toLowerCase`). -/
def asciiLower (s : String) : String :=
  ⟨s.data.map asciiLowerChar⟩

/-- Check whether `pre` is a prefix of `l`. -/
def listStartsWith : List Char → List Char → Bool
  | _, [] => true
  | [], _ :: _ => false
  | c :: cs, p :: ps => c = p && listStartsWith cs ps

/-- Check whether `sub` occurs as a contiguous sublist of `l`. -/
def listContains (l sub : List Char) : Bool :=
  match l with
  | [] => sub.isEmpty
  | _ :: rest => listStartsWith l sub || listContains rest sub

/-- JS `String.prototype.includes` (substring containment; the empty
string is contained in every string). -/
def jsIncludes (s sub : String) : Bool :=
  listContains s.data sub.data

/-- Keys of a JS object modelled as an association list: `Object.keys`
returns each key once, in insertion order. -/
def objKeys (l : List (String × String)) : List String :=
  (l.map Prod.fst).eraseDups

/-- Number of keys of a JS object (`Object.keys(o).length`). -/
def objSize (l : List (String × String)) : Nat :=
  (objKeys l).length

/-- JS `Math.round`: round half toward positive infinity. -/
def jsRound (q : ℚ) : ℤ :=
  ⌊q + 1/2⌋

-- ----------------------------------------------------------------------
-- Comparison engine (`compareProducts`, index.ts lines 1105-1294)
-- ----------------------------------------------------------------------

/-- Input product shape of `compare_products` (interface `CompareProduct`). -/
structure CompareProduct where
  name : String
  price : Option ℚ
  currency : Option String
  brand : Option String
  key_features : List String
  specs : List (String × String)
  source : String
deriving Repr, DecidableEq

/-- Criteria shape of `compare_products` (interface `CompareCriteria`). -/
structure CompareCriteria where
  max_budget : Option ℚ
  currency : Option String
  use_case : String
  preferences : List String
deriving Repr, DecidableEq

/-- Tagged model of the pros / cons / reason message strings produced by
`compareProducts`; each constructor carries the data the source code
interpolates into the string. -/
inductive Note where
  | priceNotAvailable
  | currencyNotSpecified
  | noSpecsListed
  | noFeaturesListed
  | overBudget (price budget : ℚ) (currency : Option String)
  | underBudgetBy (savings : ℚ) (currency : Option String)
  | cannotVerifyBudget
  | lowestPrice
  | highestPrice
  | detailedSpecs (n : Nat)
  | richFeatures (n : Nat)
  | matchesPreference (pref : String)
  | noPreferencesMatched
  | relevantToUseCase (useCase : String)
  | rMissingPrice
  | rMissingCurrency
  | rMissingBrand
  | rMissingSpecs
  | rMissingFeatures
  | rWithinBudget
  | rExceedsBudget
  | rPriceUnknown
  | rNoBudget
  | rRelativePrice (score : ℤ)
  | rOnlyPriced
  | rNoPriceValue
  | rSpecCoverage (score : ℤ) (count total : Nat)
  | rFeatureCoverage (score : ℤ) (count maxF : Nat)
  | rPrefMatch (score : ℤ) (matched total : Nat)
  | rNoPrefs
deriving Repr, DecidableEq

/-- Output entry of `compareProducts` (interface `RankedProduct`); `reason`
is the "Score N/100: ..." string, modelled as the score plus the ordered
reason trace. -/
structure RankedProduct where
  name : String
  score : ℤ
  pros : List Note
  cons : List Note
  reason : ℤ × List Note
deriving Repr, DecidableEq

/-- Prices of all products that have one (`products.map(p => p.price)
.filter(p => p !== null)`). -/
def pricesOf (products : List CompareProduct) : List ℚ :=
  products.filterMap (·.price)

/-- JS `prices.length > 0 ? Math.min(...prices) : 0`. -/
def listMinQ (l : List ℚ) : ℚ :=
  match l with
  | [] => 0
  | x :: xs => xs.foldl min x

/-- JS `prices.length > 0 ? Math.max(...prices) : 0`. -/
def listMaxQ (l : List ℚ) : ℚ :=
  match l with
  | [] => 0
  | x :: xs => xs.foldl max x

/-- The `minPrice` binding of `compareProducts`. -/
def minPriceOf (products : List CompareProduct) : ℚ :=
  listMinQ (pricesOf products)

/-- The `maxPrice` binding of `compareProducts`. -/
def maxPriceOf (products : List CompareProduct) : ℚ :=
  listMaxQ (pricesOf products)

/-- The `priceRange` binding: `maxPrice - minPrice || 1` (a zero range is
replaced by 1). -/
def priceRangeOf (products : List CompareProduct) : ℚ :=
  let d := maxPriceOf products - minPriceOf products
  if d = 0 then 1 else d

/-- The `allSpecKeys` set of `compareProducts`: lower-cased spec keys of
all products, deduplicated in insertion order. -/
def allSpecKeysOf (products : List CompareProduct) : List String :=
  (products.flatMap (fun p => (objKeys p.specs).map asciiLower)).eraseDups

/-- The `totalSpecKeys` binding: `allSpecKeys.size || 1`. -/
def totalSpecKeysOf (products : List CompareProduct) : Nat :=
  let n := (allSpecKeysOf products).length
  if n = 0 then 1 else n

/-- The `maxFeatures` binding: `Math.max(...counts, 1)`. -/
def maxFeaturesOf (products : List CompareProduct) : Nat :=
  (products.map (·.key_features.length)).foldl max 1

/-- Data-completeness bucket (max 20) with its pros / cons / reason notes,
in the order the source pushes them. -/
def completenessPart (p : CompareProduct) : ℤ × List Note × List Note × List Note :=
  let (s1, c1, r1) :=
    if p.price.isSome then ((8 : ℤ), ([] : List Note), ([] : List Note))
    else (0, [Note.priceNotAvailable], [Note.rMissingPrice])
  let (s2, c2, r2) :=
    if p.currency.isSome then ((2 : ℤ), ([] : List Note), ([] : List Note))
    else if p.price.isSome then (0, [Note.currencyNotSpecified], [Note.rMissingCurrency])
    else (0, [], [])
  let (s3, r3) :=
    if p.brand.isSome then ((3 : ℤ), ([] : List Note)) else (0, [Note.rMissingBrand])
  let (s4, c4, r4) :=
    if objSize p.specs > 0 then ((4 : ℤ), ([] : List Note), ([] : List Note))
    else (0, [Note.noSpecsListed], [Note.rMissingSpecs])
  let (s5, c5, r5) :=
    if p.key_features.length > 0 then ((3 : ℤ), ([] : List Note), ([] : List Note))
    else (0, [Note.noFeaturesListed], [Note.rMissingFeatures])
  (s1 + s2 + s3 + s4 + s5, [], c1 ++ c2 ++ c4 ++ c5, r1 ++ r2 ++ r3 ++ r4 ++ r5)

/-- Budget bucket score (max 25) of `compareProducts`: 25 when a known
price is within the set budget, 0 when over budget or when the budget is
set but the price unknown, 15 when no budget is set. -/
def budgetScore (maxBudget : Option ℚ) (price : Option ℚ) : ℤ :=
  match maxBudget, price with
  | some b, some p => if p > b then 0 else 25
  | some _, none => 0
  | none, _ => 15

/-- Budget bucket with its notes. -/
def budgetPart (criteria : CompareCriteria) (p : CompareProduct) :
    ℤ × List Note × List Note × List Note :=
  match criteria.max_budget, p.price with
  | some b, some pr =>
      if pr > b then
        (0, [], [Note.overBudget pr b criteria.currency], [Note.rExceedsBudget])
      else
        let savings := b - pr
        (25,
          (if savings > 0 then [Note.underBudgetBy savings criteria.currency] else []),
          [], [Note.rWithinBudget])
  | some _, none => (0, [], [Note.cannotVerifyBudget], [Note.rPriceUnknown])
  | none, _ => (15, [], [], [Note.rNoBudget])

/-- Relative-value bucket score (max 20): normalized price position when at
least two products are priced, 10 for the only priced product, 0 without a
price. -/
def valueScore (prices : List ℚ) (minPrice priceRange : ℚ) (price : Option ℚ) : ℤ :=
  match price with
  | some p =>
      if prices.length > 1 then jsRound ((1 - (p - minPrice) / priceRange) * 20)
      else 10
  | none => 0

/-- Relative-value bucket with its notes. -/
def valuePart (prices : List ℚ) (minPrice maxPrice priceRange : ℚ) (p : CompareProduct) :
    ℤ × List Note × List Note × List Note :=
  match p.price with
  | some pr =>
      if prices.length > 1 then
        let vs := jsRound ((1 - (pr - minPrice) / priceRange) * 20)
        (vs,
          (if pr = minPrice then [Note.lowestPrice] else []),
          (if pr ≠ minPrice ∧ pr = maxPrice then [Note.highestPrice] else []),
          [Note.rRelativePrice vs])
      else (10, [], [], [Note.rOnlyPriced])
  | none => (0, [], [], [Note.rNoPriceValue])

/-- Spec-richness bucket (max 15) with its notes. -/
def specPart (totalSpecKeys : Nat) (p : CompareProduct) :
    ℤ × List Note × List Note × List Note :=
  let specCount := objSize p.specs
  let specScore := jsRound ((specCount : ℚ) / (totalSpecKeys : ℚ) * 15)
  (specScore,
    (if specCount ≥ 5 then [Note.detailedSpecs specCount] else []),
    [], [Note.rSpecCoverage specScore specCount totalSpecKeys])

/-- Feature-richness bucket (max 10) with its notes. -/
def featurePart (maxFeatures : Nat) (p : CompareProduct) :
    ℤ × List Note × List Note × List Note :=
  let n := p.key_features.length
  let featureScore := jsRound ((n : ℚ) / (maxFeatures : ℚ) * 10)
  (featureScore,
    (if n ≥ 4 then [Note.richFeatures n] else []),
    [], [Note.rFeatureCoverage featureScore n maxFeatures])

/-- The searchable haystack for preference matching: name, brand, features,
spec keys and spec values, joined and lower-cased.  Joining with spaces and
lower-casing each part models `[...].join(" ").toLowerCase()` for substring
search purposes. -/
def searchableOf (p : CompareProduct) : String :=
  asciiLower (String.intercalate " "
    ([p.name, p.brand.getD ""] ++ p.key_features ++ objKeys p.specs ++ p.specs.map Prod.snd))

/-- Preference-match bucket (max 10) with its notes. -/
def prefPart (criteria : CompareCriteria) (p : CompareProduct) :
    ℤ × List Note × List Note × List Note :=
  let prefs := criteria.preferences.map asciiLower
  if prefs.length > 0 then
    let searchable := searchableOf p
    let matchedPrefs := prefs.filter (fun pref => jsIncludes searchable pref)
    let matched := matchedPrefs.length
    let prefScore := jsRound ((matched : ℚ) / (prefs.length : ℚ) * 10)
    (prefScore,
      matchedPrefs.map Note.matchesPreference,
      (if matched = 0 then [Note.noPreferencesMatched] else []),
      [Note.rPrefMatch prefScore matched prefs.length])
  else (5, [], [], [Note.rNoPrefs])

/-- The use-case haystack (name, brand, features, spec values). -/
def useCaseSearchableOf (p : CompareProduct) : String :=
  asciiLower (String.intercalate " "
    ([p.name, p.brand.getD ""] ++ p.key_features ++ p.specs.map Prod.snd))

/-- Use-case relevance note (no score bucket of its own). -/
def useCasePart (criteria : CompareCriteria) (p : CompareProduct) : List Note :=
  let useCaseLower := asciiLower criteria.use_case
  if useCaseLower ≠ "" ∧ jsIncludes (useCaseSearchableOf p) useCaseLower then
    [Note.relevantToUseCase criteria.use_case]
  else []

/-- Score one product: the body of the `products.map` callback in
`compareProducts`. -/
def scoreProduct (products : List CompareProduct) (criteria : CompareCriteria)
    (p : CompareProduct) : RankedProduct :=
  let part1 := completenessPart p
  let part2 := budgetPart criteria p
  let part3 :=
    valuePart (pricesOf products) (minPriceOf products) (maxPriceOf products)
      (priceRangeOf products) p
  let part4 := specPart (totalSpecKeysOf products) p
  let part5 := featurePart (maxFeaturesOf products) p
  let part6 := prefPart criteria p
  let rawScore := part1.1 + part2.1 + part3.1 + part4.1 + part5.1 + part6.1
  let score := max 0 (min 100 rawScore)
  { name := p.name
    score := score
    pros := part1.2.1 ++ part2.2.1 ++ part3.2.1 ++ part4.2.1 ++ part5.2.1 ++ part6.2.1
      ++ useCasePart criteria p
    cons := part1.2.2.1 ++ part2.2.2.1 ++ part3.2.2.1 ++ part4.2.2.1 ++ part5.2.2.1
      ++ part6.2.2.1
    reason := (score,
      part1.2.2.2 ++ part2.2.2.2 ++ part3.2.2.2 ++ part4.2.2.2 ++ part5.2.2.2 ++ part6.2.2.2) }

/-- The scored list, in input order, before sorting. -/
def scoredList (products : List CompareProduct) (criteria : CompareCriteria) :
    List RankedProduct :=
  products.map (scoreProduct products criteria)

/-- Ordering key of the stable descending sort: score descending, original
index ascending as tie-break (the stability guarantee of JS `sort`). -/
def rankLex (a b : Nat × RankedProduct) : Prop :=
  b.2.score < a.2.score ∨ (a.2.score = b.2.score ∧ a.1 ≤ b.1)

instance : DecidableRel rankLex := fun a b =>
  inferInstanceAs (Decidable (_ ∨ _))

instance : IsTotal (Nat × RankedProduct) rankLex where
  total a b := by
    rcases lt_trichotomy a.2.score b.2.score with h | h | h
    · exact Or.inr (Or.inl h)
    · rcases Nat.le_total a.1 b.1 with h2 | h2
      · exact Or.inl (Or.inr ⟨h, h2⟩)
      · exact Or.inr (Or.inr ⟨h.symm, h2⟩)
    · exact Or.inl (Or.inl h)

instance : IsTrans (Nat × RankedProduct) rankLex where
  trans _a _b _c hab hbc := by
    rcases hab with h1 | ⟨h1, h1i⟩ <;> rcases hbc with h2 | ⟨h2, h2i⟩
    · exact Or.inl (h2.trans h1)
    · exact Or.inl (h2 ▸ h1)
    · exact Or.inl (h2.trans_eq h1.symm)
    · exact Or.inr ⟨h1.trans h2, h1i.trans h2i⟩

/-- The keyed (index-annotated) stable sort used to model
`ranked.sort((a, b) => b.score - a.score)`. -/
def rankedKeyed (products : List CompareProduct) (criteria : CompareCriteria) :
    List (Nat × RankedProduct) :=
  (scoredList products criteria).enum.insertionSort rankLex

/-- The comparison engine `compareProducts`: score every product, then sort
by score descending, stable. -/
def compareProducts (products : List CompareProduct) (criteria : CompareCriteria) :
    List RankedProduct :=
  if products.isEmpty then []
  else (rankedKeyed products criteria).map Prod.snd

-- ----------------------------------------------------------------------
-- Cart (index.ts lines 41-52 and 1638-1784)
-- ----------------------------------------------------------------------

/-- JS whitespace characters recognized by `String.prototype.trim` (the
common ones: space, tab, LF, CR, VT, FF, NBSP, BOM, LS, PS). -/
def jsIsSpace (c : Char) : Bool :=
  c = ' ' ∨ c = '\t' ∨ c = '\n' ∨ c = '\r' ∨ c.val = 11 ∨ c.val = 12
    ∨ c.val = 160 ∨ c.val = 0x1680 ∨ (0x2000 ≤ c.val ∧ c.val ≤ 0x200A)
    ∨ c.val = 0x2028 ∨ c.val = 0x2029 ∨ c.val = 0x202F ∨ c.val = 0x205F
    ∨ c.val = 0x3000 ∨ c.val = 0xFEFF

/-- JS `String.prototype.trim`. -/
def jsTrim (s : String) : String :=
  ⟨(s.data.dropWhile jsIsSpace).reverse.dropWhile jsIsSpace |>.reverse⟩

/-- A cart entry (interface `CartItem`). -/
structure CartItem where
  id : String
  name : String
  url : String
  price : ℚ
  currency : String
  source : String
  imageUrl : Option String
  category : Option String
deriving Repr, DecidableEq

/-- Parameters of the `add_to_cart` tool. -/
structure AddToCartParams where
  name : String
  url : String
  price : ℚ
  currency : String
  source : String
  imageUrl : Option String
  category : Option String
deriving Repr, DecidableEq

/-- Shape of every cart tool response: `ok`, a message, and the full
current cart. -/
structure CartResponse where
  ok : Bool
  message : String
  cart : List CartItem
deriving Repr, DecidableEq

/-- The `add_to_cart` handler: builds the item (fresh id from
`randomUUID`, modelled as the `freshId` argument), rejects when some cart
entry has the same URL, otherwise appends.  Returns the response and the
cart after the call. -/
def addToCart (cart : List CartItem) (params : AddToCartParams) (freshId : String) :
    CartResponse × List CartItem :=
  let item : CartItem :=
    { id := freshId
      name := jsTrim params.name
      url := jsTrim params.url
      price := params.price
      currency := jsTrim params.currency
      source := jsTrim params.source
      imageUrl := params.imageUrl
      category := params.category }
  match cart.find? (fun c => c.url == jsTrim params.url) with
  | some _ =>
      ({ ok := false, message := "Item already in cart for URL: " ++ item.url, cart := cart },
        cart)
  | none =>
      let newCart := cart ++ [item]
      ({ ok := true, message := "Added item " ++ item.id, cart := newCart }, newCart)

/-- The `list_cart` handler. -/
def listCart (cart : List CartItem) : CartResponse × List CartItem :=
  ({ ok := true, message := "Current cart", cart := cart }, cart)

/-- The `remove_from_cart` handler: splices out the first entry with the
given id, rejecting an unknown id without modifying the cart. -/
def removeFromCart (cart : List CartItem) (idRaw : String) :
    CartResponse × List CartItem :=
  let id := jsTrim idRaw
  match cart.findIdx? (fun c => c.id == jsTrim idRaw) with
  | none =>
      ({ ok := false, message := "No item found with id " ++ id, cart := cart }, cart)
  | some i =>
      let newCart := cart.eraseIdx i
      ({ ok := true, message := "Removed item " ++ ((cart[i]?).elim "" (·.id)),
         cart := newCart }, newCart)

/-- The `clear_cart` handler. -/
def clearCart (_cart : List CartItem) : CartResponse × List CartItem :=
  ({ ok := true, message := "Cleared cart", cart := [] }, [])

-- ----------------------------------------------------------------------
-- MCP transport session lifecycle (remote-sse.ts)
-- ----------------------------------------------------------------------

/-- The module-level mutable state of `remote-sse.ts`: `activeTransport`,
`activeSessionId`, `keepaliveTimer`, `activeSseResponse`.  Transports are
identified by their (opaque) session id, modelled as a counter value;
`nextId` is the supply of fresh ids for `new SSEServerTransport(...)`. -/
structure SessionState where
  activeTransport : Option Nat
  activeSessionId : Option Nat
  keepalive : Bool
  sseResponse : Option Nat
  nextId : Nat
deriving Repr, DecidableEq

/-- State at server start. -/
def initialSessionState : SessionState :=
  { activeTransport := none, activeSessionId := none, keepalive := false,
    sseResponse := none, nextId := 0 }

/-- The `teardownSession` function: null out all four variables, clear the
keepalive interval, and close the saved transport (`t.close()` is the
single element of the returned close-event list) if there was one. -/
def teardownSession (s : SessionState) : SessionState × List Nat :=
  let t := s.activeTransport
  let s2 : SessionState :=
    { s with
      activeTransport := none
      activeSessionId := none
      sseResponse := none
      keepalive := false }
  match t with
  | some tid => (s2, [tid])
  | none => (s2, [])

/-- The `GET /mcp` handler: tear down any existing session, create a new
transport with a fresh session id, record it in both variables, start the
keepalive; on a `server.connect` failure (the catch branch) only
`activeTransport` and `activeSessionId` are reset.  Returns the new state
and the list of transports closed. -/
def handleGetMcp (s : SessionState) (connectOk : Bool) : SessionState × List Nat :=
  let (s1, closed) := if s.activeTransport.isSome then teardownSession s else (s, [])
  let tid := s1.nextId
  let s2 : SessionState :=
    { activeTransport := some tid, activeSessionId := some tid, keepalive := true,
      sseResponse := some tid, nextId := s1.nextId + 1 }
  if connectOk then (s2, closed)
  else ({ s2 with activeTransport := none, activeSessionId := none }, closed)

/-- The `res.on("close")` callback: clears the active session only when the
closing response still belongs to the active transport. -/
def handleResClose (s : SessionState) (t : Nat) : SessionState :=
  if s.activeTransport = some t then
    { s with
      activeTransport := none
      activeSessionId := none
      sseResponse := none
      keepalive := false }
  else s

/-- The `transport.onclose` callback (same guarded cleanup). -/
def handleTransportOnClose (s : SessionState) (t : Nat) : SessionState :=
  if s.activeTransport = some t then
    { s with
      activeTransport := none
      activeSessionId := none
      sseResponse := none
      keepalive := false }
  else s

/-- The `DELETE /mcp` handler: 404 (no state change) without an active
transport, otherwise `teardownSession`. -/
def handleDeleteMcp (s : SessionState) : SessionState × List Nat :=
  if s.activeTransport.isSome then teardownSession s else (s, [])

/-- Events that mutate the transport state. -/
inductive SessionEvent where
  | getMcp (connectOk : Bool)
  | deleteMcp
  | resClose (t : Nat)
  | transportClose (t : Nat)
deriving Repr, DecidableEq

/-- One event step; returns the new state and the transports closed. -/
def sessionStep (s : SessionState) : SessionEvent → SessionState × List Nat
  | .getMcp ok => handleGetMcp s ok
  | .deleteMcp => handleDeleteMcp s
  | .resClose t => (handleResClose s t, [])
  | .transportClose t => (handleTransportOnClose s t, [])

/-- Run a sequence of events from a state, accumulating close events. -/
def runSession (s : SessionState) : List SessionEvent → SessionState × List Nat
  | [] => (s, [])
  | e :: es =>
      let (s1, c1) := sessionStep s e
      let (s2, c2) := runSession s1 es
      (s2, c1 ++ c2)

/-- Session-state invariant: the session id mirrors the active transport
(in particular one is `none` exactly when the other is), and every live
id is below the fresh-id supply. -/
def SessionInv (s : SessionState) : Prop :=
  s.activeSessionId = s.activeTransport
  ∧ (∀ t, s.activeTransport = some t → t < s.nextId)

/-- The state reached from server start after a sequence of events. -/
def reachedSession (evs : List SessionEvent) : SessionState :=
  (runSession initialSessionState evs).1

-- ----------------------------------------------------------------------
-- Search results and the synthetic merchant fallback (index.ts 8-13, 198-209)
-- ----------------------------------------------------------------------

/-- A search result (interface `SearchResult`). -/
structure SearchResult where
  title : String
  url : String
  snippet : String
  source : String
deriving Repr, DecidableEq

/-- UTF-8 encoding of one character. -/
def utf8Bytes (c : Char) : List Nat :=
  let n := c.toNat
  if n < 0x80 then [n]
  else if n < 0x800 then [0xC0 + n / 64, 0x80 + n % 64]
  else if n < 0x10000 then [0xE0 + n / 4096, 0x80 + (n / 64) % 64, 0x80 + n % 64]
  else [0xF0 + n / 262144, 0x80 + (n / 4096) % 64, 0x80 + (n / 64) % 64, 0x80 + n % 64]

/-- Upper-case hexadecimal digit. -/
def hexDigit (n : Nat) : Char :=
  if n < 10 then Char.ofNat (48 + n) else Char.ofNat (55 + n)

/-- Characters `encodeURIComponent` leaves unescaped. -/
def isUriUnreserved (c : Char) : Bool :=
  (c ≥ 'A' ∧ c ≤ 'Z') ∨ (c ≥ 'a' ∧ c ≤ 'z') ∨ (c ≥ '0' ∧ c ≤ '9')
    ∨ c = '-' ∨ c = '_' ∨ c = '.' ∨ c = '!' ∨ c = '~' ∨ c = '*' ∨ c = '\'' ∨ c = '(' ∨ c = ')'

/-- JS `encodeURIComponent`: unreserved characters pass through, every
other character is percent-encoded byte-by-byte from its UTF-8 form. -/
def encodeURIComponent (s : String) : String :=
  ⟨s.data.flatMap (fun c =>
    if isUriUnreserved c then [c]
    else (utf8Bytes c).flatMap (fun b => ['%', hexDigit (b / 16), hexDigit (b % 16)]))⟩

/-- The six synthetic merchant seeds of `buildFallbackMerchantLinks`, for
the URL-encoded trimmed query `q` (raw `query` appears in the titles). -/
def merchantSeeds (query q : String) : List SearchResult :=
  [⟨"Amazon: \"" ++ query ++ "\"", "https://www.amazon.com/s?k=" ++ q,
      "Fallback merchant search", "amazon.com"⟩,
   ⟨"Best Buy: \"" ++ query ++ "\"", "https://www.bestbuy.com/site/searchpage.jsp?st=" ++ q,
      "Fallback merchant search", "bestbuy.com"⟩,
   ⟨"Walmart: \"" ++ query ++ "\"", "https://www.walmart.com/search?q=" ++ q,
      "Fallback merchant search", "walmart.com"⟩,
   ⟨"Target: \"" ++ query ++ "\"", "https://www.target.com/s?searchTerm=" ++ q,
      "Fallback merchant search", "target.com"⟩,
   ⟨"Newegg: \"" ++ query ++ "\"", "https://www.newegg.com/p/pl?d=" ++ q,
      "Fallback merchant search", "newegg.com"⟩,
   ⟨"eBay: \"" ++ query ++ "\"", "https://www.ebay.com/sch/i.html?_nkw=" ++ q,
      "Fallback merchant search", "ebay.com"⟩]

/-- The `buildFallbackMerchantLinks` function: the six seeds, sliced to
`min maxResults 6`. -/
def buildFallbackMerchantLinks (query : String) (maxResults : Nat) : List SearchResult :=
  let q := encodeURIComponent (jsTrim query)
  (merchantSeeds query q).take (min maxResults 6)

/-- The blocked-host test `isBlockedHost` (regex
`duckduckgo\.com$|bing\.com$|doubleclick|googleadservices|googleads|taboola|outbrain|coldest\.com`,
case-insensitive; the first two alternatives are anchored at the end). -/
def isBlockedHost (host : String) : Bool :=
  let h := asciiLower host
  listStartsWith h.data.reverse "duckduckgo.com".data.reverse
    || listStartsWith h.data.reverse "bing.com".data.reverse
    || jsIncludes h "doubleclick"
    || jsIncludes h "googleadservices"
    || jsIncludes h "googleads"
    || jsIncludes h "taboola"
    || jsIncludes h "outbrain"
    || jsIncludes h "coldest.com"

/-- The test `/^https?:\/\//i` used for absolute URLs. -/
def isAbsoluteHttpUrl (s : String) : Bool :=
  listStartsWith (asciiLower s).data "http://".data
    || listStartsWith (asciiLower s).data "https://".data

/-- The captured host of `extractHostname`: the characters after the
scheme up to the first `/?#:` delimiter, lower-cased; empty capture means
no match, hence the empty string. -/
def hostFrom (r : List Char) : String :=
  if (r.takeWhile (fun c => ¬ (c = '/' ∨ c = '?' ∨ c = '#' ∨ c = ':'))).isEmpty then ""
  else asciiLower ⟨r.takeWhile (fun c => ¬ (c = '/' ∨ c = '?' ∨ c = '#' ∨ c = ':'))⟩

/-- The `extractHostname` helper: match `/^https?:\/\/([^/?#:]+)/i` and
lower-case the captured host, the empty string when there is no match. -/
def extractHostname (urlStr : String) : String :=
  if listStartsWith (asciiLower urlStr).data "https://".data then hostFrom (urlStr.data.drop 8)
  else if listStartsWith (asciiLower urlStr).data "http://".data then hostFrom (urlStr.data.drop 7)
  else ""

-- ----------------------------------------------------------------------
-- A small JS-regular-expression engine
--
-- The regex literals of the source are translated node-for-node into the
-- `Rx` syntax below; the matcher implements the backtracking semantics of
-- JS regexes (leftmost match, greedy/lazy quantifiers, capture groups,
-- backreferences, word boundaries, empty-quantifier-iteration cutoff).
-- ----------------------------------------------------------------------

/-- Regex abstract syntax. -/
inductive Rx where
  | eps
  | chr (c : Char)
  | cls (neg : Bool) (ranges : List (Char × Char))
  | anyc
  | cat (a b : Rx)
  | alt (a b : Rx)
  | star (lazy : Bool) (a : Rx)
  | grp (i : Nat) (a : Rx)
  | bref (i : Nat)
  | wordb
  | bos
  | eos
deriving Repr

/-- Captures: group index mapped to its captured characters (latest
assignment first). -/
abbrev RxCaps := List (Nat × List Char)

/-- Character canonicalization for the `/i` flag (ASCII case folding). -/
def canonChar (ci : Bool) (c : Char) : Char :=
  if ci then asciiLowerChar c else c

/-- Class membership: `c` lies in one of the ranges. -/
def inRanges (ranges : List (Char × Char)) (c : Char) : Bool :=
  ranges.any (fun r => r.1 ≤ c ∧ c ≤ r.2)

/-- JS `\w`. -/
def isWordChar (c : Char) : Bool :=
  (c ≥ 'A' ∧ c ≤ 'Z') ∨ (c ≥ 'a' ∧ c ≤ 'z') ∨ (c ≥ '0' ∧ c ≤ '9') ∨ c = '_'

/-- Word test on an optional character (`none` beyond the input edges). -/
def isWordOpt : Option Char → Bool
  | none => false
  | some c => isWordChar c

/-- Case-aware literal-prefix test (used for backreferences). -/
def listStartsWithCanon (ci : Bool) : List Char → List Char → Bool
  | _, [] => true
  | [], _ :: _ => false
  | c :: cs, p :: ps => canonChar ci c = canonChar ci p && listStartsWithCanon ci cs ps

/-- Number of syntax nodes, used to bound the matcher fuel. -/
def rxSize : Rx → Nat
  | .eps | .chr _ | .cls _ _ | .anyc | .bref _ | .wordb | .bos | .eos => 1
  | .cat a b | .alt a b => rxSize a + rxSize b + 1
  | .star _ a | .grp _ a => rxSize a + 1

/-- The backtracking matcher in continuation-passing style.  State is the
remaining input, the character just before it (for `\b` and `^`), and the
captures; `k` is invoked on every candidate match end, backtracking on
`none`. -/
def rxMatch (ci : Bool) :
    Nat → Rx → List Char → Option Char → RxCaps →
      (List Char → Option Char → RxCaps → Option (List Char × RxCaps)) →
      Option (List Char × RxCaps)
  | 0, _, _, _, _, _ => none
  | _ + 1, .eps, rest, prev, caps, k => k rest prev caps
  | _ + 1, .chr c, rest, _, caps, k =>
      match rest with
      | [] => none
      | d :: ds => if canonChar ci d = canonChar ci c then k ds (some d) caps else none
  | _ + 1, .cls neg ranges, rest, _, caps, k =>
      match rest with
      | [] => none
      | d :: ds =>
          if (inRanges ranges d).xor neg then k ds (some d) caps else none
  | _ + 1, .anyc, rest, _, caps, k =>
      match rest with
      | [] => none
      | d :: ds => k ds (some d) caps
  | fuel + 1, .cat a b, rest, prev, caps, k =>
      rxMatch ci fuel a rest prev caps (fun r2 p2 c2 => rxMatch ci fuel b r2 p2 c2 k)
  | fuel + 1, .alt a b, rest, prev, caps, k =>
      match rxMatch ci fuel a rest prev caps k with
      | some res => some res
      | none => rxMatch ci fuel b rest prev caps k
  | fuel + 1, .star lazy a, rest, prev, caps, k =>
      if lazy then
        match k rest prev caps with
        | some res => some res
        | none =>
            rxMatch ci fuel a rest prev caps (fun r2 p2 c2 =>
              if r2.length = rest.length then none
              else rxMatch ci fuel (.star lazy a) r2 p2 c2 k)
      else
        match rxMatch ci fuel a rest prev caps (fun r2 p2 c2 =>
            if r2.length = rest.length then none
            else rxMatch ci fuel (.star lazy a) r2 p2 c2 k) with
        | some res => some res
        | none => k rest prev caps
  | fuel + 1, .grp i a, rest, prev, caps, k =>
      rxMatch ci fuel a rest prev caps (fun r2 p2 c2 =>
        k r2 p2 ((i, rest.take (rest.length - r2.length)) :: c2))
  | _ + 1, .bref i, rest, prev, caps, k =>
      let sub := ((caps.find? (fun x => x.1 = i)).map Prod.snd).getD []
      if listStartsWithCanon ci rest sub then
        k (rest.drop sub.length) (if sub.isEmpty then prev else sub.getLast?) caps
      else none
  | _ + 1, .wordb, rest, prev, caps, k =>
      if isWordOpt prev ≠ isWordOpt rest.head? then k rest prev caps else none
  | _ + 1, .bos, rest, prev, caps, k =>
      if prev = none then k rest prev caps else none
  | _ + 1, .eos, rest, prev, caps, k =>
      if rest.isEmpty then k rest prev caps else none

/-- Fuel sufficient for matching `r` against an input of length `n`. -/
def rxFuel (r : Rx) (n : Nat) : Nat :=
  (n + 2) * (rxSize r + 2) + 100

/-- Try to match `r` at the very start of `rest`; returns (matched, rest
after match, captures). -/
def rxMatchHere (ci : Bool) (r : Rx) (rest : List Char) (prev : Option Char) :
    Option (List Char × List Char × RxCaps) :=
  match rxMatch ci (rxFuel r rest.length) r rest prev [] (fun r2 p2 c2 => some (r2, c2)) with
  | none => none
  | some (r2, c2) => some (rest.take (rest.length - r2.length), r2, c2)

/-- Leftmost search (JS `exec` from a given position): returns (skipped
prefix, matched, rest, captures). -/
def rxSearch (ci : Bool) (r : Rx) :
    Nat → List Char → Option Char → Option (List Char × List Char × List Char × RxCaps)
  | 0, _, _ => none
  | fuel + 1, rest, prev =>
      match rxMatchHere ci r rest prev with
      | some (m, r2, c2) => some ([], m, r2, c2)
      | none =>
          match rest with
          | [] => none
          | c :: cs =>
              match rxSearch ci r fuel cs (some c) with
              | none => none
              | some (sk, m, r2, c2) => some (c :: sk, m, r2, c2)

/-- Leftmost search over a whole input. -/
def rxFind (ci : Bool) (r : Rx) (input : List Char) :
    Option (List Char × List Char × List Char × RxCaps) :=
  rxSearch ci r (input.length + 1) input none

/-- Non-global `String.prototype.match`: the captures of the leftmost
match (`none` when there is no match). -/
def rxMatchStr (ci : Bool) (r : Rx) (s : String) : Option (List Char × RxCaps) :=
  match rxFind ci r s.data with
  | none => none
  | some (_, m, _, caps) => some (m, caps)

/-- Test (`RegExp.prototype.test`). -/
def rxTest (ci : Bool) (r : Rx) (s : String) : Bool :=
  (rxFind ci r s.data).isSome

/-- All matches of a global regex, in order, with the JS bump-on-empty
rule. -/
def rxExecAll (ci : Bool) (r : Rx) :
    Nat → List Char → Option Char → List (List Char × RxCaps)
  | 0, _, _ => []
  | fuel + 1, input, prev =>
      match rxSearch ci r (input.length + 1) input prev with
      | none => []
      | some (sk, m, rest, caps) =>
          if m.isEmpty then
            match rest with
            | [] => [(m, caps)]
            | c :: cs => (m, caps) :: rxExecAll ci r fuel cs (some c)
          else
            (m, caps) :: rxExecAll ci r fuel rest
              (match m.getLast? with
                | some d => some d
                | none => (sk.getLast?).orElse (fun _ => prev))

/-- All matches over a whole string. -/
def rxExecAllStr (ci : Bool) (r : Rx) (s : String) : List (List Char × RxCaps) :=
  rxExecAll ci r (s.data.length + 1) s.data none

/-- Global `String.prototype.replace` with a constant replacement. -/
def rxReplaceAll (ci : Bool) (r : Rx) (rep : List Char) :
    Nat → List Char → Option Char → List Char
  | 0, input, _ => input
  | fuel + 1, input, prev =>
      match rxSearch ci r (input.length + 1) input prev with
      | none => input
      | some (sk, m, rest, _) =>
          if m.isEmpty then
            match rest with
            | [] => sk ++ rep
            | c :: cs => sk ++ rep ++ c :: rxReplaceAll ci r rep fuel cs (some c)
          else
            sk ++ rep ++ rxReplaceAll ci r rep fuel rest
              (match m.getLast? with
                | some d => some d
                | none => (sk.getLast?).orElse (fun _ => prev))

/-- Global replace over a string. -/
def rxReplaceAllStr (ci : Bool) (r : Rx) (rep : String) (s : String) : String :=
  ⟨rxReplaceAll ci r rep.data (s.data.length + 1) s.data none⟩

/-- Non-global `String.prototype.replace` with a constant replacement. -/
def rxReplaceFirstStr (ci : Bool) (r : Rx) (rep : String) (s : String) : String :=
  match rxFind ci r s.data with
  | none => s
  | some (sk, _, rest, _) => ⟨sk ++ rep.data ++ rest⟩

/-- `String.prototype.split` on a regex separator (no captures in the
separator, never matching empty — the only form the source uses). -/
def rxSplit (ci : Bool) (r : Rx) : Nat → List Char → Option Char → List (List Char)
  | 0, input, _ => [input]
  | fuel + 1, input, prev =>
      match rxSearch ci r (input.length + 1) input prev with
      | none => [input]
      | some (sk, m, rest, _) =>
          if m.isEmpty then [input]
          else sk :: rxSplit ci r fuel rest
            (match m.getLast? with
              | some d => some d
              | none => (sk.getLast?).orElse (fun _ => prev))

/-- Split over a string. -/
def rxSplitStr (ci : Bool) (r : Rx) (s : String) : List String :=
  (rxSplit ci r (s.data.length + 1) s.data none).map (fun l => ⟨l⟩)

-- Convenience constructors for translating regex literals.

/-- Literal string. -/
def rxStr (s : String) : Rx :=
  s.data.foldr (fun c acc => Rx.cat (Rx.chr c) acc) Rx.eps

/-- Sequence. -/
def rxSeq (l : List Rx) : Rx :=
  l.foldr Rx.cat Rx.eps

/-- Alternation of a nonempty list (left-biased like `|`). -/
def rxAlts : List Rx → Rx
  | [] => Rx.eps
  | [r] => r
  | r :: rs => Rx.alt r (rxAlts rs)

/-- Greedy `*`. -/
def rxStarG (r : Rx) : Rx := Rx.star false r

/-- Lazy `*?`. -/
def rxStarL (r : Rx) : Rx := Rx.star true r

/-- Greedy `+`. -/
def rxPlus (r : Rx) : Rx := Rx.cat r (Rx.star false r)

/-- Greedy `?`. -/
def rxOpt (r : Rx) : Rx := Rx.alt r Rx.eps

/-- Chain of at most `n` further greedy copies (for `{lo,hi}`). -/
def rxOptChain : Nat → Rx → Rx
  | 0, _ => Rx.eps
  | n + 1, r => Rx.alt (Rx.cat r (rxOptChain n r)) Rx.eps

/-- Greedy bounded repetition `r{lo,hi}`. -/
def rxRep (lo hi : Nat) (r : Rx) : Rx :=
  Rx.cat (rxSeq (List.replicate lo r)) (rxOptChain (hi - lo) r)

/-- Greedy unbounded repetition `r{lo,}`. -/
def rxRepFrom (lo : Nat) (r : Rx) : Rx :=
  Rx.cat (rxSeq (List.replicate lo r)) (Rx.star false r)

-- Common character classes of the translated patterns.

/-- JS `\s` ranges. -/
def wsRanges : List (Char × Char) :=
  [('\t', '\x0d'), (' ', ' '), ('\u00A0', '\u00A0'), ('\u1680', '\u1680'),
   ('\u2000', '\u200A'), ('\u2028', '\u2029'), ('\u202F', '\u202F'),
   ('\u205F', '\u205F'), ('\u3000', '\u3000'), ('\uFEFF', '\uFEFF')]

/-- `\s` as a class. -/
def wsCls : Rx := Rx.cls false wsRanges

/-- `[^>]`. -/
def notGt : Rx := Rx.cls true [('>', '>')]

/-- `[^"]`. -/
def notDq : Rx := Rx.cls true [('"', '"')]

/-- `["']`. -/
def quoteCls : Rx := Rx.cls false [('"', '"'), ('\'', '\'')]

/-- `[^"']`. -/
def notQuote : Rx := Rx.cls true [('"', '"'), ('\'', '\'')]

/-- `\d`. -/
def digitCls : Rx := Rx.cls false [('0', '9')]

-- ----------------------------------------------------------------------
-- Search provider parsers (index.ts lines 87-248, 349-398)
-- ----------------------------------------------------------------------

/-- Look up capture group `i` as a string (empty when unset). -/
def capStr (caps : RxCaps) (i : Nat) : String :=
  ⟨((caps.find? (fun x => x.1 = i)).map Prod.snd).getD []⟩

/-- `.` (any character but a line terminator). -/
def dotCls : Rx :=
  Rx.cls true [('\n', '\n'), ('\r', '\r'), (' ', ' ')]

/-- Replace every occurrence of the literal `pat` (with fuel). -/
def replaceAllLitFuel : Nat → List Char → List Char → List Char → List Char
  | 0, _, _, l => l
  | fuel + 1, pat, rep, l =>
      match l with
      | [] => []
      | c :: cs =>
          if ¬ pat.isEmpty ∧ listStartsWith (c :: cs) pat then
            rep ++ replaceAllLitFuel fuel pat rep ((c :: cs).drop pat.length)
          else c :: replaceAllLitFuel fuel pat rep cs

/-- JS `String.prototype.replaceAll`-style literal global replace (the
source uses `replace(/literal/g, ...)`). -/
def replaceAllLitStr (s pat rep : String) : String :=
  ⟨replaceAllLitFuel (s.data.length + 1) pat.data rep.data s.data⟩

/-- The entity-decoding chain shared by `stripTags` and `decodeEntities`:
`&amp; &lt; &gt; &quot; &#x27; &#39; &nbsp;`, in source order. -/
def entityChain (s : String) : String :=
  replaceAllLitStr (replaceAllLitStr (replaceAllLitStr (replaceAllLitStr (replaceAllLitStr
    (replaceAllLitStr (replaceAllLitStr s "&amp;" "&") "&lt;" "<") "&gt;" ">")
    "&quot;" "\"") "&#x27;" "\x27") "&#39;" "\x27") "&nbsp;" " "

/-- The `/<[^>]*>/g` tag regex. -/
def tagRx : Rx := rxSeq [Rx.chr '<', rxStarG notGt, Rx.chr '>']

/-- `stripTags`: drop tags, then decode the entity chain. -/
def stripTags (html : String) : String :=
  entityChain (rxReplaceAllStr false tagRx "" html)

/-- `decodeEntities` (the same entity chain, no tag removal). -/
def decodeEntities (s : String) : String :=
  entityChain s

mutual

/-- Collapse every JS-whitespace run to a single space (start state). -/
def collapseWs : List Char → List Char
  | [] => []
  | c :: cs => if jsIsSpace c then ' ' :: collapseWsTail cs else c :: collapseWs cs

/-- Collapse state inside a whitespace run. -/
def collapseWsTail : List Char → List Char
  | [] => []
  | c :: cs => if jsIsSpace c then collapseWsTail cs else c :: collapseWs cs

end

/-- `normalizeWhitespace`: `value.replace(/\s+/g, " ").trim()`. -/
def normalizeWhitespace (s : String) : String :=
  jsTrim ⟨collapseWs s.data⟩

/-- Split at the first occurrence of `sep`. -/
def splitFirst (sep : Char) : List Char → Option (List Char × List Char)
  | [] => none
  | c :: cs =>
      if c = sep then some ([], cs)
      else match splitFirst sep cs with
        | none => none
        | some (a, b) => some (c :: a, b)

/-- Split at every occurrence of `sep`. -/
def splitAllOn (sep : Char) : List Char → List (List Char)
  | [] => [[]]
  | c :: cs =>
      let rest := splitAllOn sep cs
      if c = sep then [] :: rest
      else match rest with
        | [] => [[c]]
        | r :: rs => (c :: r) :: rs

/-- Hexadecimal digit value. -/
def hexVal (c : Char) : Option Nat :=
  if c ≥ '0' ∧ c ≤ '9' then some (c.toNat - 48)
  else if c ≥ 'a' ∧ c ≤ 'f' then some (c.toNat - 87)
  else if c ≥ 'A' ∧ c ≤ 'F' then some (c.toNat - 55)
  else none

/-- Decode a form-encoded component into bytes (`+` is space, valid `%XX`
pairs are bytes, everything else contributes its UTF-8 bytes). -/
def formDecodeBytes : List Char → List Nat
  | [] => []
  | '+' :: cs => 0x20 :: formDecodeBytes cs
  | '%' :: c1 :: c2 :: cs =>
      match hexVal c1, hexVal c2 with
      | some h1, some h2 => (h1 * 16 + h2) :: formDecodeBytes cs
      | _, _ => utf8Bytes '%' ++ formDecodeBytes (c1 :: c2 :: cs)
  | c :: cs => utf8Bytes c ++ formDecodeBytes cs

/-- Make a character from a scalar value, replacement char when invalid. -/
def mkScalar (n : Nat) : Char :=
  if n < 0xD800 ∨ (0xE000 ≤ n ∧ n < 0x110000) then Char.ofNat n else '\uFFFD'

/-- UTF-8 decoding with U+FFFD replacement on errors (fuel = list length). -/
def utf8Decode : Nat → List Nat → List Char
  | 0, _ => []
  | _ + 1, [] => []
  | fuel + 1, b :: bs =>
      if b < 0x80 then Char.ofNat b :: utf8Decode fuel bs
      else if 0xC0 ≤ b ∧ b < 0xE0 then
        match bs with
        | b2 :: bs2 =>
            if 0x80 ≤ b2 ∧ b2 < 0xC0 then
              mkScalar ((b - 0xC0) * 64 + (b2 - 0x80)) :: utf8Decode fuel bs2
            else '�' :: utf8Decode fuel bs
        | [] => ['�']
      else if 0xE0 ≤ b ∧ b < 0xF0 then
        match bs with
        | b2 :: b3 :: bs3 =>
            if (0x80 ≤ b2 ∧ b2 < 0xC0) ∧ (0x80 ≤ b3 ∧ b3 < 0xC0) then
              mkScalar ((b - 0xE0) * 4096 + (b2 - 0x80) * 64 + (b3 - 0x80))
                :: utf8Decode fuel bs3
            else '�' :: utf8Decode fuel bs
        | _ => ['�']
      else if 0xF0 ≤ b ∧ b < 0xF8 then
        match bs with
        | b2 :: b3 :: b4 :: bs4 =>
            if (0x80 ≤ b2 ∧ b2 < 0xC0) ∧ (0x80 ≤ b3 ∧ b3 < 0xC0) ∧ (0x80 ≤ b4 ∧ b4 < 0xC0) then
              mkScalar ((b - 0xF0) * 262144 + (b2 - 0x80) * 4096 + (b3 - 0x80) * 64
                + (b4 - 0x80)) :: utf8Decode fuel bs4
            else '�' :: utf8Decode fuel bs
        | _ => ['�']
      else '�' :: utf8Decode fuel bs

/-- Decode a form-encoded component to a string. -/
def formDecode (l : List Char) : String :=
  let bytes := formDecodeBytes l
  ⟨utf8Decode (bytes.length + 1) bytes⟩

/-- Letter test. -/
def isAsciiLetter (c : Char) : Bool :=
  (c ≥ 'A' ∧ c ≤ 'Z') ∨ (c ≥ 'a' ∧ c ≤ 'z')

/-- Very small model of WHATWG URL validity: the string must start with a
scheme (`letter (letter|digit|+|-|.)* :`). -/
def hasScheme (s : String) : Bool :=
  match s.data with
  | [] => false
  | c :: rest =>
      isAsciiLetter c &&
        ((rest.dropWhile (fun d => isAsciiLetter d ∨ (d ≥ '0' ∧ d ≤ '9')
            ∨ d = '+' ∨ d = '-' ∨ d = '.')).head? == some ':')

/-- Model of `new URL(full).searchParams.get(name)`: pick the fragment
off, take the part after the first `?`, split on `&`, and return the
form-decoded value of the first pair whose decoded name matches. -/
def urlQueryParam (full : String) (name : String) : Option String :=
  if hasScheme full then
    let beforeFrag := full.data.takeWhile (fun c => c ≠ '#')
    match splitFirst '?' beforeFrag with
    | none => none
    | some (_, query) =>
        let pairs := (splitAllOn '&' query).map (fun p =>
          match splitFirst '=' p with
          | none => (formDecode p, "")
          | some (n, v) => (formDecode n, formDecode v))
        ((pairs.find? (fun p => p.1 == name)).map Prod.snd)
  else none

/-- `unwrapDdgUrl`: unwrap DDG redirect links through the `uddg` query
parameter, pass through `http...` strings, complete protocol-relative
`//` URLs, and reject everything else. -/
def unwrapDdgUrl (raw : String) : Option String :=
  if jsIncludes raw "duckduckgo.com/l/?" then
    let full := if listStartsWith raw.data "//".data then "https:" ++ raw else raw
    urlQueryParam full "uddg"
  else if listStartsWith raw.data "http".data then some raw
  else if listStartsWith raw.data "//".data then some ("https:" ++ raw)
  else none

/-- The DDG result-block regex
`<div[^>]*class="[^"]*result results_links[^"]*"[^>]*>([\s\S]*?)<\/div>\s*<\/div>` (global). -/
def ddgBlockRx : Rx :=
  rxSeq [rxStr "<div", rxStarG notGt, rxStr "class=\"", rxStarG notDq,
    rxStr "result results_links", rxStarG notDq, rxStr "\"", rxStarG notGt, rxStr ">",
    Rx.grp 1 (rxStarL Rx.anyc), rxStr "</div>", rxStarG wsCls, rxStr "</div>"]

/-- The DDG title regex
`<a[^>]*class="result__a"[^>]*href="([^"]*)"[^>]*>([\s\S]*?)<\/a>`. -/
def ddgTitleRx : Rx :=
  rxSeq [rxStr "<a", rxStarG notGt, rxStr "class=\"result__a\"", rxStarG notGt,
    rxStr "href=\"", Rx.grp 1 (rxStarG notDq), rxStr "\"", rxStarG notGt, rxStr ">",
    Rx.grp 2 (rxStarL Rx.anyc), rxStr "</a>"]

/-- The DDG snippet regex `<a[^>]*class="result__snippet"[^>]*>([\s\S]*?)<\/a>`. -/
def ddgSnippetRx : Rx :=
  rxSeq [rxStr "<a", rxStarG notGt, rxStr "class=\"result__snippet\"", rxStarG notGt,
    rxStr ">", Rx.grp 1 (rxStarL Rx.anyc), rxStr "</a>"]

/-- The DDG fallback anchor regex
`<a[^>]*class=["'][^"']*(result__a|result-link)[^"']*["'][^>]*href=["']([^"']+)["'][^>]*>([\s\S]*?)<\/a>` (global, case-insensitive). -/
def ddgAnchorRx : Rx :=
  rxSeq [rxStr "<a", rxStarG notGt, rxStr "class=", quoteCls, rxStarG notQuote,
    Rx.grp 1 (Rx.alt (rxStr "result__a") (rxStr "result-link")), rxStarG notQuote,
    quoteCls, rxStarG notGt, rxStr "href=", quoteCls, Rx.grp 2 (rxPlus notQuote),
    quoteCls, rxStarG notGt, rxStr ">", Rx.grp 3 (rxStarL Rx.anyc), rxStr "</a>"]

/-- The Bing result-block regex
`<li[^>]*class=["'][^"']*\bb_algo\b[^"']*["'][^>]*>([\s\S]*?)<\/li>` (global, case-insensitive). -/
def bingBlockRx : Rx :=
  rxSeq [rxStr "<li", rxStarG notGt, rxStr "class=", quoteCls, rxStarG notQuote,
    Rx.wordb, rxStr "b_algo", Rx.wordb, rxStarG notQuote, quoteCls, rxStarG notGt,
    rxStr ">", Rx.grp 1 (rxStarL Rx.anyc), rxStr "</li>"]

/-- The Bing link regex `<h2[^>]*>\s*<a[^>]*href=["']([^"']+)["'][^>]*>([\s\S]*?)<\/a>`
(case-insensitive). -/
def bingLinkRx : Rx :=
  rxSeq [rxStr "<h2", rxStarG notGt, rxStr ">", rxStarG wsCls, rxStr "<a", rxStarG notGt,
    rxStr "href=", quoteCls, Rx.grp 1 (rxPlus notQuote), quoteCls, rxStarG notGt,
    rxStr ">", Rx.grp 2 (rxStarL Rx.anyc), rxStr "</a>"]

/-- The Bing snippet regex `<p[^>]*>([\s\S]*?)<\/p>` (case-insensitive). -/
def bingSnippetRx : Rx :=
  rxSeq [rxStr "<p", rxStarG notGt, rxStr ">", Rx.grp 1 (rxStarL Rx.anyc), rxStr "</p>"]

/-- The generic anchor regex
`<a[^>]*href=["']([^"']+)["'][^>]*>([\s\S]*?)<\/a>` (global, case-insensitive). -/
def genericAnchorRx : Rx :=
  rxSeq [rxStr "<a", rxStarG notGt, rxStr "href=", quoteCls, Rx.grp 1 (rxPlus notQuote),
    quoteCls, rxStarG notGt, rxStr ">", Rx.grp 2 (rxStarL Rx.anyc), rxStr "</a>"]

/-- The primary loop of `parseDdgHtmlResults`: process the result blocks
in order, stopping at `maxResults` results; returns the `seen` set and
results. -/
def ddgBlocksLoop (maxR : Nat) :
    List String → List String → List SearchResult → List String × List SearchResult
  | [], seen, acc => (seen, acc)
  | b :: bs, seen, acc =>
      if acc.length < maxR then
        match rxMatchStr false ddgTitleRx b with
        | none => ddgBlocksLoop maxR bs seen acc
        | some (_, caps) =>
            match unwrapDdgUrl (capStr caps 1) with
            | none => ddgBlocksLoop maxR bs seen acc
            | some url =>
                if url = "" ∨ jsTrim (stripTags (capStr caps 2)) = "" then
                  ddgBlocksLoop maxR bs seen acc
                else if seen.contains url then ddgBlocksLoop maxR bs seen acc
                else if isBlockedHost (extractHostname url) then
                  ddgBlocksLoop maxR bs (url :: seen) acc
                else
                  ddgBlocksLoop maxR bs (url :: seen)
                    (acc ++ [⟨jsTrim (stripTags (capStr caps 2)), url,
                      (match rxMatchStr false ddgSnippetRx b with
                        | some (_, c2) => jsTrim (stripTags (capStr c2 1))
                        | none => jsTrim (stripTags "")),
                      if extractHostname url = "" then url else extractHostname url⟩])
      else (seen, acc)

/-- The fallback anchor loop of `parseDdgHtmlResults` (shares the `seen`
set with the primary loop). -/
def ddgAnchorLoop (maxR : Nat) :
    List (List Char × RxCaps) → List String → List SearchResult → List SearchResult
  | [], _, acc => acc
  | (_, caps) :: ms, seen, acc =>
      if acc.length < maxR then
        match unwrapDdgUrl (capStr caps 2) with
        | none => ddgAnchorLoop maxR ms seen acc
        | some href =>
            if href = "" ∨ jsTrim (stripTags (capStr caps 3)) = "" then
              ddgAnchorLoop maxR ms seen acc
            else if seen.contains href then ddgAnchorLoop maxR ms seen acc
            else if isBlockedHost (extractHostname href) then
              ddgAnchorLoop maxR ms (href :: seen) acc
            else
              ddgAnchorLoop maxR ms (href :: seen)
                (acc ++ [⟨jsTrim (stripTags (capStr caps 3)), href, "",
                  if extractHostname href = "" then href else extractHostname href⟩])
      else acc

/-- `parseDdgHtmlResults`: primary block loop; when it yields nothing,
the fallback anchor loop (sharing the `seen` set). -/
def parseDdgHtmlResults (html : String) (maxResults : Nat) : List SearchResult :=
  if (ddgBlocksLoop maxResults
      ((rxExecAllStr false ddgBlockRx html).map (fun m => (⟨m.1⟩ : String)))
      [] []).2.length = 0 then
    ddgAnchorLoop maxResults (rxExecAllStr true ddgAnchorRx html)
      (ddgBlocksLoop maxResults
        ((rxExecAllStr false ddgBlockRx html).map (fun m => (⟨m.1⟩ : String))) [] []).1 []
  else
    (ddgBlocksLoop maxResults
      ((rxExecAllStr false ddgBlockRx html).map (fun m => (⟨m.1⟩ : String))) [] []).2

/-- The block loop of `parseBingHtmlResults`. -/
def bingBlocksLoop (maxR : Nat) :
    List String → List String → List SearchResult → List SearchResult
  | [], _, acc => acc
  | chunk :: bs, seen, acc =>
      if acc.length < maxR then
        match rxMatchStr true bingLinkRx chunk with
        | none => bingBlocksLoop maxR bs seen acc
        | some (_, caps) =>
            if ¬ (isAbsoluteHttpUrl (jsTrim (capStr caps 1))) then
              bingBlocksLoop maxR bs seen acc
            else if seen.contains (jsTrim (capStr caps 1)) then
              bingBlocksLoop maxR bs seen acc
            else if jsTrim (stripTags (capStr caps 2)) = "" then
              bingBlocksLoop maxR bs (jsTrim (capStr caps 1) :: seen) acc
            else if isBlockedHost (extractHostname (jsTrim (capStr caps 1))) then
              bingBlocksLoop maxR bs (jsTrim (capStr caps 1) :: seen) acc
            else
              bingBlocksLoop maxR bs (jsTrim (capStr caps 1) :: seen)
                (acc ++ [⟨jsTrim (stripTags (capStr caps 2)), jsTrim (capStr caps 1),
                  (match rxMatchStr true bingSnippetRx chunk with
                    | some (_, c2) => jsTrim (stripTags (capStr c2 1))
                    | none => ""),
                  if extractHostname (jsTrim (capStr caps 1)) = "" then jsTrim (capStr caps 1)
                  else extractHostname (jsTrim (capStr caps 1))⟩])
      else acc

/-- `parseBingHtmlResults` (the loop runs over capture 1 of each block). -/
def parseBingHtmlResults (html : String) (maxResults : Nat) : List SearchResult :=
  bingBlocksLoop maxResults ((rxExecAllStr true bingBlockRx html).map (fun m => capStr m.2 1))
    [] []

/-- The loop of `parseGenericAnchors`. -/
def genericAnchorsLoop (maxR : Nat) :
    List (List Char × RxCaps) → List String → List SearchResult → List SearchResult
  | [], _, acc => acc
  | (_, caps) :: ms, seen, acc =>
      if acc.length < maxR then
        match unwrapDdgUrl (capStr caps 1) with
        | none => genericAnchorsLoop maxR ms seen acc
        | some href =>
            if href = "" ∨ ¬ (isAbsoluteHttpUrl href) then genericAnchorsLoop maxR ms seen acc
            else if extractHostname href = "" ∨ isBlockedHost (extractHostname href) then
              genericAnchorsLoop maxR ms seen acc
            else if seen.contains href then genericAnchorsLoop maxR ms seen acc
            else if jsTrim (stripTags (capStr caps 2)) = ""
                ∨ (jsTrim (stripTags (capStr caps 2))).data.length < 5 then
              genericAnchorsLoop maxR ms seen acc
            else
              genericAnchorsLoop maxR ms (href :: seen)
                (acc ++ [⟨jsTrim (stripTags (capStr caps 2)), href, "",
                  extractHostname href⟩])
      else acc

/-- `parseGenericAnchors`. -/
def parseGenericAnchors (html : String) (maxResults : Nat) : List SearchResult :=
  genericAnchorsLoop maxResults (rxExecAllStr true genericAnchorRx html) [] []

-- ----------------------------------------------------------------------
-- Search fallback engine (index.ts lines 211-347)
-- ----------------------------------------------------------------------

/-- Outcome of one HTTP fetch of a provider endpoint: the thrown error
message (timeout, network failure), or a status and body. -/
inductive FetchOutcome where
  | fail (msg : String)
  | resp (status : Nat) (body : String)
deriving Repr, DecidableEq

/-- The responses the three live endpoints would give during one search
call (each endpoint is fetched at most once per call). -/
structure SearchNetwork where
  ddgHtml : FetchOutcome
  ddgLite : FetchOutcome
  bing : FetchOutcome
deriving Repr, DecidableEq

/-- `Response.ok` (status in the 2xx range). -/
def respOk (status : Nat) : Bool :=
  200 ≤ status ∧ status ≤ 299

/-- `searchDdgHtml`: non-2xx throws, otherwise parse; on zero parsed
results retry the generic anchor scan and keep it only when non-empty. -/
def searchDdgHtml (net : SearchNetwork) (maxResults : Nat) :
    Except String (List SearchResult) :=
  match net.ddgHtml with
  | .fail msg => .error msg
  | .resp status body =>
      if respOk status then
        if (parseDdgHtmlResults body maxResults).length = 0 then
          if (parseGenericAnchors body maxResults).length > 0 then
            .ok (parseGenericAnchors body maxResults)
          else .ok (parseDdgHtmlResults body maxResults)
        else .ok (parseDdgHtmlResults body maxResults)
      else .error ("DuckDuckGo HTML returned HTTP " ++ toString status)

/-- `searchDdgLite` (same shape; zero results always fall back to the
generic anchor scan). -/
def searchDdgLite (net : SearchNetwork) (maxResults : Nat) :
    Except String (List SearchResult) :=
  match net.ddgLite with
  | .fail msg => .error msg
  | .resp status body =>
      if respOk status then
        if (parseDdgHtmlResults body maxResults).length = 0 then
          .ok (parseGenericAnchors body maxResults)
        else .ok (parseDdgHtmlResults body maxResults)
      else .error ("DuckDuckGo Lite returned HTTP " ++ toString status)

/-- `searchBingHtml`. -/
def searchBingHtml (net : SearchNetwork) (maxResults : Nat) :
    Except String (List SearchResult) :=
  match net.bing with
  | .fail msg => .error msg
  | .resp status body =>
      if respOk status then
        if (parseBingHtmlResults body maxResults).length = 0 then
          .ok (parseGenericAnchors body maxResults)
        else .ok (parseBingHtmlResults body maxResults)
      else .error ("Bing returned HTTP " ++ toString status)

/-- One entry of the `attempts` log (type `SearchAttempt`). -/
structure SearchAttempt where
  provider : String
  ok : Bool
  count : Option Nat
  error : Option String
deriving Repr, DecidableEq

/-- The two module-level cooldown timestamps. -/
structure SearchCooldowns where
  ddgBlockedUntil : Nat
  bingBlockedUntil : Nat
deriving Repr, DecidableEq

/-- `RATE_LIMIT_COOLDOWN_MS`. -/
def RATE_LIMIT_COOLDOWN_MS : Nat := 60000

/-- The rate-limit-detection regex
`/HTTP 403|HTTP 429|rate.?limit|too many requests/i`. -/
def rateLimitRx : Rx :=
  rxAlts [rxStr "HTTP 403", rxStr "HTTP 429",
    rxSeq [rxStr "rate", rxOpt dotCls, rxStr "limit"], rxStr "too many requests"]

/-- `isRateLimitError`. -/
def isRateLimitError (msg : String) : Bool :=
  rxTest true rateLimitRx msg

/-- Result of `searchWithFallbacks` plus the cooldown state after the
call. -/
structure SearchOutcome where
  results : List SearchResult
  provider : String
  attempts : List SearchAttempt
  cooldowns : SearchCooldowns
deriving Repr, DecidableEq

/-- Intermediate state of the fallback chain: results so far, `provider`,
`attempts`, cooldowns. -/
abbrev SwfState := List SearchResult × String × List SearchAttempt × SearchCooldowns

/-- Step 1 of `searchWithFallbacks`: DDG HTML, skipped with a logged
`skipped (rate-limited)` attempt while the DDG cooldown is active. -/
def swfStep1 (net : SearchNetwork) (maxResults now : Nat) (cd : SearchCooldowns) :
    SwfState :=
  if ¬ (now < cd.ddgBlockedUntil) then
    match searchDdgHtml net maxResults with
    | .ok rs =>
        (rs, "duckduckgo_html",
          [(⟨"duckduckgo_html", true, some rs.length, none⟩ : SearchAttempt)], cd)
    | .error msg =>
        ([], "duckduckgo_html",
          [(⟨"duckduckgo_html", false, none, some msg⟩ : SearchAttempt)],
          if isRateLimitError msg then
            { cd with ddgBlockedUntil := now + RATE_LIMIT_COOLDOWN_MS }
          else cd)
  else
    ([], "none",
      [(⟨"duckduckgo_html", false, none, some "skipped (rate-limited)"⟩ : SearchAttempt)],
      cd)

/-- Step 2: DDG Lite, tried only when no results yet and the (re-read)
DDG cooldown is inactive; a cooldown skip here logs nothing. -/
def swfStep2 (net : SearchNetwork) (maxResults now : Nat) (s : SwfState) : SwfState :=
  if s.1.length = 0 ∧ ¬ (now < s.2.2.2.ddgBlockedUntil) then
    match searchDdgLite net maxResults with
    | .ok rs =>
        (rs, "duckduckgo_lite",
          s.2.2.1 ++ [(⟨"duckduckgo_lite", true, some rs.length, none⟩ : SearchAttempt)],
          s.2.2.2)
    | .error msg =>
        ([], "duckduckgo_lite",
          s.2.2.1 ++ [(⟨"duckduckgo_lite", false, none, some msg⟩ : SearchAttempt)],
          if isRateLimitError msg then
            { s.2.2.2 with ddgBlockedUntil := now + RATE_LIMIT_COOLDOWN_MS }
          else s.2.2.2)
  else s

/-- Step 3: Bing, tried only when no results yet and the Bing cooldown is
inactive; a cooldown skip logs nothing. -/
def swfStep3 (net : SearchNetwork) (maxResults now : Nat) (s : SwfState) : SwfState :=
  if s.1.length = 0 ∧ ¬ (now < s.2.2.2.bingBlockedUntil) then
    match searchBingHtml net maxResults with
    | .ok rs =>
        (rs, "bing_html",
          s.2.2.1 ++ [(⟨"bing_html", true, some rs.length, none⟩ : SearchAttempt)],
          s.2.2.2)
    | .error msg =>
        ([], "bing_html",
          s.2.2.1 ++ [(⟨"bing_html", false, none, some msg⟩ : SearchAttempt)],
          if isRateLimitError msg then
            { s.2.2.2 with bingBlockedUntil := now + RATE_LIMIT_COOLDOWN_MS }
          else s.2.2.2)
  else s

/-- Step 4: the synthetic merchant fallback (always succeeds). -/
def swfStep4 (query : String) (maxResults : Nat) (s : SwfState) : SwfState :=
  if s.1.length = 0 then
    let rs := buildFallbackMerchantLinks query maxResults
    (rs, "fallback_merchant_links",
      s.2.2.1 ++ [(⟨"fallback_merchant_links", true, some rs.length, none⟩ : SearchAttempt)],
      s.2.2.2)
  else s

/-- `searchWithFallbacks`: DDG HTML, DDG Lite, Bing, merchant fallback;
the final result list is sliced to `maxResults`.  `now` is the constant
value of `Date.now()` during the call; `region` only affects the request
URLs, which the network oracle already accounts for. -/
def searchWithFallbacks (query : String) (maxResults : Nat) (region : Option String)
    (net : SearchNetwork) (now : Nat) (cd : SearchCooldowns) : SearchOutcome :=
  let _ := region
  let s4 := swfStep4 query maxResults
    (swfStep3 net maxResults now (swfStep2 net maxResults now (swfStep1 net maxResults now cd)))
  { results := s4.1.take maxResults
    provider := s4.2.1
    attempts := s4.2.2.1
    cooldowns := s4.2.2.2 }

/-- The URL guarantee of a live-provider or fallback search result: its
host (as the code extracts it) is not blocked, and the URL is either
absolute (`^https?://`) or an output of `unwrapDdgUrl` (a DDG-parsed URL:
a string starting in "http", a completed protocol-relative URL, or a raw
`uddg` redirect parameter). -/
def GoodSearchUrl (r : SearchResult) : Prop :=
  isBlockedHost (extractHostname r.url) = false
  ∧ (isAbsoluteHttpUrl r.url = true ∨ ∃ raw, unwrapDdgUrl raw = some r.url)

-- ----------------------------------------------------------------------
-- JSON values and `JSON.parse` (used by the JSON-LD extractor)
-- ----------------------------------------------------------------------

/-- JSON values; objects are insertion-ordered association lists with
unique keys (duplicate keys overwrite in place, as in JS). -/
inductive Json where
  | jnull
  | jbool (b : Bool)
  | jnum (q : ℚ)
  | jstr (s : String)
  | jarr (xs : List Json)
  | jobj (fields : List (String × Json))
deriving Repr

/-- JS object-field write: overwrite in place or append. -/
def objUpsert (fields : List (String × Json)) (k : String) (v : Json) :
    List (String × Json) :=
  match fields with
  | [] => [(k, v)]
  | (k0, v0) :: rest =>
      if k0 = k then (k0, v) :: rest else (k0, v0) :: objUpsert rest k v

/-- JS object-field read (fields have unique keys). -/
def jsonGet (fields : List (String × Json)) (k : String) : Option Json :=
  (fields.find? (fun f => f.1 = k)).map Prod.snd

/-- Same write operation for string-valued objects
(`Record<string, string>`). -/
def objUpsertStr (fields : List (String × String)) (k v : String) :
    List (String × String) :=
  match fields with
  | [] => [(k, v)]
  | (k0, v0) :: rest =>
      if k0 = k then (k0, v) :: rest else (k0, v0) :: objUpsertStr rest k v

/-- JS object spread `{...a, ...b}` for string maps. -/
def objMergeStr (a b : List (String × String)) : List (String × String) :=
  b.foldl (fun acc f => objUpsertStr acc f.1 f.2) a

/-- JSON whitespace. -/
def jsonWsChar (c : Char) : Bool :=
  c = ' ' ∨ c = '\t' ∨ c = '\n' ∨ c = '\r'

/-- Parse a JSON string body after the opening quote; returns the string
and the rest after the closing quote. -/
def parseJsonString : Nat → List Char → Option (List Char × List Char)
  | 0, _ => none
  | _ + 1, [] => none
  | fuel + 1, c :: cs =>
      if c = '"' then some ([], cs)
      else if c = '\\' then
        match cs with
        | [] => none
        | e :: es =>
            let simple : Option Char :=
              if e = '"' then some '"'
              else if e = '\\' then some '\\'
              else if e = '/' then some '/'
              else if e = 'b' then some '\x08'
              else if e = 'f' then some '\x0c'
              else if e = 'n' then some '\n'
              else if e = 'r' then some '\r'
              else if e = 't' then some '\t'
              else none
            match simple with
            | some d =>
                match parseJsonString fuel es with
                | some (s, rest) => some (d :: s, rest)
                | none => none
            | none =>
                if e = 'u' then
                  match es with
                  | h1 :: h2 :: h3 :: h4 :: es4 =>
                      match hexVal h1, hexVal h2, hexVal h3, hexVal h4 with
                      | some a, some b, some c2, some d =>
                          match parseJsonString fuel es4 with
                          | some (s, rest) =>
                              some (mkScalar (a * 4096 + b * 256 + c2 * 16 + d) :: s, rest)
                          | none => none
                      | _, _, _, _ => none
                  | _ => none
                else none
      else
        match parseJsonString fuel cs with
        | some (s, rest) => some (c :: s, rest)
        | none => none

/-- Parse the digit run at the head of the input. -/
def takeDigits (l : List Char) : List Char × List Char :=
  (l.takeWhile (fun c => c ≥ '0' ∧ c ≤ '9'), l.dropWhile (fun c => c ≥ '0' ∧ c ≤ '9'))

/-- Digits to a natural number. -/
def digitsToNat (l : List Char) : Nat :=
  l.foldl (fun acc c => acc * 10 + (c.toNat - 48)) 0

/-- Parse a JSON number (`-? int frac? exp?`). -/
def parseJsonNumber (l : List Char) : Option (ℚ × List Char) :=
  let (neg, l1) := match l with
    | '-' :: rest => (true, rest)
    | _ => (false, l)
  let (intDigits, l2) := takeDigits l1
  if intDigits.isEmpty then none
  else
    let (fracDigits, l3) := match l2 with
      | '.' :: rest =>
          let (fd, r) := takeDigits rest
          if fd.isEmpty then ([], l2) else (fd, r)
      | _ => ([], l2)
    let (expVal, l4) : Option ℤ × List Char := match l3 with
      | 'e' :: rest | 'E' :: rest =>
          let (esign, r1) : Bool × List Char := match rest with
            | '-' :: r => (true, r)
            | '+' :: r => (false, r)
            | _ => (false, rest)
          let (ed, r2) := takeDigits r1
          if ed.isEmpty then (none, l3)
          else (some (if esign then -(digitsToNat ed : ℤ) else (digitsToNat ed : ℤ)), r2)
      | _ => (none, l3)
    match l3, fracDigits with
    | '.' :: _, [] => none
    | _, _ =>
        let mantissa : ℚ := (digitsToNat intDigits : ℚ)
          + (digitsToNat fracDigits : ℚ) / ((10 : ℚ) ^ fracDigits.length)
        let signed := if neg then -mantissa else mantissa
        let scaled := match expVal with
          | some e => signed * (10 : ℚ) ^ e
          | none => signed
        some (scaled, l4)

mutual

/-- The JSON value parser (fuel-based recursive descent).  Returns the
value and the rest of the input after it. -/
def parseJsonValue : Nat → List Char → Option (Json × List Char)
  | 0, _ => none
  | fuel + 1, l =>
      match l.dropWhile jsonWsChar with
      | [] => none
      | c :: cs =>
          if c = '{' then
            parseJsonObj fuel (cs.dropWhile jsonWsChar) []
          else if c = '[' then
            parseJsonArr fuel (cs.dropWhile jsonWsChar) []
          else if c = '"' then
            match parseJsonString (cs.length + 1) cs with
            | some (s, rest) => some (Json.jstr ⟨s⟩, rest)
            | none => none
          else if listStartsWith (c :: cs) "true".data then
            some (Json.jbool true, (c :: cs).drop 4)
          else if listStartsWith (c :: cs) "false".data then
            some (Json.jbool false, (c :: cs).drop 5)
          else if listStartsWith (c :: cs) "null".data then
            some (Json.jnull, (c :: cs).drop 4)
          else
            match parseJsonNumber (c :: cs) with
            | some (q, rest) => some (Json.jnum q, rest)
            | none => none

/-- Object-member parser (after the opening brace, leading ws consumed). -/
def parseJsonObj : Nat → List Char → List (String × Json) → Option (Json × List Char)
  | 0, _, _ => none
  | fuel + 1, l, acc =>
      match l with
      | '}' :: rest =>
          if acc.isEmpty then some (Json.jobj [], rest) else none
      | _ =>
          match l with
          | '"' :: cs =>
              match parseJsonString (cs.length + 1) cs with
              | none => none
              | some (key, r1) =>
                  match r1.dropWhile jsonWsChar with
                  | ':' :: r2 =>
                      match parseJsonValue fuel r2 with
                      | none => none
                      | some (v, r3) =>
                          match r3.dropWhile jsonWsChar with
                          | ',' :: r4 =>
                              parseJsonObj fuel (r4.dropWhile jsonWsChar)
                                (objUpsert acc ⟨key⟩ v)
                          | '}' :: r4 => some (Json.jobj (objUpsert acc ⟨key⟩ v), r4)
                          | _ => none
                  | _ => none
          | _ => none

/-- Array-element parser (after the opening bracket, leading ws
consumed). -/
def parseJsonArr : Nat → List Char → List Json → Option (Json × List Char)
  | 0, _, _ => none
  | fuel + 1, l, acc =>
      match l with
      | ']' :: rest =>
          if acc.isEmpty then some (Json.jarr [], rest) else none
      | _ =>
          match parseJsonValue fuel l with
          | none => none
          | some (v, r1) =>
              match r1.dropWhile jsonWsChar with
              | ',' :: r2 => parseJsonArr fuel (r2.dropWhile jsonWsChar) (acc ++ [v])
              | ']' :: r2 => some (Json.jarr (acc ++ [v]), r2)
              | _ => none

end

/-- `parseJsonSafely`: `JSON.parse` returning null on failure — `none`
when the input is not a single JSON value with only whitespace around
it. -/
def parseJsonSafely (input : String) : Option Json :=
  match parseJsonValue (input.data.length + 1) input.data with
  | none => none
  | some (v, rest) => if (rest.dropWhile jsonWsChar).isEmpty then some v else none

/-- JS truthiness of a JSON value (an absent field is falsy). -/
def jsTruthyJson : Option Json → Bool
  | none => false
  | some Json.jnull => false
  | some (Json.jbool b) => b
  | some (Json.jnum q) => q ≠ 0
  | some (Json.jstr s) => s ≠ ""
  | some (Json.jarr _) => true
  | some (Json.jobj _) => true

-- ----------------------------------------------------------------------
-- Product extractor (index.ts lines 415-900)
-- ----------------------------------------------------------------------

/-- JS string truthiness of an optional string field. -/
def jsTruthyOptStr : Option String → Bool
  | none => false
  | some s => s ≠ ""

/-- Keep only digits and dots: the composition of
`replace(/[, ]/g, "")` and `replace(/[^0-9.]/g, "")` in `toNumber`. -/
def jsCleanNumStr (s : String) : String :=
  ⟨s.data.filter (fun c => (c ≥ '0' ∧ c ≤ '9') ∨ c = '.')⟩

/-- JS `Number()` on a digits-and-dots string (the only shape `toNumber`
feeds it): at most one dot, and at least one digit somewhere. -/
def jsNumberOfCleaned (s : String) : Option ℚ :=
  match splitFirst '.' s.data with
  | none => some (digitsToNat s.data : ℚ)
  | some (intPart, rest) =>
      if rest.contains '.' then none
      else if intPart.isEmpty ∧ rest.isEmpty then none
      else some ((digitsToNat intPart : ℚ)
        + (digitsToNat rest : ℚ) / ((10 : ℚ) ^ rest.length))

/-- `toNumber` on a string value. -/
def toNumberStr (s : String) : Option ℚ :=
  if jsCleanNumStr s = "" then none else jsNumberOfCleaned (jsCleanNumStr s)

/-- `toNumber` on a JSON value (finite numbers pass, strings are cleaned
and parsed, everything else is null). -/
def toNumberJson : Json → Option ℚ
  | Json.jnum q => some q
  | Json.jstr s => toNumberStr s
  | _ => none

/-- `toNumber` on an optional JSON field. -/
def toNumberJsonOpt : Option Json → Option ℚ
  | none => none
  | some j => toNumberJson j

/-- `firstString` over JSON values: the first string member that is
non-empty after entity decoding and whitespace normalization. -/
def firstStringJson : List Json → Option String
  | [] => none
  | Json.jstr s :: rest =>
      if normalizeWhitespace (decodeEntities s) = "" then firstStringJson rest
      else some (normalizeWhitespace (decodeEntities s))
  | _ :: rest => firstStringJson rest

/-- `firstString` over optional strings (the microdata call sites). -/
def firstStringOpts : List (Option String) → Option String
  | [] => none
  | none :: rest => firstStringOpts rest
  | some s :: rest =>
      if normalizeWhitespace (decodeEntities s) = "" then firstStringOpts rest
      else some (normalizeWhitespace (decodeEntities s))

/-- `stringArray` on a JSON field. -/
def stringArrayJson : Option Json → List String
  | some (Json.jarr xs) =>
      ((xs.filterMap (fun v => match v with
        | Json.jstr s => some (normalizeWhitespace (decodeEntities s))
        | _ => none)).filter (fun v => v ≠ ""))
  | some (Json.jstr s) =>
      if normalizeWhitespace (decodeEntities s) = "" then []
      else [normalizeWhitespace (decodeEntities s)]
  | _ => []

/-- Case-insensitive whole-word test `/\b<w>\b/i`. -/
def wordTest (w : String) (raw : String) : Bool :=
  rxTest true (rxSeq [Rx.wordb, rxStr w, Rx.wordb]) raw

/-- `parseCurrencyFromPrice`. -/
def parseCurrencyFromPrice (raw : String) : Option String :=
  if jsIncludes raw "£" ∨ wordTest "GBP" raw then some "GBP"
  else if jsIncludes raw "$" ∨ wordTest "USD" raw then some "USD"
  else if jsIncludes raw "€" ∨ wordTest "EUR" raw then some "EUR"
  else if wordTest "CAD" raw then some "CAD"
  else if wordTest "AUD" raw then some "AUD"
  else if wordTest "JPY" raw ∨ jsIncludes raw "¥" then some "JPY"
  else if wordTest "INR" raw ∨ jsIncludes raw "₹" then some "INR"
  else none

/-- `normalizeAvailability`. -/
def normalizeAvailability : Option String → Option String
  | none => none
  | some v =>
      if v = "" then none
      else if jsIncludes (asciiLower v) "instock" ∨ jsIncludes (asciiLower v) "in stock" then
        some "in_stock"
      else if jsIncludes (asciiLower v) "outofstock"
          ∨ jsIncludes (asciiLower v) "out of stock" then some "out_of_stock"
      else if jsIncludes (asciiLower v) "preorder" ∨ jsIncludes (asciiLower v) "pre-order" then
        some "preorder"
      else if jsIncludes (asciiLower v) "limited" then some "limited"
      else some (normalizeWhitespace v)

/-- Whether a JSON node's `@type` names a Product (case-insensitively). -/
def hasProductType (fields : List (String × Json)) : Bool :=
  (match jsonGet fields "@type" with
    | some (Json.jarr xs) => xs
    | some t => [t]
    | none => []).any (fun t => match t with
      | Json.jstr s => asciiLower s = "product"
      | _ => false)

/-- `collectProductNodes`: collect every (transitively reachable through
arrays and `@graph`) object whose `@type` is Product, in traversal
order. -/
def collectProductNodes : Nat → Json → List (List (String × Json))
  | 0, _ => []
  | fuel + 1, node =>
      if ¬ jsTruthyJson (some node) then []
      else match node with
        | Json.jarr xs => xs.flatMap (collectProductNodes fuel)
        | Json.jobj fields =>
            (if hasProductType fields then [fields] else [])
              ++ (match jsonGet fields "@graph" with
                | some g => if jsTruthyJson (some g) then collectProductNodes fuel g else []
                | none => [])
        | _ => []

/-- `scoreProductNode`. -/
def scoreProductNode (fields : List (String × Json)) : Nat :=
  (if (match jsonGet fields "name" with | some (Json.jstr _) => true | _ => false)
    then 3 else 0)
  + (if jsTruthyJson (jsonGet fields "offers") then 3 else 0)
  + (if jsTruthyJson (jsonGet fields "brand") then 1 else 0)
  + (if jsTruthyJson (jsonGet fields "image") then 1 else 0)
  + (if jsTruthyJson (jsonGet fields "category") then 1 else 0)

/-- Stable-descending ordering key for the candidate sort
(`candidates.sort((a, b) => score(b) - score(a))`, JS sort is stable). -/
def jsonNodeLex (a b : Nat × List (String × Json)) : Prop :=
  scoreProductNode b.2 < scoreProductNode a.2
    ∨ (scoreProductNode a.2 = scoreProductNode b.2 ∧ a.1 ≤ b.1)

instance : DecidableRel jsonNodeLex := fun a b =>
  inferInstanceAs (Decidable (_ ∨ _))

instance : IsTotal (Nat × List (String × Json)) jsonNodeLex where
  total a b := by
    rcases lt_trichotomy (scoreProductNode a.2) (scoreProductNode b.2) with h | h | h
    · exact Or.inr (Or.inl h)
    · rcases Nat.le_total a.1 b.1 with h2 | h2
      · exact Or.inl (Or.inr ⟨h, h2⟩)
      · exact Or.inr (Or.inr ⟨h.symm, h2⟩)
    · exact Or.inl (Or.inl h)

instance : IsTrans (Nat × List (String × Json)) jsonNodeLex where
  trans _a _b _c hab hbc := by
    rcases hab with h1 | ⟨h1, h1i⟩ <;> rcases hbc with h2 | ⟨h2, h2i⟩
    · exact Or.inl (h2.trans h1)
    · exact Or.inl (h2 ▸ h1)
    · exact Or.inl (h2.trans_eq h1.symm)
    · exact Or.inr ⟨h1.trans h2, h1i.trans h2i⟩

/-- Partial extraction record (interface `StructuredExtract`); absent
fields are `none` / `[]`. -/
structure StructuredExtract where
  name : Option String
  price : Option ℚ
  currency : Option String
  availability : Option String
  brand : Option String
  category : Option String
  key_features : List String
  images : List String
  specs : List (String × String)
  usedStructuredData : Bool
deriving Repr, DecidableEq

/-- The JSON-LD script regex
`<script[^>]*type=["']application\/ld\+json["'][^>]*>([\s\S]*?)<\/script>` (global, case-insensitive). -/
def jsonLdScriptRx : Rx :=
  rxSeq [rxStr "<script", rxStarG notGt, rxStr "type=", quoteCls,
    rxStr "application/ld+json", quoteCls, rxStarG notGt, rxStr ">",
    Rx.grp 1 (rxStarL Rx.anyc), rxStr "</script>"]

/-- The description-splitting separator `/[.•]\s+/`. -/
def descSepRx : Rx :=
  rxSeq [Rx.cls false [('.', '.'), ('•', '•')], rxPlus wsCls]

/-- Specs from the `additionalProperty` array of a JSON-LD node. -/
def jsonLdSpecs (fields : List (String × Json)) : List (String × String) :=
  (match jsonGet fields "additionalProperty" with
    | some (Json.jarr xs) => xs
    | _ => []).foldl (fun acc item =>
      match item with
      | Json.jobj p =>
          match firstStringJson [(jsonGet p "name").getD Json.jnull],
              firstStringJson [(jsonGet p "value").getD Json.jnull] with
          | some key, some val => objUpsertStr acc key val
          | _, _ => acc
      | _ => acc) []

/-- `extractFromJsonLd` applied to the winning product node. -/
def jsonLdFromNode (fields : List (String × Json)) : StructuredExtract :=
  let offers : List Json :=
    match jsonGet fields "offers" with
    | some (Json.jarr xs) => xs
    | some o => if jsTruthyJson (some o) then [o] else []
    | none => []
  let offer : Option Json :=
    match offers.find? (fun o => match o with
      | Json.jobj ofl => (jsonGet ofl "price").isSome
      | _ => false) with
    | some o => some o
    | none => offers.head?
  let description := firstStringJson [(jsonGet fields "description").getD Json.jnull]
  { name := firstStringJson [(jsonGet fields "name").getD Json.jnull]
    price := (match offer with
      | some (Json.jobj ofl) => toNumberJsonOpt (jsonGet ofl "price")
      | _ => none)
    currency := (match offer with
      | some (Json.jobj ofl) => firstStringJson [(jsonGet ofl "priceCurrency").getD Json.jnull]
      | _ => none)
    availability := (match offer with
      | some (Json.jobj ofl) =>
          normalizeAvailability (firstStringJson [(jsonGet ofl "availability").getD Json.jnull])
      | _ => none)
    brand := (match jsonGet fields "brand" with
      | some (Json.jstr s) => firstStringJson [Json.jstr s]
      | some (Json.jobj bf) => firstStringJson [(jsonGet bf "name").getD Json.jnull]
      | _ => none)
    category := firstStringJson [(jsonGet fields "category").getD Json.jnull]
    key_features := (match description with
      | some d => (((rxSplitStr false descSepRx d).map normalizeWhitespace).filter
          (fun v => v ≠ "")).take 6
      | none => [])
    images := stringArrayJson (jsonGet fields "image")
    specs := jsonLdSpecs fields
    usedStructuredData := true }

/-- `extractFromJsonLd`: gather the Product nodes of every JSON-LD
script, pick the best-scoring one (stable), and read its fields. -/
def extractFromJsonLd (html : String) : StructuredExtract :=
  match (((((rxExecAllStr true jsonLdScriptRx html).map (fun m => capStr m.2 1)).foldl
      (fun acc s => match parseJsonSafely (jsTrim s) with
        | some parsed => acc ++ collectProductNodes (s.data.length + 1) parsed
        | none => acc) []).enum.insertionSort jsonNodeLex).map Prod.snd) with
  | [] => ⟨none, none, none, none, none, none, [], [], [], false⟩
  | fields :: _ => jsonLdFromNode fields

/-- `[a-zA-Z0-9]`. -/
def alnumCls : Rx :=
  Rx.cls false [('A', 'Z'), ('a', 'z'), ('0', '9')]

/-- The constructed itemprop regex (two alternatives: a paired tag with a
backreference to its name, or a self-closing/void tag). -/
def itempropRx (prop : String) : Rx :=
  Rx.alt
    (rxSeq [Rx.chr '<', Rx.grp 1 (rxPlus alnumCls),
      Rx.grp 2 (rxSeq [rxStarG notGt, Rx.wordb, rxStr "itemprop=", quoteCls,
        rxStarG notQuote, Rx.wordb, rxStr prop, Rx.wordb, rxStarG notQuote, quoteCls,
        rxStarG notGt]),
      rxStr ">", Rx.grp 3 (rxStarL Rx.anyc), rxStr "</", Rx.bref 1, rxStr ">"])
    (rxSeq [Rx.chr '<', Rx.grp 4 (rxPlus alnumCls),
      Rx.grp 5 (rxSeq [rxStarG notGt, Rx.wordb, rxStr "itemprop=", quoteCls,
        rxStarG notQuote, Rx.wordb, rxStr prop, Rx.wordb, rxStarG notQuote, quoteCls,
        rxStarG notGt]),
      rxOpt (Rx.chr '/'), rxStarG wsCls, rxStr ">"])

/-- The constructed attribute regex of `getAttr`. -/
def getAttrRx (name : String) : Rx :=
  rxSeq [Rx.wordb, rxStr name, rxStarG wsCls, Rx.chr '=', rxStarG wsCls, quoteCls,
    Rx.grp 1 (rxPlus notQuote), quoteCls]

/-- `getAttr`. -/
def getAttr (attrs name : String) : Option String :=
  match rxMatchStr true (getAttrRx name) attrs with
  | some (_, caps) => some (jsTrim (decodeEntities (capStr caps 1)))
  | none => none

/-- `extractItempropValues`. -/
def extractItempropValues (html prop : String) : List String :=
  (rxExecAllStr true (itempropRx prop) html).foldl (fun out m =>
    let attrs := if capStr m.2 2 ≠ "" then capStr m.2 2 else capStr m.2 5
    let inner := capStr m.2 3
    match firstStringOpts [getAttr attrs "content", getAttr attrs "value",
        getAttr attrs "href", getAttr attrs "src",
        some (normalizeWhitespace (stripTags inner))] with
    | some v => out ++ [v]
    | none => out) []

/-- `extractFromMicrodata`. -/
def extractFromMicrodata (html : String) : StructuredExtract :=
  let name := firstStringOpts ((extractItempropValues html "name").map some)
  let brand := firstStringOpts ((extractItempropValues html "brand").map some)
  let category := firstStringOpts ((extractItempropValues html "category").map some)
  let image := extractItempropValues html "image"
  let availability :=
    normalizeAvailability (firstStringOpts ((extractItempropValues html "availability").map some))
  let priceCandidates := extractItempropValues html "price"
  let price := match firstStringOpts (priceCandidates.map some) with
    | some s => toNumberStr s
    | none => none
  let currency :=
    match firstStringOpts ((extractItempropValues html "priceCurrency").map some) with
    | some c => some c
    | none =>
        match priceCandidates.head? with
        | some p0 => parseCurrencyFromPrice p0
        | none => none
  let specs := (extractItempropValues html "additionalProperty").foldl (fun acc p =>
    match splitFirst ':' p.data with
    | none => acc
    | some (k, v) =>
        if normalizeWhitespace ⟨k⟩ ≠ "" ∧ normalizeWhitespace ⟨v⟩ ≠ "" then
          objUpsertStr acc (normalizeWhitespace ⟨k⟩) (normalizeWhitespace ⟨v⟩)
        else acc) []
  { name := name
    price := price
    currency := currency
    availability := availability
    brand := brand
    category := category
    key_features := []
    images := image
    specs := specs
    usedStructuredData :=
      name.isSome ∨ price.isSome ∨ jsTruthyOptStr currency ∨ jsTruthyOptStr availability
        ∨ brand.isSome ∨ category.isSome ∨ image.length > 0 }
-- Text-level extractors (index.ts lines 659-820).

/-- Position-tracking global exec (for `match.index`). -/
def rxExecAllPos (ci : Bool) (r : Rx) :
    Nat → Nat → List Char → Option Char → List (Nat × List Char × RxCaps)
  | 0, _, _, _ => []
  | fuel + 1, pos, input, prev =>
      match rxSearch ci r (input.length + 1) input prev with
      | none => []
      | some (sk, m, rest, caps) =>
          if m.isEmpty then
            match rest with
            | [] => [(pos + sk.length, m, caps)]
            | c :: cs =>
                (pos + sk.length, m, caps)
                  :: rxExecAllPos ci r fuel (pos + sk.length + 1) cs (some c)
          else
            (pos + sk.length, m, caps)
              :: rxExecAllPos ci r fuel (pos + sk.length + m.length) rest
                (match m.getLast? with
                  | some d => some d
                  | none => (sk.getLast?).orElse (fun _ => prev))

/-- Position-tracking global exec over a whole string. -/
def rxExecAllPosStr (ci : Bool) (r : Rx) (s : String) : List (Nat × List Char × RxCaps) :=
  rxExecAllPos ci r (s.data.length + 1) 0 s.data none

/-- `/\b(logo|icon|sprite|pixel|tracking|badge|banner|avatar|flag|arrow|spinner|loading|placeholder|blank|spacer)\b/`. -/
def junkWordRx : Rx :=
  rxSeq [Rx.wordb, Rx.grp 1 (rxAlts [rxStr "logo", rxStr "icon", rxStr "sprite",
    rxStr "pixel", rxStr "tracking", rxStr "badge", rxStr "banner", rxStr "avatar",
    rxStr "flag", rxStr "arrow", rxStr "spinner", rxStr "loading", rxStr "placeholder",
    rxStr "blank", rxStr "spacer"]), Rx.wordb]

/-- `/\.(gif|svg)(\?|$)/`. -/
def junkExtRx : Rx :=
  rxSeq [Rx.chr '.', Rx.grp 1 (rxAlts [rxStr "gif", rxStr "svg"]),
    Rx.grp 2 (Rx.alt (Rx.chr '?') Rx.eos)]

/-- `/1x1|transparent|base64/`. -/
def junkMiscRx : Rx :=
  rxAlts [rxStr "1x1", rxStr "transparent", rxStr "base64"]

/-- `isJunkImage`. -/
def isJunkImage (src : String) : Bool :=
  rxTest false junkWordRx (asciiLower src)
    ∨ rxTest false junkExtRx (asciiLower src)
    ∨ rxTest false (rxStr "data:image") (asciiLower src)
    ∨ rxTest false junkMiscRx (asciiLower src)
    ∨ (asciiLower src).data.length < 10

/-- The og/twitter-image meta regex. -/
def metaImgRx : Rx :=
  rxSeq [rxStr "<meta", rxPlus notGt,
    rxAlts [rxStr "property", rxStr "name"], rxStr "=", quoteCls,
    rxAlts [rxStr "og:image", rxStr "twitter:image", rxStr "image"], quoteCls,
    rxPlus notGt, rxStr "content=", quoteCls, Rx.grp 1 (rxPlus notQuote), quoteCls,
    rxStarG notGt, rxStr ">"]

/-- `/<img[^>]+src=["\x27]([^"\x27]+)["\x27][^>]*>/gi`. -/
def productImgRx : Rx :=
  rxSeq [rxStr "<img", rxPlus notGt, rxStr "src=", quoteCls,
    Rx.grp 1 (rxPlus notQuote), quoteCls, rxStarG notGt, rxStr ">"]

/-- `/\b(product|hero|main|gallery|primary|detail)\b/`. -/
def productWordRx : Rx :=
  rxSeq [Rx.wordb, Rx.grp 1 (rxAlts [rxStr "product", rxStr "hero", rxStr "main",
    rxStr "gallery", rxStr "primary", rxStr "detail"]), Rx.wordb]

/-- `/\balt=["\x27][^"\x27]\x7b5,\x7d/`. -/
def altTextRx : Rx :=
  rxSeq [Rx.wordb, rxStr "alt=", quoteCls, rxRepFrom 5 notQuote]

/-- `Set.add`: insertion-ordered, first insertion wins. -/
def setAdd (l : List String) (v : String) : List String :=
  if l.contains v then l else l ++ [v]

/-- `extractImageCandidates`. -/
def extractImageCandidates (html : String) : List String :=
  let out0 := ((rxExecAllStr true metaImgRx html).map
      (fun m => normalizeWhitespace (decodeEntities (capStr m.2 1)))).foldl
    (fun out v => if v ≠ "" ∧ ¬ isJunkImage v then setAdd out v else out) []
  let imgs := rxExecAllStr true productImgRx html
  let out1 := imgs.foldl (fun out m =>
    if out.length < 8 then
      if normalizeWhitespace (decodeEntities (capStr m.2 1)) = ""
          ∨ isJunkImage (normalizeWhitespace (decodeEntities (capStr m.2 1))) then out
      else if rxTest false productWordRx (asciiLower ⟨m.1⟩)
          ∨ rxTest false altTextRx (asciiLower ⟨m.1⟩) ∨ out.length = 0 then
        setAdd out (normalizeWhitespace (decodeEntities (capStr m.2 1)))
      else out
    else out) out0
  let out2 :=
    if out1.length = 0 then
      imgs.foldl (fun out m =>
        if out.length < 4 then
          if normalizeWhitespace (decodeEntities (capStr m.2 1)) ≠ ""
              ∧ ¬ isJunkImage (normalizeWhitespace (decodeEntities (capStr m.2 1))) then
            setAdd out (normalizeWhitespace (decodeEntities (capStr m.2 1)))
          else out
        else out) out1
    else out1
  out2.take 8

/-- `[,\s]`. -/
def commaWsCls : Rx := Rx.cls false ((',', ',') :: wsRanges)

/-- The big price regex (both alternatives, case-insensitive, global). -/
def priceRx : Rx :=
  Rx.alt
    (rxSeq [rxAlts [rxStr "USD", rxStr "EUR", rxStr "GBP", rxStr "CAD", rxStr "AUD",
        rxStr "JPY", rxStr "INR",
        Rx.cls false [('$', '$'), ('£', '£'), ('€', '€'), ('¥', '¥'), ('₹', '₹')]],
      rxOpt wsCls, rxRep 1 3 digitCls,
      rxStarG (rxSeq [commaWsCls, digitCls, digitCls, digitCls]),
      rxOpt (rxSeq [Rx.chr '.', digitCls, digitCls])])
    (rxSeq [rxRep 1 3 digitCls,
      rxStarG (rxSeq [commaWsCls, digitCls, digitCls, digitCls]),
      rxOpt (rxSeq [Rx.chr '.', digitCls, digitCls]),
      rxOpt wsCls, rxAlts [rxStr "USD", rxStr "EUR", rxStr "GBP", rxStr "CAD",
        rxStr "AUD", rxStr "JPY", rxStr "INR"], Rx.wordb])

/-- `/\b(price|our price|now|sale|buy)\b/`. -/
def priceCtxPosRx : Rx :=
  rxSeq [Rx.wordb, Rx.grp 1 (rxAlts [rxStr "price", rxStr "our price", rxStr "now",
    rxStr "sale", rxStr "buy"]), Rx.wordb]

/-- `/\b(list price|msrp|was)\b/`. -/
def priceCtxNegRx : Rx :=
  rxSeq [Rx.wordb, Rx.grp 1 (rxAlts [rxStr "list price", rxStr "msrp", rxStr "was"]),
    Rx.wordb]

/-- A price candidate during the best-price scan. -/
structure PriceCand where
  score : ℤ
  price : ℚ
  currency : Option String
  index : Nat
deriving Repr, DecidableEq

/-- The ±50-character lowercased context score of a price match. -/
def priceCandScore (text : List Char) (idx mlen : Nat) : ℤ :=
  (if rxTest false priceCtxPosRx
      (asciiLower ⟨(text.drop (idx - 50)).take
        (min text.length (idx + mlen + 50) - (idx - 50))⟩) then 2 else 0)
    + (if rxTest false priceCtxNegRx
      (asciiLower ⟨(text.drop (idx - 50)).take
        (min text.length (idx + mlen + 50) - (idx - 50))⟩) then -1 else 0)

/-- `extractPriceFromText`: best-scoring price match (earlier index wins
ties), returning (price, currency). -/
def extractPriceFromText (text : String) : Option ℚ × Option String :=
  match (rxExecAllPosStr true priceRx text).foldl (fun best m =>
    match toNumberStr ⟨m.2.1⟩ with
    | none => best
    | some num =>
        match best with
        | none => some (PriceCand.mk (priceCandScore text.data m.1 m.2.1.length) num
            (parseCurrencyFromPrice ⟨m.2.1⟩) m.1)
        | some b =>
            if priceCandScore text.data m.1 m.2.1.length > b.score
                ∨ (priceCandScore text.data m.1 m.2.1.length = b.score ∧ m.1 < b.index) then
              some (PriceCand.mk (priceCandScore text.data m.1 m.2.1.length) num
                (parseCurrencyFromPrice ⟨m.2.1⟩) m.1)
            else some b) none with
  | none => (none, none)
  | some b => (some b.price, b.currency)

/-- `extractAvailabilityFromText`. -/
def extractAvailabilityFromText (text : String) : Option String :=
  if rxTest false (rxSeq [Rx.wordb, rxStr "in stock", Rx.wordb]) (asciiLower text) then
    some "in_stock"
  else if rxTest false (rxSeq [Rx.wordb, rxStr "out of stock", Rx.wordb]) (asciiLower text) then
    some "out_of_stock"
  else if rxTest false (rxSeq [Rx.wordb, rxStr "pre",
      rxOpt (Rx.cls false [('-', '-'), (' ', ' ')]), rxStr "order", Rx.wordb])
      (asciiLower text) then some "preorder"
  else if rxTest false (rxSeq [Rx.wordb, rxStr "currently unavailable", Rx.wordb])
      (asciiLower text) then some "unavailable"
  else none

/-- `/^[-*•]\s+/`. -/
def bulletRx : Rx :=
  rxSeq [Rx.bos, Rx.cls false [('-', '-'), ('*', '*'), ('•', '•')], rxPlus wsCls]

/-- The review-content filter regex (case-insensitive). -/
def reviewRx : Rx :=
  rxSeq [Rx.wordb, Rx.grp 1 (rxAlts [rxStr "i ", rxStr "my ", rxStr "we ", rxStr "our ",
    rxStr "love it", rxStr "hate it", rxStr "bought this", rxStr "great product",
    rxStr "terrible", rxStr "amazing", rxStr "disappointed", rxStr "i\x27m ",
    rxStr "i\x27ve "]), Rx.wordb]

/-- The promotional-text filter regex (case-insensitive). -/
def promoRx : Rx :=
  rxSeq [Rx.wordb, Rx.grp 1 (rxAlts [rxStr "free shipping", rxStr "add to cart",
    rxStr "buy now", rxStr "limited time", rxStr "coupon", rxStr "promo code",
    rxStr "subscribe", rxStr "newsletter"]), Rx.wordb]

/-- `extractKeyFeaturesFromText`. -/
def extractKeyFeaturesFromText (text : String) : List String :=
  (((((splitAllOn (Char.ofNat 10) text.data).map
      (fun l => normalizeWhitespace ⟨l⟩)).filter (fun l => l ≠ "")).filter
    (fun line => rxTest false bulletRx line)).map
    (fun line => jsTrim (rxReplaceFirstStr false bulletRx "" line))).filter
    (fun line =>
      ¬ (line.data.length < 8 ∨ line.data.length > 180)
        ∧ ¬ rxTest true reviewRx line ∧ ¬ rxTest true promoRx line)
  |>.take 8

/-- `[A-Za-z0-9 \-\/]`. -/
def specKeyCls : Rx :=
  Rx.cls false [('A', 'Z'), ('a', 'z'), ('0', '9'), (' ', ' '), ('-', '-'), ('/', '/')]

/-- `/^([A-Za-z][A-Za-z0-9 \-\/]\x7b1,40\x7d)\s*:\s*(.\x7b1,200\x7d)$/`. -/
def specLineRx : Rx :=
  rxSeq [Rx.bos,
    Rx.grp 1 (Rx.cat (Rx.cls false [('A', 'Z'), ('a', 'z')]) (rxRep 1 40 specKeyCls)),
    rxStarG wsCls, Rx.chr ':', rxStarG wsCls,
    Rx.grp 2 (rxRep 1 200 dotCls), Rx.eos]

/-- The spec-collecting loop (breaks at 25 keys, skips present keys). -/
def extractSpecsLoop : List String → List (String × String) → List (String × String)
  | [], specs => specs
  | line :: rest, specs =>
      if specs.length ≥ 25 then specs
      else match rxMatchStr false specLineRx line with
        | none => extractSpecsLoop rest specs
        | some (_, caps) =>
            if normalizeWhitespace (capStr caps 1) ≠ ""
                ∧ normalizeWhitespace (capStr caps 2) ≠ ""
                ∧ ¬ jsTruthyOptStr ((specs.find?
                    (fun kv => kv.1 = normalizeWhitespace (capStr caps 1))).map Prod.snd) then
              extractSpecsLoop rest (objUpsertStr specs
                (normalizeWhitespace (capStr caps 1)) (normalizeWhitespace (capStr caps 2)))
            else extractSpecsLoop rest specs

/-- `extractSpecsFromText`. -/
def extractSpecsFromText (text : String) : List (String × String) :=
  extractSpecsLoop (((splitAllOn (Char.ofNat 10) text.data).map
    (fun l => jsTrim ⟨l⟩)).filter (fun l => l ≠ "")) []

/-- The exact-boilerplate line filter of `extractNameFromText`. -/
def nameStopRx : Rx :=
  rxSeq [Rx.bos, Rx.grp 1 (rxAlts [rxStr "home", rxStr "cart", rxStr "menu",
    rxStr "login", rxStr "sign in", rxStr "sign up", rxStr "register", rxStr "search",
    rxStr "skip to", rxStr "skip navigation", rxStr "main content", rxStr "cookie",
    rxStr "accept", rxStr "close", rxStr "subscribe", rxStr "newsletter",
    rxStr "free shipping"]), Rx.eos]

/-- `/^skip\s+to\b/i`. -/
def skipToRx : Rx :=
  rxSeq [Rx.bos, rxStr "skip", rxPlus wsCls, rxStr "to", Rx.wordb]

/-- `/^(main menu|navigation|breadcrumb|all categories|departments|back to)/i`. -/
def navStartRx : Rx :=
  rxSeq [Rx.bos, Rx.grp 1 (rxAlts [rxStr "main menu", rxStr "navigation",
    rxStr "breadcrumb", rxStr "all categories", rxStr "departments", rxStr "back to"])]

/-- `/^\$?\d+(?:\.\d+)?$/`. -/
def priceOnlyRx : Rx :=
  rxSeq [Rx.bos, rxOpt (Rx.chr '$'), rxPlus digitCls,
    rxOpt (Rx.cat (Rx.chr '.') (rxPlus digitCls)), Rx.eos]

/-- The site-navigation line filter. -/
def siteNavRx : Rx :=
  rxSeq [Rx.bos, Rx.grp 1 (rxAlts [rxStr "shop", rxStr "browse", rxStr "categories",
    rxStr "deals", rxStr "new arrivals", rxStr "sale", rxStr "clearance",
    rxStr "customer service", rxStr "help", rxStr "contact", rxStr "about"]), Rx.eos]

/-- Whether a normalized line survives every boilerplate filter. -/
def nameLineOk (line : String) : Bool :=
  ¬ (line.data.length < 6 ∨ line.data.length > 140)
    ∧ ¬ rxTest true nameStopRx line
    ∧ ¬ rxTest true skipToRx line
    ∧ ¬ rxTest true navStartRx line
    ∧ ¬ rxTest false priceOnlyRx line
    ∧ ¬ rxTest true siteNavRx line

/-- `extractNameFromText`: first surviving line among the first 30. -/
def extractNameFromText (text : String) : Option String :=
  ((((splitAllOn (Char.ofNat 10) text.data).map
    (fun l => normalizeWhitespace ⟨l⟩)).filter (fun l => l ≠ "")).take 30).find? nameLineOk

/-- `/\bbrand\s*[:\-]\s*([^\n|]\x7b2,60\x7d)/i`. -/
def brandTextRx : Rx :=
  rxSeq [Rx.wordb, rxStr "brand", rxStarG wsCls, Rx.cls false [(':', ':'), ('-', '-')],
    rxStarG wsCls, Rx.grp 1 (rxRep 2 60 (Rx.cls true [(Char.ofNat 10, Char.ofNat 10), ('|', '|')]))]

/-- `/\bcategory\s*[:\-]\s*([^\n|]\x7b2,80\x7d)/i`. -/
def categoryTextRx : Rx :=
  rxSeq [Rx.wordb, rxStr "category", rxStarG wsCls, Rx.cls false [(':', ':'), ('-', '-')],
    rxStarG wsCls, Rx.grp 1 (rxRep 2 80 (Rx.cls true [(Char.ofNat 10, Char.ofNat 10), ('|', '|')]))]

/-- `ExtractedProduct` without the confidence field. -/
structure ProductBase where
  name : Option String
  price : Option ℚ
  currency : Option String
  availability : Option String
  brand : Option String
  category : Option String
  key_features : List String
  images : List String
  specs : List (String × String)
deriving Repr, DecidableEq

/-- The accumulated `score` of `computeConfidence` before rounding (JS
truthiness on the string fields, strict null-check on price). -/
def confScore (product : ProductBase) (usedStructuredData : Bool) : ℚ :=
  (if jsTruthyOptStr product.name then (1 : ℚ)/5 else 0)
    + (if product.price.isSome then
        (if jsTruthyOptStr product.currency then (1 : ℚ)/4 else 3/20) else 0)
    + (if jsTruthyOptStr product.availability then (1 : ℚ)/10 else 0)
    + (if jsTruthyOptStr product.brand then (1 : ℚ)/10 else 0)
    + (if jsTruthyOptStr product.category then (1 : ℚ)/20 else 0)
    + (if product.key_features.length > 0 then (1 : ℚ)/10 else 0)
    + (if product.images.length > 0 then (1 : ℚ)/10 else 0)
    + (if product.specs.length > 0 then (1 : ℚ)/10 else 0)
    + (if usedStructuredData then (1 : ℚ)/10 else 0)

/-- `computeConfidence`: the score, `toFixed(2)` as round-half-up at 2
decimals, then clamped to [0,1]. -/
def computeConfidence (product : ProductBase) (usedStructuredData : Bool) : ℚ :=
  max 0 (min 1 ((⌊confScore product usedStructuredData * 100 + 1/2⌋ : ℚ) / 100))

/-- The confidence formula transcribed from the specification table
(for comparison with the implementation). -/
def confidenceSpec (product : ProductBase) (usedStructuredData : Bool) : ℚ :=
  max 0 (min 1 ((⌊((if jsTruthyOptStr product.name then (0.20 : ℚ) else 0)
    + (if product.price.isSome then
        (if jsTruthyOptStr product.currency then (0.25 : ℚ) else 0.15) else 0)
    + (if jsTruthyOptStr product.availability then (0.10 : ℚ) else 0)
    + (if jsTruthyOptStr product.brand then (0.10 : ℚ) else 0)
    + (if jsTruthyOptStr product.category then (0.05 : ℚ) else 0)
    + (if product.key_features.length ≥ 1 then (0.10 : ℚ) else 0)
    + (if product.images.length ≥ 1 then (0.10 : ℚ) else 0)
    + (if product.specs.length ≥ 1 then (0.10 : ℚ) else 0)
    + (if usedStructuredData then (0.10 : ℚ) else 0)) * 100 + 1/2⌋ : ℚ) / 100))

/-- The full extraction record. -/
structure ExtractedProduct where
  name : Option String
  price : Option ℚ
  currency : Option String
  availability : Option String
  brand : Option String
  category : Option String
  key_features : List String
  images : List String
  specs : List (String × String)
  confidence : ℚ
deriving Repr, DecidableEq

/-- JS `a || b` on optional strings (empty strings are falsy). -/
def jsOrStr (a b : Option String) : Option String :=
  if jsTruthyOptStr a then a else if jsTruthyOptStr b then b else none

/-- The merged structured-data specs of `extractProduct`
(`\x7b...fromJsonLd.specs, ...fromMicrodata.specs\x7d`). -/
def mergedSpecsOf (html : String) : List (String × String) :=
  objMergeStr (extractFromJsonLd html).specs (extractFromMicrodata html).specs

/-- The pre-confidence record of `extractProduct`. -/
def extractBase (html0 text0 : String) : ProductBase × Bool :=
  let html := html0
  let text := decodeEntities text0
  let fj := extractFromJsonLd html
  let fm := extractFromMicrodata html
  let name0 := jsOrStr fj.name fm.name
  let price0 := fj.price <|> fm.price
  let currency0 := jsOrStr fj.currency fm.currency
  let availability0 := jsOrStr fj.availability fm.availability
  let brand0 := jsOrStr fj.brand fm.brand
  let category0 := jsOrStr fj.category fm.category
  let name1 := if jsTruthyOptStr name0 then name0 else extractNameFromText text
  let priceFb := extractPriceFromText text
  let price1 := if price0.isSome then price0 else priceFb.1
  let currency1 := if price0.isSome then currency0
    else if jsTruthyOptStr currency0 then currency0 else priceFb.2
  let availability1 := if jsTruthyOptStr availability0 then availability0
    else extractAvailabilityFromText text
  let brand1 := if jsTruthyOptStr brand0 then brand0
    else match rxMatchStr true brandTextRx text with
      | some (_, caps) => some (normalizeWhitespace (capStr caps 1))
      | none => brand0
  let category1 := if jsTruthyOptStr category0 then category0
    else match rxMatchStr true categoryTextRx text with
      | some (_, caps) => some (normalizeWhitespace (capStr caps 1))
      | none => category0
  let kf0 := fj.key_features ++ fm.key_features
  let kf1 := if kf0.length = 0 then extractKeyFeaturesFromText text else kf0
  let im0 := fj.images ++ fm.images
  let im1 := if im0.length = 0 then extractImageCandidates html else im0
  (⟨name1, price1, currency1, availability1, brand1, category1,
    (((kf1.map normalizeWhitespace).filter (fun v => v ≠ "")).eraseDups).take 10,
    (((im1.map normalizeWhitespace).filter (fun v => v ≠ "")).eraseDups).take 12,
    objMergeStr (mergedSpecsOf html) (extractSpecsFromText text)⟩,
   fj.usedStructuredData ∨ fm.usedStructuredData)

/-- `extractProduct` (the `url` input is unused by the source). -/
def extractProduct (_url html text : String) : ExtractedProduct :=
  { name := (extractBase html text).1.name
    price := (extractBase html text).1.price
    currency := (extractBase html text).1.currency
    availability := (extractBase html text).1.availability
    brand := (extractBase html text).1.brand
    category := (extractBase html text).1.category
    key_features := (extractBase html text).1.key_features
    images := (extractBase html text).1.images
    specs := (extractBase html text).1.specs
    confidence := computeConfidence (extractBase html text).1 (extractBase html text).2 }

/-- The JSON-LD-only scenario page of the specification (name `X1`,
price `49.99` USD, availability InStock, brand `Acme`). -/
def scenarioJsonLdHtml : String :=
  "<script type=\"application/ld+json\">\x7b\"@type\":\"Product\",\"name\":\"X1\",\"offers\":\x7b\"price\":\"49.99\",\"priceCurrency\":\"USD\",\"availability\":\"https://schema.org/InStock\"\x7d,\"brand\":\x7b\"name\":\"Acme\"\x7d\x7d</script>"

/-- A page whose JSON-LD product node carries 26 distinct
`additionalProperty` entries (and nothing else). -/
def manySpecsHtml : String :=
  "<script type=\"application/ld+json\">\x7b\"@type\":\"Product\",\"additionalProperty\":[\x7b\"name\":\"a\",\"value\":\"v\"\x7d,\x7b\"name\":\"b\",\"value\":\"v\"\x7d,\x7b\"name\":\"c\",\"value\":\"v\"\x7d,\x7b\"name\":\"d\",\"value\":\"v\"\x7d,\x7b\"name\":\"e\",\"value\":\"v\"\x7d,\x7b\"name\":\"f\",\"value\":\"v\"\x7d,\x7b\"name\":\"g\",\"value\":\"v\"\x7d,\x7b\"name\":\"h\",\"value\":\"v\"\x7d,\x7b\"name\":\"i\",\"value\":\"v\"\x7d,\x7b\"name\":\"j\",\"value\":\"v\"\x7d,\x7b\"name\":\"k\",\"value\":\"v\"\x7d,\x7b\"name\":\"l\",\"value\":\"v\"\x7d,\x7b\"name\":\"m\",\"value\":\"v\"\x7d,\x7b\"name\":\"n\",\"value\":\"v\"\x7d,\x7b\"name\":\"o\",\"value\":\"v\"\x7d,\x7b\"name\":\"p\",\"value\":\"v\"\x7d,\x7b\"name\":\"q\",\"value\":\"v\"\x7d,\x7b\"name\":\"r\",\"value\":\"v\"\x7d,\x7b\"name\":\"s\",\"value\":\"v\"\x7d,\x7b\"name\":\"t\",\"value\":\"v\"\x7d,\x7b\"name\":\"u\",\"value\":\"v\"\x7d,\x7b\"name\":\"v\",\"value\":\"v\"\x7d,\x7b\"name\":\"w\",\"value\":\"v\"\x7d,\x7b\"name\":\"x\",\"value\":\"v\"\x7d,\x7b\"name\":\"y\",\"value\":\"v\"\x7d,\x7b\"name\":\"z\",\"value\":\"v\"\x7d]\x7d</script>"

-- ----------------------------------------------------------------------
-- Shared lemmas about the comparison engine
-- ----------------------------------------------------------------------

/-- The budget bucket inside `compareProducts` agrees with `budgetScore`. -/
theorem budgetPart_score (criteria : CompareCriteria) (p : CompareProduct) :
    (budgetPart criteria p).1 = budgetScore criteria.max_budget p.price := by
  unfold budgetPart budgetScore
  cases criteria.max_budget <;> cases p.price <;> simp <;> split <;> simp

/-- The relative-value bucket inside `compareProducts` agrees with
`valueScore`. -/
theorem valuePart_score (prices : List ℚ) (minPrice maxPrice priceRange : ℚ)
    (p : CompareProduct) :
    (valuePart prices minPrice maxPrice priceRange p).1
      = valueScore prices minPrice priceRange p.price := by
  unfold valuePart valueScore
  cases p.price <;> simp <;> split <;> simp

/-- The score of a ranked entry is the clamped bucket sum. -/
theorem scoreProduct_score (products : List CompareProduct) (criteria : CompareCriteria)
    (p : CompareProduct) :
    (scoreProduct products criteria p).score
      = max 0 (min 100 ((completenessPart p).1 + (budgetPart criteria p).1
          + (valuePart (pricesOf products) (minPriceOf products) (maxPriceOf products)
              (priceRangeOf products) p).1
          + (specPart (totalSpecKeysOf products) p).1
          + (featurePart (maxFeaturesOf products) p).1
          + (prefPart criteria p).1)) := rfl

/-- Every ranked entry score lies in [0, 100]. -/
theorem scoreProduct_score_bounds (products : List CompareProduct)
    (criteria : CompareCriteria) (p : CompareProduct) :
    0 ≤ (scoreProduct products criteria p).score
      ∧ (scoreProduct products criteria p).score ≤ 100 := by
  rw [scoreProduct_score]
  exact ⟨le_max_left _ _, max_le (by norm_num) (min_le_left _ _)⟩

/-- Folding `min` over a constant list yields the constant. -/
theorem foldl_min_const (v : ℚ) :
    ∀ (l : List ℚ) (x : ℚ), (∀ q ∈ l, q = v) → x = v → l.foldl min x = v
  | [], _, _, hx => hx
  | q :: l, x, h, hx => by
      have hq : q = v := h q (List.mem_cons_self _ _)
      exact foldl_min_const v l (min x q)
        (fun r hr => h r (List.mem_cons_of_mem _ hr))
        (by rw [hq, hx]; exact min_self v)

/-- Folding `max` over a constant list yields the constant. -/
theorem foldl_max_const (v : ℚ) :
    ∀ (l : List ℚ) (x : ℚ), (∀ q ∈ l, q = v) → x = v → l.foldl max x = v
  | [], _, _, hx => hx
  | q :: l, x, h, hx => by
      have hq : q = v := h q (List.mem_cons_self _ _)
      exact foldl_max_const v l (max x q)
        (fun r hr => h r (List.mem_cons_of_mem _ hr))
        (by rw [hq, hx]; exact max_self v)

/-- Minimum of a nonempty constant list. -/
theorem listMinQ_const (l : List ℚ) (v : ℚ) (hne : l ≠ []) (h : ∀ q ∈ l, q = v) :
    listMinQ l = v := by
  cases l with
  | nil => exact absurd rfl hne
  | cons x xs =>
      exact foldl_min_const v xs x (fun r hr => h r (List.mem_cons_of_mem _ hr))
        (h x (List.mem_cons_self _ _))

/-- Maximum of a nonempty constant list. -/
theorem listMaxQ_const (l : List ℚ) (v : ℚ) (hne : l ≠ []) (h : ∀ q ∈ l, q = v) :
    listMaxQ l = v := by
  cases l with
  | nil => exact absurd rfl hne
  | cons x xs =>
      exact foldl_max_const v xs x (fun r hr => h r (List.mem_cons_of_mem _ hr))
        (h x (List.mem_cons_self _ _))

/-- Rounding an integer-valued rational is the identity. -/
theorem jsRound_intCast (n : ℤ) : jsRound (n : ℚ) = n := by
  unfold jsRound
  rw [Int.floor_eq_iff]
  constructor <;> norm_num

-- ----------------------------------------------------------------------
-- Claim C5: budget 0 gate
-- ----------------------------------------------------------------------

/-- C5 (counterexample): the claim "for every compare call with
criteria.max_budget = 0, no product receives a budget-bucket score greater
than 20 (every product fails the budget gate)" is false on the code: a
product priced 0 satisfies `price <= budget` and its budget bucket scores
the full 25 > 20. -/
theorem compare_budget_zero_cex :
    20 < budgetScore (some 0) (some 0)
    ∧ (budgetPart ⟨some 0, some "USD", "home", []⟩
        ⟨"Free item", some 0, some "USD", none, [], [], "example.com"⟩).1 = 25 := by
  constructor
  · norm_num [budgetScore]
  · norm_num [budgetPart]

/-- C5 (amended): for every compare call with criteria.max_budget = 0,
every product whose price is unknown or strictly positive receives
budget-bucket score 0 (in particular at most 20), while a product whose
price is ≤ 0 passes the gate and receives the full 25; the other buckets
contribute to the total score independently (the entry score is the
clamped sum of all six buckets). -/
theorem compare_budget_zero_gate (products : List CompareProduct)
    (criteria : CompareCriteria) (h : criteria.max_budget = some 0)
    (p : CompareProduct) :
    (p.price = none → budgetScore criteria.max_budget p.price = 0)
    ∧ (∀ q, p.price = some q → 0 < q → budgetScore criteria.max_budget p.price = 0)
    ∧ (∀ q, p.price = some q → q ≤ 0 → budgetScore criteria.max_budget p.price = 25)
    ∧ (budgetPart criteria p).1 = budgetScore criteria.max_budget p.price
    ∧ (scoreProduct products criteria p).score
        = max 0 (min 100 ((completenessPart p).1 + (budgetPart criteria p).1
            + (valuePart (pricesOf products) (minPriceOf products) (maxPriceOf products)
                (priceRangeOf products) p).1
            + (specPart (totalSpecKeysOf products) p).1
            + (featurePart (maxFeaturesOf products) p).1
            + (prefPart criteria p).1)) := by
  refine ⟨?_, ?_, ?_, budgetPart_score criteria p, scoreProduct_score products criteria p⟩
  · intro hp; rw [h, hp]; rfl
  · intro q hp hq
    rw [h, hp]
    simp only [budgetScore, if_pos hq]
  · intro q hp hq
    rw [h, hp]
    simp only [budgetScore]
    rw [if_neg (not_lt.mpr hq)]

/-- C5 witness: the amended theorem applied to a concrete call. -/
theorem compare_budget_zero_gate_witness :
    (⟨some 0, some "USD", "home", []⟩ : CompareCriteria).max_budget = some 0
    ∧ (((⟨"X", some 5, some "USD", none, [], [], "s"⟩ : CompareProduct).price = none →
          budgetScore (some 0) (some (5 : ℚ)) = 0)
        ∧ (∀ q, (some (5 : ℚ) : Option ℚ) = some q → 0 < q →
            budgetScore (some 0) (some (5 : ℚ)) = 0)
        ∧ (∀ q, (some (5 : ℚ) : Option ℚ) = some q → q ≤ 0 →
            budgetScore (some 0) (some (5 : ℚ)) = 25)
        ∧ (budgetPart ⟨some 0, some "USD", "home", []⟩
            ⟨"X", some 5, some "USD", none, [], [], "s"⟩).1
            = budgetScore (some 0) (some (5 : ℚ))
        ∧ (scoreProduct [⟨"X", some 5, some "USD", none, [], [], "s"⟩]
            ⟨some 0, some "USD", "home", []⟩
            ⟨"X", some 5, some "USD", none, [], [], "s"⟩).score
            = max 0 (min 100 ((completenessPart ⟨"X", some 5, some "USD", none, [], [], "s"⟩).1
                + (budgetPart ⟨some 0, some "USD", "home", []⟩
                    ⟨"X", some 5, some "USD", none, [], [], "s"⟩).1
                + (valuePart (pricesOf [⟨"X", some 5, some "USD", none, [], [], "s"⟩])
                    (minPriceOf [⟨"X", some 5, some "USD", none, [], [], "s"⟩])
                    (maxPriceOf [⟨"X", some 5, some "USD", none, [], [], "s"⟩])
                    (priceRangeOf [⟨"X", some 5, some "USD", none, [], [], "s"⟩])
                    ⟨"X", some 5, some "USD", none, [], [], "s"⟩).1
                + (specPart (totalSpecKeysOf [⟨"X", some 5, some "USD", none, [], [], "s"⟩])
                    ⟨"X", some 5, some "USD", none, [], [], "s"⟩).1
                + (featurePart (maxFeaturesOf [⟨"X", some 5, some "USD", none, [], [], "s"⟩])
                    ⟨"X", some 5, some "USD", none, [], [], "s"⟩).1
                + (prefPart ⟨some 0, some "USD", "home", []⟩
                    ⟨"X", some 5, some "USD", none, [], [], "s"⟩).1))) :=
  ⟨rfl, compare_budget_zero_gate [⟨"X", some 5, some "USD", none, [], [], "s"⟩]
    ⟨some 0, some "USD", "home", []⟩ rfl ⟨"X", some 5, some "USD", none, [], [], "s"⟩⟩

-- ----------------------------------------------------------------------
-- Claim C6: complete, clamped, stable-descending ranking
-- ----------------------------------------------------------------------

/-- C6: for a compare call with a non-empty product list, the ranking has
exactly one entry per input product (it is the image of a permutation of
the index-annotated scored list), every score is an integer (type `ℤ`) in
[0, 100], and the ranking is sorted by score descending with ties keeping
the original input order (the keyed list is sorted by the lexicographic
key: score descending, then original index ascending). -/
theorem compare_ranking_complete_sorted_stable
    (products : List CompareProduct) (criteria : CompareCriteria)
    (hne : products ≠ []) :
    (compareProducts products criteria).length = products.length
    ∧ compareProducts products criteria = (rankedKeyed products criteria).map Prod.snd
    ∧ (rankedKeyed products criteria).Perm (scoredList products criteria).enum
    ∧ List.Sorted rankLex (rankedKeyed products criteria)
    ∧ List.Sorted (fun a b => b.score ≤ a.score) (compareProducts products criteria)
    ∧ ∀ e ∈ compareProducts products criteria, 0 ≤ e.score ∧ e.score ≤ 100 := by
  have hne2 : products.isEmpty = false := by
    cases products with
    | nil => exact absurd rfl hne
    | cons a l => rfl
  have hcp : compareProducts products criteria = (rankedKeyed products criteria).map Prod.snd := by
    unfold compareProducts
    rw [hne2]
    rfl
  have hperm : (rankedKeyed products criteria).Perm (scoredList products criteria).enum :=
    List.perm_insertionSort _ _
  have hsorted : List.Sorted rankLex (rankedKeyed products criteria) :=
    List.sorted_insertionSort _ _
  have hmem : ∀ e ∈ compareProducts products criteria, e ∈ scoredList products criteria := by
    intro e he
    rw [hcp] at he
    obtain ⟨ke, hke, rfl⟩ := List.mem_map.mp he
    have hke2 : ke ∈ (scoredList products criteria).enum := hperm.mem_iff.mp hke
    have : ke.2 ∈ (scoredList products criteria).enum.map Prod.snd :=
      List.mem_map_of_mem Prod.snd hke2
    rwa [List.enum_map_snd] at this
  refine ⟨?_, hcp, hperm, hsorted, ?_, ?_⟩
  · rw [hcp, List.length_map, hperm.length_eq, List.enum_length, scoredList, List.length_map]
  · rw [hcp]
    exact List.Pairwise.map Prod.snd
      (fun a b hab => by
        rcases hab with hlt | ⟨heq, _⟩
        · exact le_of_lt hlt
        · exact le_of_eq heq.symm)
      hsorted
  · intro e he
    obtain ⟨p, _, rfl⟩ := List.mem_map.mp (hmem e he)
    exact scoreProduct_score_bounds products criteria p

/-- C6 witness: the theorem applied to a concrete two-product call. -/
theorem compare_ranking_complete_sorted_stable_witness :
    ([⟨"A", some 10, some "USD", some "Acme", ["f"], [("k", "v")], "s"⟩,
      ⟨"B", none, none, none, [], [], "t"⟩] : List CompareProduct) ≠ []
    ∧ ((compareProducts
          [⟨"A", some 10, some "USD", some "Acme", ["f"], [("k", "v")], "s"⟩,
           ⟨"B", none, none, none, [], [], "t"⟩]
          ⟨some 100, some "USD", "home", []⟩).length
        = ([⟨"A", some 10, some "USD", some "Acme", ["f"], [("k", "v")], "s"⟩,
            ⟨"B", none, none, none, [], [], "t"⟩] : List CompareProduct).length
      ∧ compareProducts
          [⟨"A", some 10, some "USD", some "Acme", ["f"], [("k", "v")], "s"⟩,
           ⟨"B", none, none, none, [], [], "t"⟩]
          ⟨some 100, some "USD", "home", []⟩
        = (rankedKeyed
            [⟨"A", some 10, some "USD", some "Acme", ["f"], [("k", "v")], "s"⟩,
             ⟨"B", none, none, none, [], [], "t"⟩]
            ⟨some 100, some "USD", "home", []⟩).map Prod.snd
      ∧ (rankedKeyed
          [⟨"A", some 10, some "USD", some "Acme", ["f"], [("k", "v")], "s"⟩,
           ⟨"B", none, none, none, [], [], "t"⟩]
          ⟨some 100, some "USD", "home", []⟩).Perm
          (scoredList
            [⟨"A", some 10, some "USD", some "Acme", ["f"], [("k", "v")], "s"⟩,
             ⟨"B", none, none, none, [], [], "t"⟩]
            ⟨some 100, some "USD", "home", []⟩).enum
      ∧ List.Sorted rankLex
          (rankedKeyed
            [⟨"A", some 10, some "USD", some "Acme", ["f"], [("k", "v")], "s"⟩,
             ⟨"B", none, none, none, [], [], "t"⟩]
            ⟨some 100, some "USD", "home", []⟩)
      ∧ List.Sorted (fun a b => b.score ≤ a.score)
          (compareProducts
            [⟨"A", some 10, some "USD", some "Acme", ["f"], [("k", "v")], "s"⟩,
             ⟨"B", none, none, none, [], [], "t"⟩]
            ⟨some 100, some "USD", "home", []⟩)
      ∧ ∀ e ∈ compareProducts
            [⟨"A", some 10, some "USD", some "Acme", ["f"], [("k", "v")], "s"⟩,
             ⟨"B", none, none, none, [], [], "t"⟩]
            ⟨some 100, some "USD", "home", []⟩, 0 ≤ e.score ∧ e.score ≤ 100) :=
  ⟨by decide, compare_ranking_complete_sorted_stable
    [⟨"A", some 10, some "USD", some "Acme", ["f"], [("k", "v")], "s"⟩,
     ⟨"B", none, none, none, [], [], "t"⟩]
    ⟨some 100, some "USD", "home", []⟩ (by decide)⟩

-- ----------------------------------------------------------------------
-- Claim C10: zero price range guard
-- ----------------------------------------------------------------------

/-- C10: when at least two products are priced and all known prices are
equal, the price range (max − min = 0) is replaced by the denominator 1
(`maxPrice - minPrice || 1`), and every priced product receives the full
relative-value score 20 — both in the `valueScore` form and in the value
bucket actually used by `compareProducts`; no division by zero occurs. -/
theorem compare_equal_prices_full_value
    (products : List CompareProduct) (v : ℚ)
    (h2 : 2 ≤ (pricesOf products).length)
    (hall : ∀ q ∈ pricesOf products, q = v) :
    priceRangeOf products = 1
    ∧ ∀ p ∈ products, ∀ q, p.price = some q →
        valueScore (pricesOf products) (minPriceOf products) (priceRangeOf products) p.price = 20
        ∧ (valuePart (pricesOf products) (minPriceOf products) (maxPriceOf products)
            (priceRangeOf products) p).1 = 20 := by
  have hne : pricesOf products ≠ [] := by
    intro h
    rw [h] at h2
    simp at h2
  have hmin : minPriceOf products = v := listMinQ_const _ v hne hall
  have hmax : maxPriceOf products = v := listMaxQ_const _ v hne hall
  have hrange : priceRangeOf products = 1 := by
    unfold priceRangeOf
    rw [hmin, hmax]
    simp
  have hlen : 1 < (pricesOf products).length := lt_of_lt_of_le one_lt_two h2
  refine ⟨hrange, ?_⟩
  intro p hp q hq
  have hqv : q = v := hall q (List.mem_filterMap.mpr ⟨p, hp, hq⟩)
  have hvs : valueScore (pricesOf products) (minPriceOf products) (priceRangeOf products)
      p.price = 20 := by
    rw [hq]
    show (if (pricesOf products).length > 1 then
        jsRound ((1 - (q - minPriceOf products) / priceRangeOf products) * 20)
      else 10) = 20
    rw [if_pos hlen, hqv, hmin, hrange]
    have h20 : (1 - (v - v) / 1) * 20 = ((20 : ℤ) : ℚ) := by norm_num
    rw [h20, jsRound_intCast]
  exact ⟨hvs, by rw [valuePart_score, hvs]⟩

/-- C10 witness: two products with the same price 7 both get value 20. -/
theorem compare_equal_prices_full_value_witness :
    2 ≤ (pricesOf [⟨"A", some 7, none, none, [], [], "s"⟩,
          ⟨"B", some 7, none, none, [], [], "t"⟩]).length
    ∧ (∀ q ∈ pricesOf [⟨"A", some 7, none, none, [], [], "s"⟩,
          ⟨"B", some 7, none, none, [], [], "t"⟩], q = (7 : ℚ))
    ∧ (priceRangeOf [⟨"A", some 7, none, none, [], [], "s"⟩,
          ⟨"B", some 7, none, none, [], [], "t"⟩] = 1
        ∧ ∀ p ∈ ([⟨"A", some 7, none, none, [], [], "s"⟩,
              ⟨"B", some 7, none, none, [], [], "t"⟩] : List CompareProduct),
            ∀ q, p.price = some q →
            valueScore (pricesOf [⟨"A", some 7, none, none, [], [], "s"⟩,
                ⟨"B", some 7, none, none, [], [], "t"⟩])
              (minPriceOf [⟨"A", some 7, none, none, [], [], "s"⟩,
                ⟨"B", some 7, none, none, [], [], "t"⟩])
              (priceRangeOf [⟨"A", some 7, none, none, [], [], "s"⟩,
                ⟨"B", some 7, none, none, [], [], "t"⟩]) p.price = 20
            ∧ (valuePart (pricesOf [⟨"A", some 7, none, none, [], [], "s"⟩,
                  ⟨"B", some 7, none, none, [], [], "t"⟩])
                (minPriceOf [⟨"A", some 7, none, none, [], [], "s"⟩,
                  ⟨"B", some 7, none, none, [], [], "t"⟩])
                (maxPriceOf [⟨"A", some 7, none, none, [], [], "s"⟩,
                  ⟨"B", some 7, none, none, [], [], "t"⟩])
                (priceRangeOf [⟨"A", some 7, none, none, [], [], "s"⟩,
                  ⟨"B", some 7, none, none, [], [], "t"⟩]) p).1 = 20) :=
  ⟨by decide, by decide, compare_equal_prices_full_value
    [⟨"A", some 7, none, none, [], [], "s"⟩, ⟨"B", some 7, none, none, [], [], "t"⟩]
    7 (by decide) (by decide)⟩

-- ----------------------------------------------------------------------
-- Claim C8: cart semantics
-- ----------------------------------------------------------------------

/-- C8: `add_to_cart` with a URL already in the cart returns ok:false and
leaves the cart unchanged (the handler returns, it does not throw); a
successful add appends an item carrying the trimmed URL and the freshly
generated id; and the response of every cart operation carries the full
current cart (after the operation). -/
theorem cart_add_dedup_and_full_cart
    (cart : List CartItem) (params : AddToCartParams) (freshId idRaw : String) :
    ((∃ c ∈ cart, c.url = jsTrim params.url) →
        (addToCart cart params freshId).1.ok = false
        ∧ (addToCart cart params freshId).2 = cart
        ∧ (addToCart cart params freshId).1.cart = cart)
    ∧ ((∀ c ∈ cart, c.url ≠ jsTrim params.url) →
        (addToCart cart params freshId).1.ok = true
        ∧ ∃ item : CartItem,
            (addToCart cart params freshId).2 = cart ++ [item]
            ∧ item.url = jsTrim params.url
            ∧ item.id = freshId
            ∧ (addToCart cart params freshId).1.cart = cart ++ [item])
    ∧ (addToCart cart params freshId).1.cart = (addToCart cart params freshId).2
    ∧ (listCart cart).1.cart = (listCart cart).2
    ∧ (listCart cart).2 = cart
    ∧ (removeFromCart cart idRaw).1.cart = (removeFromCart cart idRaw).2
    ∧ (clearCart cart).1.cart = (clearCart cart).2
    ∧ (clearCart cart).2 = [] := by
  have hmain : ∀ P : (CartResponse × List CartItem) → Prop,
      (∀ c, cart.find? (fun c0 => c0.url == jsTrim params.url) = some c →
        P (⟨false, "Item already in cart for URL: " ++ jsTrim params.url, cart⟩, cart)) →
      (cart.find? (fun c0 => c0.url == jsTrim params.url) = none →
        P (⟨true, "Added item " ++ freshId,
            cart ++ [⟨freshId, jsTrim params.name, jsTrim params.url, params.price,
              jsTrim params.currency, jsTrim params.source, params.imageUrl,
              params.category⟩]⟩,
           cart ++ [⟨freshId, jsTrim params.name, jsTrim params.url, params.price,
              jsTrim params.currency, jsTrim params.source, params.imageUrl,
              params.category⟩])) →
      P (addToCart cart params freshId) := by
    intro P hsome hnone
    unfold addToCart
    cases hfind : cart.find? (fun c0 => c0.url == jsTrim params.url) with
    | some c => exact hsome c hfind
    | none => exact hnone hfind
  refine ⟨?_, ?_, ?_, rfl, rfl, ?_, rfl, rfl⟩
  · intro ⟨c, hc, hurl⟩
    refine hmain (fun r => r.1.ok = false ∧ r.2 = cart ∧ r.1.cart = cart)
      (fun c0 _ => ⟨rfl, rfl, rfl⟩) (fun hnone => ?_)
    exact absurd (by simpa using hurl) (by simpa using List.find?_eq_none.mp hnone c hc)
  · intro hall
    refine hmain (fun r => r.1.ok = true ∧ ∃ item : CartItem,
        r.2 = cart ++ [item] ∧ item.url = jsTrim params.url ∧ item.id = freshId
          ∧ r.1.cart = cart ++ [item])
      (fun c0 hc0 => ?_) (fun _ => ⟨rfl, _, rfl, rfl, rfl, rfl⟩)
    have hmem := List.mem_of_find?_eq_some hc0
    have hp := List.find?_some hc0
    exact absurd (by simpa using hp) (hall c0 hmem)
  · exact hmain (fun r => r.1.cart = r.2) (fun c0 _ => rfl) (fun _ => rfl)
  · unfold removeFromCart
    cases hfind : cart.findIdx? (fun c => c.id == jsTrim idRaw) with
    | none => rfl
    | some i => rfl

/-- C8 witness: concrete add, duplicate add, list, remove, clear. -/
theorem cart_add_dedup_and_full_cart_witness :
    ((∃ c ∈ ([⟨"id0", "A", "https://example.com/p", 5, "USD", "s", none, none⟩] :
          List CartItem), c.url = jsTrim "https://example.com/p") →
        (addToCart [⟨"id0", "A", "https://example.com/p", 5, "USD", "s", none, none⟩]
            ⟨"A", "https://example.com/p", 5, "USD", "s", none, none⟩ "id1").1.ok = false
        ∧ (addToCart [⟨"id0", "A", "https://example.com/p", 5, "USD", "s", none, none⟩]
            ⟨"A", "https://example.com/p", 5, "USD", "s", none, none⟩ "id1").2
            = [⟨"id0", "A", "https://example.com/p", 5, "USD", "s", none, none⟩]
        ∧ (addToCart [⟨"id0", "A", "https://example.com/p", 5, "USD", "s", none, none⟩]
            ⟨"A", "https://example.com/p", 5, "USD", "s", none, none⟩ "id1").1.cart
            = [⟨"id0", "A", "https://example.com/p", 5, "USD", "s", none, none⟩])
    ∧ ((∀ c ∈ ([⟨"id0", "A", "https://example.com/p", 5, "USD", "s", none, none⟩] :
          List CartItem), c.url ≠ jsTrim "https://example.com/p") →
        (addToCart [⟨"id0", "A", "https://example.com/p", 5, "USD", "s", none, none⟩]
            ⟨"A", "https://example.com/p", 5, "USD", "s", none, none⟩ "id1").1.ok = true
        ∧ ∃ item : CartItem,
            (addToCart [⟨"id0", "A", "https://example.com/p", 5, "USD", "s", none, none⟩]
              ⟨"A", "https://example.com/p", 5, "USD", "s", none, none⟩ "id1").2
              = [⟨"id0", "A", "https://example.com/p", 5, "USD", "s", none, none⟩] ++ [item]
            ∧ item.url = jsTrim "https://example.com/p"
            ∧ item.id = "id1"
            ∧ (addToCart [⟨"id0", "A", "https://example.com/p", 5, "USD", "s", none, none⟩]
                ⟨"A", "https://example.com/p", 5, "USD", "s", none, none⟩ "id1").1.cart
                = [⟨"id0", "A", "https://example.com/p", 5, "USD", "s", none, none⟩] ++ [item])
    ∧ (addToCart [⟨"id0", "A", "https://example.com/p", 5, "USD", "s", none, none⟩]
        ⟨"A", "https://example.com/p", 5, "USD", "s", none, none⟩ "id1").1.cart
        = (addToCart [⟨"id0", "A", "https://example.com/p", 5, "USD", "s", none, none⟩]
            ⟨"A", "https://example.com/p", 5, "USD", "s", none, none⟩ "id1").2
    ∧ (listCart [⟨"id0", "A", "https://example.com/p", 5, "USD", "s", none, none⟩]).1.cart
        = (listCart [⟨"id0", "A", "https://example.com/p", 5, "USD", "s", none, none⟩]).2
    ∧ (listCart [⟨"id0", "A", "https://example.com/p", 5, "USD", "s", none, none⟩]).2
        = [⟨"id0", "A", "https://example.com/p", 5, "USD", "s", none, none⟩]
    ∧ (removeFromCart [⟨"id0", "A", "https://example.com/p", 5, "USD", "s", none, none⟩]
        "id0").1.cart
        = (removeFromCart [⟨"id0", "A", "https://example.com/p", 5, "USD", "s", none, none⟩]
            "id0").2
    ∧ (clearCart [⟨"id0", "A", "https://example.com/p", 5, "USD", "s", none, none⟩]).1.cart
        = (clearCart [⟨"id0", "A", "https://example.com/p", 5, "USD", "s", none, none⟩]).2
    ∧ (clearCart [⟨"id0", "A", "https://example.com/p", 5, "USD", "s", none, none⟩]).2 = [] :=
  cart_add_dedup_and_full_cart
    [⟨"id0", "A", "https://example.com/p", 5, "USD", "s", none, none⟩]
    ⟨"A", "https://example.com/p", 5, "USD", "s", none, none⟩ "id1" "id0"

-- ----------------------------------------------------------------------
-- Claim C1: single active MCP session
-- ----------------------------------------------------------------------

/-- The invariant holds at server start. -/
theorem sessionInv_initial : SessionInv initialSessionState := by
  constructor
  · rfl
  · intro t h
    simp [initialSessionState] at h

/-- Every transport event preserves the session invariant. -/
theorem sessionInv_step (s : SessionState) (e : SessionEvent) (h : SessionInv s) :
    SessionInv (sessionStep s e).1 := by
  obtain ⟨h1, h2⟩ := h
  cases e with
  | getMcp ok =>
      show SessionInv (handleGetMcp s ok).1
      unfold handleGetMcp teardownSession
      cases hat : s.activeTransport <;> cases ok <;>
        simp [SessionInv] <;> omega
  | deleteMcp =>
      show SessionInv (handleDeleteMcp s).1
      unfold handleDeleteMcp teardownSession
      cases hat : s.activeTransport with
      | none =>
          simp only [hat, Option.isSome_none, Bool.false_eq_true, if_false]
          exact ⟨h1, h2⟩
      | some t =>
          simp [hat, SessionInv]
  | resClose t =>
      show SessionInv (handleResClose s t)
      unfold handleResClose
      split
      · exact ⟨rfl, by intro u hu; simp at hu⟩
      · exact ⟨h1, h2⟩
  | transportClose t =>
      show SessionInv (handleTransportOnClose s t)
      unfold handleTransportOnClose
      split
      · exact ⟨rfl, by intro u hu; simp at hu⟩
      · exact ⟨h1, h2⟩

/-- Running any event sequence preserves the invariant. -/
theorem sessionInv_run (evs : List SessionEvent) :
    ∀ s : SessionState, SessionInv s → SessionInv (runSession s evs).1 := by
  induction evs with
  | nil => intro s h; exact h
  | cons e es ih =>
      intro s h
      show SessionInv (runSession s (e :: es)).1
      unfold runSession
      exact ih _ (sessionInv_step s e h)

/-- C1: in every state reachable from server start, the active session id
is non-none exactly when the active transport is (they are equal), and a
`GET /mcp` arriving while transport `t` is active closes `t` exactly once
(the teardown emits the single close event `[t]`, nulls the transport and
clears the keepalive) before the new session gets the fresh id `s.nextId`,
which differs from `t`. -/
theorem mcp_single_session_replacement (evs : List SessionEvent) :
    ((reachedSession evs).activeSessionId.isSome
        ↔ (reachedSession evs).activeTransport.isSome)
    ∧ (∀ t, (reachedSession evs).activeTransport = some t → ∀ ok : Bool,
        (teardownSession (reachedSession evs)).2 = [t]
        ∧ (teardownSession (reachedSession evs)).1.activeTransport = none
        ∧ (teardownSession (reachedSession evs)).1.activeSessionId = none
        ∧ (teardownSession (reachedSession evs)).1.keepalive = false
        ∧ (handleGetMcp (reachedSession evs) ok).2 = [t]
        ∧ (handleGetMcp (reachedSession evs) true).1.activeSessionId
            = some (reachedSession evs).nextId
        ∧ (handleGetMcp (reachedSession evs) true).1.activeTransport
            = some (reachedSession evs).nextId
        ∧ (reachedSession evs).nextId ≠ t) := by
  have hinv : SessionInv (reachedSession evs) :=
    sessionInv_run evs initialSessionState sessionInv_initial
  obtain ⟨h1, h2⟩ := hinv
  constructor
  · rw [h1]
  · intro t ht ok
    have hfresh : t < (reachedSession evs).nextId := h2 t ht
    have htear : teardownSession (reachedSession evs)
        = ({ reachedSession evs with
              activeTransport := none
              activeSessionId := none
              sseResponse := none
              keepalive := false }, [t]) := by
      unfold teardownSession
      rw [ht]
    have hget2 : (handleGetMcp (reachedSession evs) ok).2 = [t] := by
      unfold handleGetMcp
      rw [ht]
      simp only [Option.isSome_some, if_true, htear]
      cases ok <;> rfl
    refine ⟨by rw [htear], by rw [htear], by rw [htear], by rw [htear], hget2, ?_, ?_,
      Nat.ne_of_gt hfresh⟩
    · unfold handleGetMcp
      rw [ht]
      simp only [Option.isSome_some, if_true, htear]
    · unfold handleGetMcp
      rw [ht]
      simp only [Option.isSome_some, if_true, htear]

/-- C1 witness: after one successful `GET /mcp`, transport 0 is active and
a second `GET /mcp` closes exactly it. -/
theorem mcp_single_session_replacement_witness :
    (reachedSession [SessionEvent.getMcp true]).activeTransport = some 0
    ∧ ((teardownSession (reachedSession [SessionEvent.getMcp true])).2 = [0]
        ∧ (teardownSession (reachedSession [SessionEvent.getMcp true])).1.activeTransport = none
        ∧ (teardownSession (reachedSession [SessionEvent.getMcp true])).1.activeSessionId = none
        ∧ (teardownSession (reachedSession [SessionEvent.getMcp true])).1.keepalive = false
        ∧ (handleGetMcp (reachedSession [SessionEvent.getMcp true]) false).2 = [0]
        ∧ (handleGetMcp (reachedSession [SessionEvent.getMcp true]) true).1.activeSessionId
            = some (reachedSession [SessionEvent.getMcp true]).nextId
        ∧ (handleGetMcp (reachedSession [SessionEvent.getMcp true]) true).1.activeTransport
            = some (reachedSession [SessionEvent.getMcp true]).nextId
        ∧ (reachedSession [SessionEvent.getMcp true]).nextId ≠ 0) :=
  ⟨by decide,
    (mcp_single_session_replacement [SessionEvent.getMcp true]).2 0 (by decide) false⟩

-- ----------------------------------------------------------------------
-- Shared string lemmas
-- ----------------------------------------------------------------------

/-- A prefix of `l1` is still a prefix of `l1 ++ l2`. -/
theorem listStartsWith_append (pre : List Char) :
    ∀ l1 l2 : List Char, listStartsWith l1 pre = true →
      listStartsWith (l1 ++ l2) pre = true := by
  induction pre with
  | nil =>
      intro l1 l2 _
      cases l1 ++ l2 <;> rfl
  | cons p ps ih =>
      intro l1 l2 h
      cases l1 with
      | nil => exact absurd h (by simp [listStartsWith])
      | cons c cs =>
          simp only [listStartsWith, Bool.and_eq_true] at h ⊢
          exact ⟨h.1, ih cs l2 h.2⟩

/-- Lower-casing distributes over string append (at the data level). -/
theorem asciiLower_data_append (a b : String) :
    (asciiLower (a ++ b)).data = (asciiLower a).data ++ (asciiLower b).data := by
  show ((a ++ b).data.map asciiLowerChar) = a.data.map asciiLowerChar ++ b.data.map asciiLowerChar
  rw [String.data_append, List.map_append]

/-- A string whose fixed prefix already passes the absolute-URL test stays
absolute after any suffix is appended. -/
theorem isAbsoluteHttpUrl_append (a b : String) (h : isAbsoluteHttpUrl a = true) :
    isAbsoluteHttpUrl (a ++ b) = true := by
  unfold isAbsoluteHttpUrl at h ⊢
  rw [asciiLower_data_append]
  rcases Bool.or_eq_true _ _ |>.mp h with h1 | h1
  · exact Bool.or_eq_true _ _ |>.mpr (Or.inl (listStartsWith_append _ _ _ h1))
  · exact Bool.or_eq_true _ _ |>.mpr (Or.inr (listStartsWith_append _ _ _ h1))

-- ----------------------------------------------------------------------
-- Claim C9: synthetic merchant fallback links
-- ----------------------------------------------------------------------

/-- C9 (counterexample): the first fallback seed (Amazon) has URL
`https://www.amazon.com/s?k=<enc>`, which is not of the claimed shape
`<host>/search?q=<enc>` for any host prefix. -/
theorem merchant_links_cex :
    (buildFallbackMerchantLinks "laptop" 6).head?.map SearchResult.url
      = some "https://www.amazon.com/s?k=laptop"
    ∧ ∀ host : String, "https://www.amazon.com/s?k=laptop"
        ≠ host ++ ("/search?q=" ++ encodeURIComponent (jsTrim "laptop")) := by
  refine ⟨by decide, ?_⟩
  intro host h
  have henc : encodeURIComponent (jsTrim "laptop") = "laptop" := by decide
  rw [henc] at h
  have happ : ("/search?q=" ++ "laptop" : String) = "/search?q=laptop" := rfl
  rw [happ] at h
  have hsuffix : ("/search?q=laptop").data <:+ ("https://www.amazon.com/s?k=laptop").data :=
    ⟨host.data, by rw [← String.data_append, ← h]⟩
  exact absurd hsuffix (by decide)

/-- C9 (amended): the fallback produces the seeds for Amazon, BestBuy,
Walmart, Target, Newegg, eBay in that order, capped at min(maxResults, 6);
each URL is the merchant's own search pattern (`/s?k=`,
`/site/searchpage.jsp?st=`, `/search?q=`, `/s?searchTerm=`, `/p/pl?d=`,
`/sch/i.html?_nkw=`) applied to the URL-encoded trimmed query, and every
URL is absolute https. -/
theorem merchant_links_patterns (query : String) (maxResults : Nat) :
    buildFallbackMerchantLinks query maxResults
      = (merchantSeeds query (encodeURIComponent (jsTrim query))).take (min maxResults 6)
    ∧ (buildFallbackMerchantLinks query maxResults).length = min maxResults 6
    ∧ (buildFallbackMerchantLinks query maxResults).map SearchResult.source
        = (["amazon.com", "bestbuy.com", "walmart.com", "target.com", "newegg.com",
            "ebay.com"].take (min maxResults 6))
    ∧ ∀ r ∈ buildFallbackMerchantLinks query maxResults, isAbsoluteHttpUrl r.url = true := by
  refine ⟨rfl, ?_, ?_, ?_⟩
  · show ((merchantSeeds query (encodeURIComponent (jsTrim query))).take
        (min maxResults 6)).length = min maxResults 6
    rw [List.length_take]
    simp [merchantSeeds]
  · show ((merchantSeeds query (encodeURIComponent (jsTrim query))).take
        (min maxResults 6)).map SearchResult.source = _
    rw [List.map_take]
    rfl
  · intro r hr
    have hr2 : r ∈ merchantSeeds query (encodeURIComponent (jsTrim query)) :=
      List.mem_of_mem_take hr
    simp only [merchantSeeds, List.mem_cons, List.mem_singleton] at hr2
    rcases hr2 with rfl | rfl | rfl | rfl | rfl | rfl | h
    · exact isAbsoluteHttpUrl_append "https://www.amazon.com/s?k=" _ (by decide)
    · exact isAbsoluteHttpUrl_append "https://www.bestbuy.com/site/searchpage.jsp?st=" _
        (by decide)
    · exact isAbsoluteHttpUrl_append "https://www.walmart.com/search?q=" _ (by decide)
    · exact isAbsoluteHttpUrl_append "https://www.target.com/s?searchTerm=" _ (by decide)
    · exact isAbsoluteHttpUrl_append "https://www.newegg.com/p/pl?d=" _ (by decide)
    · exact isAbsoluteHttpUrl_append "https://www.ebay.com/sch/i.html?_nkw=" _ (by decide)
    · exact absurd h (List.not_mem_nil r)

/-- C9 witness: the amended theorem at query "laptop", maxResults 3. -/
theorem merchant_links_patterns_witness :
    (⟨"Amazon: \"laptop\"", "https://www.amazon.com/s?k=laptop",
        "Fallback merchant search", "amazon.com"⟩ : SearchResult)
      ∈ buildFallbackMerchantLinks "laptop" 3
    ∧ isAbsoluteHttpUrl "https://www.amazon.com/s?k=laptop" = true :=
  ⟨by decide, (merchant_links_patterns "laptop" 3).2.2.2
    ⟨"Amazon: \"laptop\"", "https://www.amazon.com/s?k=laptop",
      "Fallback merchant search", "amazon.com"⟩ (by decide)⟩

-- ----------------------------------------------------------------------
-- Shared lemmas about the search parsers
-- ----------------------------------------------------------------------

/-- A successful prefix test bounds the pattern length. -/
theorem listStartsWith_length : ∀ (l pat : List Char),
    listStartsWith l pat = true → pat.length ≤ l.length
  | _, [], _ => Nat.zero_le _
  | [], _ :: _, h => absurd h (by simp [listStartsWith])
  | c :: cs, p :: ps, h => by
      simp only [listStartsWith, Bool.and_eq_true] at h
      simpa using Nat.succ_le_succ (listStartsWith_length cs ps h.2)

/-- Dropping within the first part of an append. -/
theorem drop_append_of_le : ∀ (n : Nat) (l1 l2 : List Char), n ≤ l1.length →
    (l1 ++ l2).drop n = l1.drop n ++ l2
  | 0, _, _, _ => rfl
  | n + 1, [], _, h => absurd h (by simp)
  | n + 1, _ :: cs, l2, h => drop_append_of_le n cs l2 (Nat.le_of_succ_le_succ h)

/-- `takeWhile` ignores an appended tail once a failing element exists. -/
theorem takeWhile_append_stop (p : Char → Bool) :
    ∀ (l1 l2 : List Char), (∃ x ∈ l1, p x = false) →
      (l1 ++ l2).takeWhile p = l1.takeWhile p
  | [], _, h => absurd h (by simp)
  | c :: cs, l2, h => by
      by_cases hc : p c
      · simp only [List.cons_append, List.takeWhile_cons, hc]
        obtain ⟨x, hx, hpx⟩ := h
        rcases List.mem_cons.mp hx with rfl | hx2
        · exact absurd hc (by simp [hpx])
        · rw [takeWhile_append_stop p cs l2 ⟨x, hx2, hpx⟩]
      · simp only [List.cons_append, List.takeWhile_cons,
          Bool.not_eq_true] at hc ⊢
        simp [hc]

/-- `extractHostname` of a fixed https prefix followed by anything equals
that of the prefix alone, provided the prefix already contains a host
delimiter after the scheme. -/
theorem extractHostname_https_append (pre q : String)
    (h8 : listStartsWith (asciiLower pre).data "https://".data = true)
    (hstop : ∃ x ∈ pre.data.drop 8,
      (decide (¬ (x = '/' ∨ x = '?' ∨ x = '#' ∨ x = ':'))) = false) :
    extractHostname (pre ++ q) = extractHostname pre := by
  have hlen : 8 ≤ pre.data.length := by
    have := listStartsWith_length _ _ h8
    simpa [asciiLower] using this
  have h8app : listStartsWith (asciiLower (pre ++ q)).data "https://".data = true := by
    rw [asciiLower_data_append]
    exact listStartsWith_append _ _ _ h8
  calc extractHostname (pre ++ q) = hostFrom ((pre ++ q).data.drop 8) := by
        unfold extractHostname
        rw [if_pos h8app]
    _ = hostFrom (pre.data.drop 8 ++ q.data) := by
        rw [String.data_append, drop_append_of_le 8 pre.data q.data hlen]
    _ = hostFrom (pre.data.drop 8) := by
        unfold hostFrom
        rw [takeWhile_append_stop _ _ _ hstop]
    _ = extractHostname pre := by
        unfold extractHostname
        rw [if_pos h8]

/-- Every merchant seed URL is absolute and its extracted host is the
merchant host, which is not blocked. -/
theorem merchantSeeds_good (query q : String) :
    ∀ r ∈ merchantSeeds query q, GoodSearchUrl r ∧ isAbsoluteHttpUrl r.url = true := by
  intro r hr
  simp only [merchantSeeds, List.mem_cons, List.mem_singleton] at hr
  have main : ∀ pre host : String,
      listStartsWith (asciiLower pre).data "https://".data = true →
      (∃ x ∈ pre.data.drop 8, (decide (¬ (x = '/' ∨ x = '?' ∨ x = '#' ∨ x = ':'))) = false) →
      extractHostname pre = host → isBlockedHost host = false →
      isAbsoluteHttpUrl pre = true →
      isBlockedHost (extractHostname (pre ++ q)) = false
        ∧ isAbsoluteHttpUrl (pre ++ q) = true := by
    intro pre host hpre hstop hhost hblocked habs
    refine ⟨?_, isAbsoluteHttpUrl_append pre q habs⟩
    rw [extractHostname_https_append pre q hpre hstop, hhost]
    exact hblocked
  rcases hr with rfl | rfl | rfl | rfl | rfl | rfl | h
  · have := main "https://www.amazon.com/s?k=" "www.amazon.com"
      (by decide) (by decide) (by decide) (by decide) (by decide)
    exact ⟨⟨this.1, Or.inl this.2⟩, this.2⟩
  · have := main "https://www.bestbuy.com/site/searchpage.jsp?st=" "www.bestbuy.com"
      (by decide) (by decide) (by decide) (by decide) (by decide)
    exact ⟨⟨this.1, Or.inl this.2⟩, this.2⟩
  · have := main "https://www.walmart.com/search?q=" "www.walmart.com"
      (by decide) (by decide) (by decide) (by decide) (by decide)
    exact ⟨⟨this.1, Or.inl this.2⟩, this.2⟩
  · have := main "https://www.target.com/s?searchTerm=" "www.target.com"
      (by decide) (by decide) (by decide) (by decide) (by decide)
    exact ⟨⟨this.1, Or.inl this.2⟩, this.2⟩
  · have := main "https://www.newegg.com/p/pl?d=" "www.newegg.com"
      (by decide) (by decide) (by decide) (by decide) (by decide)
    exact ⟨⟨this.1, Or.inl this.2⟩, this.2⟩
  · have := main "https://www.ebay.com/sch/i.html?_nkw=" "www.ebay.com"
      (by decide) (by decide) (by decide) (by decide) (by decide)
    exact ⟨⟨this.1, Or.inl this.2⟩, this.2⟩
  · exact absurd h (List.not_mem_nil r)

/-- Soundness of the DDG fallback anchor loop: the cap is respected, and
every produced result has a good URL. -/
theorem ddgAnchorLoop_sound (maxR : Nat) :
    ∀ (ms : List (List Char × RxCaps)) (seen : List String) (acc : List SearchResult),
      (ddgAnchorLoop maxR ms seen acc).length ≤ max acc.length maxR
      ∧ ∀ r ∈ ddgAnchorLoop maxR ms seen acc, r ∈ acc ∨ GoodSearchUrl r := by
  intro ms
  induction ms with
  | nil =>
      intro seen acc
      exact ⟨le_max_left _ _, fun r hr => Or.inl hr⟩
  | cons m ms ih =>
      intro seen acc
      obtain ⟨mm, caps⟩ := m
      simp only [ddgAnchorLoop]
      by_cases hlen : acc.length < maxR
      · rw [if_pos hlen]
        split
        · exact ih seen acc
        · rename_i href hu
          by_cases h1 : href = "" ∨ jsTrim (stripTags (capStr caps 3)) = ""
          · rw [if_pos h1]
            exact ih seen acc
          · rw [if_neg h1]
            by_cases h2 : seen.contains href = true
            · rw [if_pos h2]
              exact ih seen acc
            · rw [if_neg h2]
              by_cases h3 : isBlockedHost (extractHostname href) = true
              · rw [if_pos h3]
                exact ih (href :: seen) acc
              · rw [if_neg h3]
                have hres := ih (href :: seen)
                  (acc ++ [⟨jsTrim (stripTags (capStr caps 3)), href, "",
                    if extractHostname href = "" then href else extractHostname href⟩])
                refine ⟨?_, ?_⟩
                · refine le_trans hres.1 ?_
                  have hl : (acc ++ [(⟨jsTrim (stripTags (capStr caps 3)), href, "",
                      if extractHostname href = "" then href
                      else extractHostname href⟩ : SearchResult)]).length
                      = acc.length + 1 := by simp
                  rw [hl, Nat.max_eq_right hlen]
                  exact le_max_right _ _
                · intro r hr
                  rcases hres.2 r hr with hmem | hgood
                  · rcases List.mem_append.mp hmem with hl | hl
                    · exact Or.inl hl
                    · have hr2 := List.mem_singleton.mp hl
                      subst hr2
                      exact Or.inr ⟨Bool.eq_false_iff.mpr (fun hc => h3 hc),
                        Or.inr ⟨capStr caps 2, hu⟩⟩
                  · exact Or.inr hgood
      · rw [if_neg hlen]
        exact ⟨le_max_left _ _, fun r hr => Or.inl hr⟩

/-- Soundness of the generic anchor loop. -/
theorem genericAnchorsLoop_sound (maxR : Nat) :
    ∀ (ms : List (List Char × RxCaps)) (seen : List String) (acc : List SearchResult),
      (genericAnchorsLoop maxR ms seen acc).length ≤ max acc.length maxR
      ∧ ∀ r ∈ genericAnchorsLoop maxR ms seen acc,
          r ∈ acc ∨ (GoodSearchUrl r ∧ isAbsoluteHttpUrl r.url = true) := by
  intro ms
  induction ms with
  | nil =>
      intro seen acc
      exact ⟨le_max_left _ _, fun r hr => Or.inl hr⟩
  | cons m ms ih =>
      intro seen acc
      obtain ⟨mm, caps⟩ := m
      simp only [genericAnchorsLoop]
      by_cases hlen : acc.length < maxR
      · rw [if_pos hlen]
        split
        · exact ih seen acc
        · rename_i href hu
          by_cases h1 : href = "" ∨ ¬ (isAbsoluteHttpUrl href = true)
          · rw [if_pos h1]
            exact ih seen acc
          · rw [if_neg h1]
            by_cases h2 : extractHostname href = "" ∨ isBlockedHost (extractHostname href) = true
            · rw [if_pos h2]
              exact ih seen acc
            · rw [if_neg h2]
              by_cases h3 : seen.contains href = true
              · rw [if_pos h3]
                exact ih seen acc
              · rw [if_neg h3]
                by_cases h4 : jsTrim (stripTags (capStr caps 2)) = ""
                    ∨ (jsTrim (stripTags (capStr caps 2))).data.length < 5
                · rw [if_pos h4]
                  exact ih seen acc
                · rw [if_neg h4]
                  have hres := ih (href :: seen)
                    (acc ++ [⟨jsTrim (stripTags (capStr caps 2)), href, "",
                      extractHostname href⟩])
                  refine ⟨?_, ?_⟩
                  · refine le_trans hres.1 ?_
                    have hl : (acc ++ [(⟨jsTrim (stripTags (capStr caps 2)), href, "",
                        extractHostname href⟩ : SearchResult)]).length = acc.length + 1 := by
                      simp
                    rw [hl, Nat.max_eq_right hlen]
                    exact le_max_right _ _
                  · intro r hr
                    rcases hres.2 r hr with hmem | hgood
                    · rcases List.mem_append.mp hmem with hl | hl
                      · exact Or.inl hl
                      · have hr2 := List.mem_singleton.mp hl
                        subst hr2
                        have habs : isAbsoluteHttpUrl href = true := by
                          have h := (not_or.mp h1).2
                          exact not_not.mp h
                        have hblk : isBlockedHost (extractHostname href) = false := by
                          have h := (not_or.mp h2).2
                          exact Bool.eq_false_iff.mpr (fun hc => h hc)
                        exact Or.inr ⟨⟨hblk, Or.inl habs⟩, habs⟩
                    · exact Or.inr hgood
      · rw [if_neg hlen]
        exact ⟨le_max_left _ _, fun r hr => Or.inl hr⟩

/-- Soundness of the Bing block loop. -/
theorem bingBlocksLoop_sound (maxR : Nat) :
    ∀ (bs : List String) (seen : List String) (acc : List SearchResult),
      (bingBlocksLoop maxR bs seen acc).length ≤ max acc.length maxR
      ∧ ∀ r ∈ bingBlocksLoop maxR bs seen acc,
          r ∈ acc ∨ (GoodSearchUrl r ∧ isAbsoluteHttpUrl r.url = true) := by
  intro bs
  induction bs with
  | nil =>
      intro seen acc
      exact ⟨le_max_left _ _, fun r hr => Or.inl hr⟩
  | cons chunk bs ih =>
      intro seen acc
      simp only [bingBlocksLoop]
      by_cases hlen : acc.length < maxR
      · rw [if_pos hlen]
        split
        · exact ih seen acc
        · rename_i mm caps hm
          by_cases h1 : ¬ (isAbsoluteHttpUrl (jsTrim (capStr caps 1)) = true)
          · rw [if_pos h1]
            exact ih seen acc
          · rw [if_neg h1]
            by_cases h2 : seen.contains (jsTrim (capStr caps 1)) = true
            · rw [if_pos h2]
              exact ih seen acc
            · rw [if_neg h2]
              by_cases h3 : jsTrim (stripTags (capStr caps 2)) = ""
              · rw [if_pos h3]
                exact ih (jsTrim (capStr caps 1) :: seen) acc
              · rw [if_neg h3]
                by_cases h4 : isBlockedHost (extractHostname (jsTrim (capStr caps 1))) = true
                · rw [if_pos h4]
                  exact ih (jsTrim (capStr caps 1) :: seen) acc
                · rw [if_neg h4]
                  have hres := ih (jsTrim (capStr caps 1) :: seen)
                    (acc ++ [⟨jsTrim (stripTags (capStr caps 2)), jsTrim (capStr caps 1),
                      (match rxMatchStr true bingSnippetRx chunk with
                        | some (_, c2) => jsTrim (stripTags (capStr c2 1))
                        | none => ""),
                      if extractHostname (jsTrim (capStr caps 1)) = "" then
                        jsTrim (capStr caps 1)
                      else extractHostname (jsTrim (capStr caps 1))⟩])
                  refine ⟨?_, ?_⟩
                  · refine le_trans hres.1 ?_
                    have hl : (acc ++ [(⟨jsTrim (stripTags (capStr caps 2)),
                        jsTrim (capStr caps 1),
                        (match rxMatchStr true bingSnippetRx chunk with
                          | some (_, c2) => jsTrim (stripTags (capStr c2 1))
                          | none => ""),
                        if extractHostname (jsTrim (capStr caps 1)) = "" then
                          jsTrim (capStr caps 1)
                        else extractHostname (jsTrim (capStr caps 1))⟩ : SearchResult)]).length
                        = acc.length + 1 := by simp
                    rw [hl, Nat.max_eq_right hlen]
                    exact le_max_right _ _
                  · intro r hr
                    rcases hres.2 r hr with hmem | hgood
                    · rcases List.mem_append.mp hmem with hl | hl
                      · exact Or.inl hl
                      · have hr2 := List.mem_singleton.mp hl
                        subst hr2
                        have habs : isAbsoluteHttpUrl (jsTrim (capStr caps 1)) = true :=
                          not_not.mp h1
                        exact Or.inr ⟨⟨Bool.eq_false_iff.mpr (fun hc => h4 hc),
                          Or.inl habs⟩, habs⟩
                    · exact Or.inr hgood
      · rw [if_neg hlen]
        exact ⟨le_max_left _ _, fun r hr => Or.inl hr⟩

/-- Soundness of the primary DDG block loop. -/
theorem ddgBlocksLoop_sound (maxR : Nat) :
    ∀ (bs : List String) (seen : List String) (acc : List SearchResult),
      (ddgBlocksLoop maxR bs seen acc).2.length ≤ max acc.length maxR
      ∧ ∀ r ∈ (ddgBlocksLoop maxR bs seen acc).2, r ∈ acc ∨ GoodSearchUrl r := by
  intro bs
  induction bs with
  | nil =>
      intro seen acc
      exact ⟨le_max_left _ _, fun r hr => Or.inl hr⟩
  | cons b bs ih =>
      intro seen acc
      simp only [ddgBlocksLoop]
      by_cases hlen : acc.length < maxR
      · rw [if_pos hlen]
        split
        · exact ih seen acc
        · rename_i mm caps hm
          split
          · exact ih seen acc
          · rename_i href hu
            by_cases h1 : href = "" ∨ jsTrim (stripTags (capStr caps 2)) = ""
            · rw [if_pos h1]
              exact ih seen acc
            · rw [if_neg h1]
              by_cases h2 : seen.contains href = true
              · rw [if_pos h2]
                exact ih seen acc
              · rw [if_neg h2]
                by_cases h3 : isBlockedHost (extractHostname href) = true
                · rw [if_pos h3]
                  exact ih (href :: seen) acc
                · rw [if_neg h3]
                  have hres := ih (href :: seen)
                    (acc ++ [⟨jsTrim (stripTags (capStr caps 2)), href,
                      (match rxMatchStr false ddgSnippetRx b with
                        | some (_, c2) => jsTrim (stripTags (capStr c2 1))
                        | none => jsTrim (stripTags "")),
                      if extractHostname href = "" then href else extractHostname href⟩])
                  refine ⟨?_, ?_⟩
                  · refine le_trans hres.1 ?_
                    have hl : (acc ++ [(⟨jsTrim (stripTags (capStr caps 2)), href,
                        (match rxMatchStr false ddgSnippetRx b with
                          | some (_, c2) => jsTrim (stripTags (capStr c2 1))
                          | none => jsTrim (stripTags "")),
                        if extractHostname href = "" then href
                        else extractHostname href⟩ : SearchResult)]).length
                        = acc.length + 1 := by simp
                    rw [hl, Nat.max_eq_right hlen]
                    exact le_max_right _ _
                  · intro r hr
                    rcases hres.2 r hr with hmem | hgood
                    · rcases List.mem_append.mp hmem with hl | hl
                      · exact Or.inl hl
                      · have hr2 := List.mem_singleton.mp hl
                        subst hr2
                        exact Or.inr ⟨Bool.eq_false_iff.mpr (fun hc => h3 hc),
                          Or.inr ⟨capStr caps 1, hu⟩⟩
                    · exact Or.inr hgood
      · rw [if_neg hlen]
        exact ⟨le_max_left _ _, fun r hr => Or.inl hr⟩

/-- Soundness of the DDG HTML parser: result cap and good URLs. -/
theorem parseDdgHtmlResults_sound (html : String) (maxR : Nat) :
    (parseDdgHtmlResults html maxR).length ≤ maxR
    ∧ ∀ r ∈ parseDdgHtmlResults html maxR, GoodSearchUrl r := by
  unfold parseDdgHtmlResults
  split
  · have h := ddgAnchorLoop_sound maxR (rxExecAllStr true ddgAnchorRx html)
      (ddgBlocksLoop maxR
        ((rxExecAllStr false ddgBlockRx html).map (fun m => (⟨m.1⟩ : String))) [] []).1 []
    refine ⟨by simpa using h.1, fun r hr => ?_⟩
    rcases h.2 r hr with hmem | hgood
    · exact absurd hmem (List.not_mem_nil r)
    · exact hgood
  · have h := ddgBlocksLoop_sound maxR
      ((rxExecAllStr false ddgBlockRx html).map (fun m => (⟨m.1⟩ : String))) [] []
    refine ⟨by simpa using h.1, fun r hr => ?_⟩
    rcases h.2 r hr with hmem | hgood
    · exact absurd hmem (List.not_mem_nil r)
    · exact hgood

/-- Soundness of the Bing parser: result cap, good and absolute URLs. -/
theorem parseBingHtmlResults_sound (html : String) (maxR : Nat) :
    (parseBingHtmlResults html maxR).length ≤ maxR
    ∧ ∀ r ∈ parseBingHtmlResults html maxR, GoodSearchUrl r := by
  have h := bingBlocksLoop_sound maxR
    ((rxExecAllStr true bingBlockRx html).map (fun m => capStr m.2 1)) [] []
  refine ⟨by simpa [parseBingHtmlResults] using h.1, fun r hr => ?_⟩
  rcases h.2 r hr with hmem | hgood
  · exact absurd hmem (List.not_mem_nil r)
  · exact hgood.1

/-- Soundness of the generic anchor parser. -/
theorem parseGenericAnchors_sound (html : String) (maxR : Nat) :
    (parseGenericAnchors html maxR).length ≤ maxR
    ∧ ∀ r ∈ parseGenericAnchors html maxR, GoodSearchUrl r := by
  have h := genericAnchorsLoop_sound maxR (rxExecAllStr true genericAnchorRx html) [] []
  refine ⟨by simpa [parseGenericAnchors] using h.1, fun r hr => ?_⟩
  rcases h.2 r hr with hmem | hgood
  · exact absurd hmem (List.not_mem_nil r)
  · exact hgood.1

/-- Soundness of a successful `searchDdgHtml`. -/
theorem searchDdgHtml_ok_sound (net : SearchNetwork) (maxR : Nat) (rs : List SearchResult)
    (h : searchDdgHtml net maxR = .ok rs) :
    rs.length ≤ maxR ∧ ∀ r ∈ rs, GoodSearchUrl r := by
  unfold searchDdgHtml at h
  split at h
  · exact absurd h (by simp)
  · split at h
    · split at h
      · split at h
        · cases h
          exact parseGenericAnchors_sound _ _
        · cases h
          exact parseDdgHtmlResults_sound _ _
      · cases h
        exact parseDdgHtmlResults_sound _ _
    · exact absurd h (by simp)

/-- Soundness of a successful `searchDdgLite`. -/
theorem searchDdgLite_ok_sound (net : SearchNetwork) (maxR : Nat) (rs : List SearchResult)
    (h : searchDdgLite net maxR = .ok rs) :
    rs.length ≤ maxR ∧ ∀ r ∈ rs, GoodSearchUrl r := by
  unfold searchDdgLite at h
  split at h
  · exact absurd h (by simp)
  · split at h
    · split at h
      · cases h
        exact parseGenericAnchors_sound _ _
      · cases h
        exact parseDdgHtmlResults_sound _ _
    · exact absurd h (by simp)

/-- Soundness of a successful `searchBingHtml`. -/
theorem searchBingHtml_ok_sound (net : SearchNetwork) (maxR : Nat) (rs : List SearchResult)
    (h : searchBingHtml net maxR = .ok rs) :
    rs.length ≤ maxR ∧ ∀ r ∈ rs, GoodSearchUrl r := by
  unfold searchBingHtml at h
  split at h
  · exact absurd h (by simp)
  · split at h
    · split at h
      · cases h
        exact parseGenericAnchors_sound _ _
      · cases h
        exact parseBingHtmlResults_sound _ _
    · exact absurd h (by simp)

/-- Step 1 produces capped, good results. -/
theorem swfStep1_sound (net : SearchNetwork) (maxR now : Nat) (cd : SearchCooldowns) :
    (swfStep1 net maxR now cd).1.length ≤ maxR
    ∧ ∀ r ∈ (swfStep1 net maxR now cd).1, GoodSearchUrl r := by
  unfold swfStep1
  split
  · split
    · rename_i rs h
      exact searchDdgHtml_ok_sound net maxR rs h
    · exact ⟨by simp, by simp⟩
  · exact ⟨by simp, by simp⟩

/-- Step 2 preserves capped, good results. -/
theorem swfStep2_sound (net : SearchNetwork) (maxR now : Nat) (s : SwfState)
    (hs : s.1.length ≤ maxR ∧ ∀ r ∈ s.1, GoodSearchUrl r) :
    (swfStep2 net maxR now s).1.length ≤ maxR
    ∧ ∀ r ∈ (swfStep2 net maxR now s).1, GoodSearchUrl r := by
  unfold swfStep2
  split
  · split
    · rename_i rs h
      exact searchDdgLite_ok_sound net maxR rs h
    · exact ⟨by simp, by simp⟩
  · exact hs

/-- Step 3 preserves capped, good results. -/
theorem swfStep3_sound (net : SearchNetwork) (maxR now : Nat) (s : SwfState)
    (hs : s.1.length ≤ maxR ∧ ∀ r ∈ s.1, GoodSearchUrl r) :
    (swfStep3 net maxR now s).1.length ≤ maxR
    ∧ ∀ r ∈ (swfStep3 net maxR now s).1, GoodSearchUrl r := by
  unfold swfStep3
  split
  · split
    · rename_i rs h
      exact searchBingHtml_ok_sound net maxR rs h
    · exact ⟨by simp, by simp⟩
  · exact hs

/-- Step 4 preserves goodness; the merchant fallback results are good. -/
theorem swfStep4_sound (query : String) (maxR : Nat) (s : SwfState)
    (hs : s.1.length ≤ maxR ∧ ∀ r ∈ s.1, GoodSearchUrl r) :
    (swfStep4 query maxR s).1.length ≤ maxR
    ∧ ∀ r ∈ (swfStep4 query maxR s).1, GoodSearchUrl r := by
  unfold swfStep4
  split
  · refine ⟨?_, fun r hr => ?_⟩
    · show ((merchantSeeds query (encodeURIComponent (jsTrim query))).take
        (min maxR 6)).length ≤ maxR
      exact le_trans (List.length_take_le _ _) (Nat.min_le_left _ _)
    · have hr2 : r ∈ merchantSeeds query (encodeURIComponent (jsTrim query)) :=
        List.mem_of_mem_take hr
      exact (merchantSeeds_good query _ r hr2).1
  · exact hs

/-- Step 4 never returns an empty list when `maxResults ≥ 1`. -/
theorem swfStep4_nonempty (query : String) (maxR : Nat) (h1 : 1 ≤ maxR) (s : SwfState) :
    (swfStep4 query maxR s).1 ≠ [] := by
  unfold swfStep4
  split
  · rename_i hlen
    show (merchantSeeds query (encodeURIComponent (jsTrim query))).take (min maxR 6) ≠ []
    have : ((merchantSeeds query (encodeURIComponent (jsTrim query))).take
        (min maxR 6)).length = min (min maxR 6) 6 := by
      rw [List.length_take]
      rfl
    intro hc
    rw [hc] at this
    simp at this
    omega
  · rename_i hlen
    intro hc
    rw [hc] at hlen
    simp at hlen

-- ----------------------------------------------------------------------
-- Claim C2: search result guarantees
-- ----------------------------------------------------------------------

/-- C2 (counterexample): the claim that every returned URL is absolute is
false — with a DDG response whose anchor carries `href="httpx/foo"`, the
DDG parser passes the raw href through `unwrapDdgUrl` (any string
starting in "http" is accepted verbatim) and the search returns the
non-absolute URL `httpx/foo`. -/
theorem search_url_absolute_cex :
    (searchWithFallbacks "q" 3 none
        ⟨FetchOutcome.resp 200
          "<a class=\"result__a\" href=\"httpx/foo\">Great Product Here</a>",
          FetchOutcome.fail "net down", FetchOutcome.fail "net down"⟩
        0 ⟨0, 0⟩).results.map SearchResult.url = ["httpx/foo"]
    ∧ isAbsoluteHttpUrl "httpx/foo" = false := by
  exact ⟨by decide, by decide⟩

/-- C2 (amended): for every search call with maxResults in [1, 20] and any
provider behavior, the operation returns between 1 and maxResults results
(the merchant fallback fills in); every returned URL has an unblocked
extracted host, and is absolute unless it came from the DDG parsers,
where it is an output of `unwrapDdgUrl` (a string starting in "http", a
completed protocol-relative URL, or a raw `uddg` redirect parameter) and
need not be absolute. -/
theorem search_never_fails_url_guarantees
    (query : String) (maxResults : Nat) (region : Option String)
    (net : SearchNetwork) (now : Nat) (cd : SearchCooldowns)
    (h1 : 1 ≤ maxResults) (_h2 : maxResults ≤ 20) :
    1 ≤ (searchWithFallbacks query maxResults region net now cd).results.length
    ∧ (searchWithFallbacks query maxResults region net now cd).results.length ≤ maxResults
    ∧ ∀ r ∈ (searchWithFallbacks query maxResults region net now cd).results,
        GoodSearchUrl r := by
  have hres : (searchWithFallbacks query maxResults region net now cd).results
      = (swfStep4 query maxResults (swfStep3 net maxResults now
          (swfStep2 net maxResults now (swfStep1 net maxResults now cd)))).1.take
          maxResults := rfl
  have hgood := swfStep4_sound query maxResults _
    (swfStep3_sound net maxResults now _
      (swfStep2_sound net maxResults now _ (swfStep1_sound net maxResults now cd)))
  have hne := swfStep4_nonempty query maxResults h1
    (swfStep3 net maxResults now (swfStep2 net maxResults now (swfStep1 net maxResults now cd)))
  refine ⟨?_, ?_, ?_⟩
  · rw [hres, List.length_take]
    have hpos : 0 < (swfStep4 query maxResults (swfStep3 net maxResults now
        (swfStep2 net maxResults now (swfStep1 net maxResults now cd)))).1.length :=
      List.length_pos.mpr hne
    omega
  · rw [hres]
    exact List.length_take_le _ _
  · intro r hr
    rw [hres] at hr
    exact hgood.2 r (List.mem_of_mem_take hr)

/-- C2 witness: the amended theorem at a concrete call (all providers
down, so the merchant fallback answers). -/
theorem search_never_fails_url_guarantees_witness :
    1 ≤ (1 : Nat) ∧ (1 : Nat) ≤ 20
    ∧ (1 ≤ (searchWithFallbacks "laptop" 1 none
          ⟨FetchOutcome.fail "down", FetchOutcome.fail "down", FetchOutcome.fail "down"⟩
          0 ⟨0, 0⟩).results.length
      ∧ (searchWithFallbacks "laptop" 1 none
          ⟨FetchOutcome.fail "down", FetchOutcome.fail "down", FetchOutcome.fail "down"⟩
          0 ⟨0, 0⟩).results.length ≤ 1
      ∧ ∀ r ∈ (searchWithFallbacks "laptop" 1 none
          ⟨FetchOutcome.fail "down", FetchOutcome.fail "down", FetchOutcome.fail "down"⟩
          0 ⟨0, 0⟩).results, GoodSearchUrl r) :=
  ⟨by decide, by decide,
    search_never_fails_url_guarantees "laptop" 1 none
      ⟨FetchOutcome.fail "down", FetchOutcome.fail "down", FetchOutcome.fail "down"⟩
      0 ⟨0, 0⟩ (by decide) (by decide)⟩

-- ----------------------------------------------------------------------
-- Claim C7: attempts log under DDG cooldown
-- ----------------------------------------------------------------------

/-- C7 (counterexample): with the DDG cooldown active, the attempts log
has a skipped entry only for the DDG HTML endpoint — DDG Lite is skipped
silently, so no `duckduckgo_lite` entry exists, contradicting the claimed
two skipped entries. -/
theorem search_cooldown_attempts_cex :
    (0 : Nat) < (⟨30000, 0⟩ : SearchCooldowns).ddgBlockedUntil
    ∧ (searchWithFallbacks "mechanical keyboard" 3 (some "us-en")
        ⟨FetchOutcome.fail "x", FetchOutcome.fail "x", FetchOutcome.fail "socket hang up"⟩
        0 ⟨30000, 0⟩).attempts.map (fun a => a.provider)
        = ["duckduckgo_html", "bing_html", "fallback_merchant_links"]
    ∧ ¬ ∃ a ∈ (searchWithFallbacks "mechanical keyboard" 3 (some "us-en")
        ⟨FetchOutcome.fail "x", FetchOutcome.fail "x", FetchOutcome.fail "socket hang up"⟩
        0 ⟨30000, 0⟩).attempts, a.provider = "duckduckgo_lite" := by
  exact ⟨by decide, by decide, by decide⟩

/-- C7 (amended): the attempts log gets one entry, in provider order, per
endpoint actually tried; a cooldown skip is logged only for the DDG HTML
step.  When the DDG cooldown is active the log starts with the single
`skipped (rate-limited)` entry for `duckduckgo_html`, no `duckduckgo_lite`
entry ever appears, and the rest is the Bing attempt and/or the merchant
fallback attempt. -/
theorem search_cooldown_attempts
    (query : String) (maxResults : Nat) (region : Option String)
    (net : SearchNetwork) (now : Nat) (cd : SearchCooldowns)
    (h : now < cd.ddgBlockedUntil) :
    ∃ rest,
      (searchWithFallbacks query maxResults region net now cd).attempts
        = (⟨"duckduckgo_html", false, none, some "skipped (rate-limited)"⟩ : SearchAttempt)
            :: rest
      ∧ (∀ a ∈ rest, a.provider ≠ "duckduckgo_lite")
      ∧ (rest.map (fun a => a.provider) = ["bing_html"]
          ∨ rest.map (fun a => a.provider) = ["bing_html", "fallback_merchant_links"]
          ∨ rest.map (fun a => a.provider) = ["fallback_merchant_links"]) := by
  have hatts : (searchWithFallbacks query maxResults region net now cd).attempts
      = (swfStep4 query maxResults (swfStep3 net maxResults now
          (swfStep2 net maxResults now (swfStep1 net maxResults now cd)))).2.2.1 := rfl
  have hs1 : swfStep1 net maxResults now cd
      = ([], "none",
          [(⟨"duckduckgo_html", false, none, some "skipped (rate-limited)"⟩ : SearchAttempt)],
          cd) := by
    unfold swfStep1
    rw [if_neg (not_not_intro h)]
  have hs2 : swfStep2 net maxResults now ([], "none",
      [(⟨"duckduckgo_html", false, none, some "skipped (rate-limited)"⟩ : SearchAttempt)],
      cd) = ([], "none",
      [(⟨"duckduckgo_html", false, none, some "skipped (rate-limited)"⟩ : SearchAttempt)],
      cd) := by
    unfold swfStep2
    rw [if_neg]
    intro hc
    exact hc.2 h
  rw [hatts, hs1, hs2]
  by_cases hb : now < cd.bingBlockedUntil
  · have hs3 : swfStep3 net maxResults now ([], "none",
        [(⟨"duckduckgo_html", false, none, some "skipped (rate-limited)"⟩ : SearchAttempt)],
        cd) = ([], "none",
        [(⟨"duckduckgo_html", false, none, some "skipped (rate-limited)"⟩ : SearchAttempt)],
        cd) := by
      unfold swfStep3
      rw [if_neg]
      intro hc
      exact hc.2 hb
    rw [hs3]
    refine ⟨[⟨"fallback_merchant_links", true,
      some (buildFallbackMerchantLinks query maxResults).length, none⟩], ?_, ?_, ?_⟩
    · rfl
    · intro a ha
      rcases List.mem_singleton.mp ha with rfl
      show ("fallback_merchant_links" : String) ≠ "duckduckgo_lite"
      decide
    · right; right; rfl
  · unfold swfStep3
    rw [if_pos ⟨rfl, hb⟩]
    cases hbing : searchBingHtml net maxResults with
    | ok rs =>
        by_cases hrs : rs.length = 0
        · refine ⟨[⟨"bing_html", true, some rs.length, none⟩,
            ⟨"fallback_merchant_links", true,
              some (buildFallbackMerchantLinks query maxResults).length, none⟩], ?_, ?_, ?_⟩
          · simp [swfStep4, hrs]
          · intro a ha
            rcases List.mem_cons.mp ha with rfl | ha2
            · show ("bing_html" : String) ≠ "duckduckgo_lite"
              decide
            · rcases List.mem_singleton.mp ha2 with rfl
              show ("fallback_merchant_links" : String) ≠ "duckduckgo_lite"
              decide
          · right; left; rfl
        · refine ⟨[⟨"bing_html", true, some rs.length, none⟩], ?_, ?_, ?_⟩
          · simp [swfStep4, hrs]
          · intro a ha
            rcases List.mem_singleton.mp ha with rfl
            show ("bing_html" : String) ≠ "duckduckgo_lite"
            decide
          · left; rfl
    | error msg =>
        refine ⟨[⟨"bing_html", false, none, some msg⟩,
          ⟨"fallback_merchant_links", true,
            some (buildFallbackMerchantLinks query maxResults).length, none⟩], ?_, ?_, ?_⟩
        · simp [swfStep4]
        · intro a ha
          rcases List.mem_cons.mp ha with rfl | ha2
          · show ("bing_html" : String) ≠ "duckduckgo_lite"
            decide
          · rcases List.mem_singleton.mp ha2 with rfl
            show ("fallback_merchant_links" : String) ≠ "duckduckgo_lite"
            decide
        · right; left; rfl

/-- C7 witness: the amended theorem at a concrete cooldown state. -/
theorem search_cooldown_attempts_witness :
    (0 : Nat) < (⟨30000, 0⟩ : SearchCooldowns).ddgBlockedUntil
    ∧ ∃ rest,
      (searchWithFallbacks "mechanical keyboard" 3 (some "us-en")
          ⟨FetchOutcome.fail "x", FetchOutcome.fail "x", FetchOutcome.fail "socket hang up"⟩
          0 ⟨30000, 0⟩).attempts
        = (⟨"duckduckgo_html", false, none, some "skipped (rate-limited)"⟩ : SearchAttempt)
            :: rest
      ∧ (∀ a ∈ rest, a.provider ≠ "duckduckgo_lite")
      ∧ (rest.map (fun a => a.provider) = ["bing_html"]
          ∨ rest.map (fun a => a.provider) = ["bing_html", "fallback_merchant_links"]
          ∨ rest.map (fun a => a.provider) = ["fallback_merchant_links"]) :=
  ⟨by decide,
    search_cooldown_attempts "mechanical keyboard" 3 (some "us-en")
      ⟨FetchOutcome.fail "x", FetchOutcome.fail "x", FetchOutcome.fail "socket hang up"⟩
      0 ⟨30000, 0⟩ (by decide)⟩

-- ----------------------------------------------------------------------
-- Extractor invariants (C3, C4)
-- ----------------------------------------------------------------------

lemma objUpsertStr_length_le (l : List (String × String)) (k v : String) :
    (objUpsertStr l k v).length ≤ l.length + 1 := by
  induction l with
  | nil => simp [objUpsertStr]
  | cons h t ih =>
      obtain ⟨k0, v0⟩ := h
      simp only [objUpsertStr]
      split
      · simp
      · simpa using Nat.succ_le_succ ih

lemma objMergeStr_length_le (b a : List (String × String)) :
    (objMergeStr a b).length ≤ a.length + b.length := by
  induction b generalizing a with
  | nil => simp [objMergeStr]
  | cons f bs ih =>
      have h1 : objMergeStr a (f :: bs) = objMergeStr (objUpsertStr a f.1 f.2) bs := rfl
      have h2 := ih (objUpsertStr a f.1 f.2)
      have h3 := objUpsertStr_length_le a f.1 f.2
      rw [h1]
      simp only [List.length_cons]
      omega

lemma extractSpecsLoop_length_le (lines : List String) (specs : List (String × String))
    (h : specs.length ≤ 25) : (extractSpecsLoop lines specs).length ≤ 25 := by
  induction lines generalizing specs with
  | nil => simpa [extractSpecsLoop] using h
  | cons line rest ih =>
      simp only [extractSpecsLoop]
      split
      · exact h
      · rename_i hlt
        split
        · exact ih specs h
        · split
          · apply ih
            have h5 : ¬ specs.length ≥ 25 := hlt
            refine le_trans (objUpsertStr_length_le _ _ _) ?_
            omega
          · exact ih specs h

lemma extractSpecsFromText_length_le (text : String) :
    (extractSpecsFromText text).length ≤ 25 :=
  extractSpecsLoop_length_le _ [] (by simp)

set_option maxHeartbeats 2000000 in
lemma extractBase_fields (html text : String) :
    ∃ (kf im : List String), (extractBase html text).1.key_features = List.take 10 kf
      ∧ (extractBase html text).1.images = List.take 12 im
      ∧ (extractBase html text).1.specs
          = objMergeStr (mergedSpecsOf html) (extractSpecsFromText (decodeEntities text)) :=
  ⟨_, _, rfl, rfl, rfl⟩

set_option maxHeartbeats 2000000 in
/-- C3: the extractor always returns a record with confidence in [0,1],
at most 10 key features and at most 12 images; but the specs map is only
bounded by the (uncapped) structured-data spec count plus the 25-entry
cap of the text scanner — the 25-entry bound of the original claim holds
only for the text-extracted part. -/
theorem extract_product_invariants (url html text : String) :
    0 ≤ (extractProduct url html text).confidence
    ∧ (extractProduct url html text).confidence ≤ 1
    ∧ (extractProduct url html text).key_features.length ≤ 10
    ∧ (extractProduct url html text).images.length ≤ 12
    ∧ (extractSpecsFromText (decodeEntities text)).length ≤ 25
    ∧ (extractProduct url html text).specs.length
        ≤ (mergedSpecsOf html).length + 25 := by
  obtain ⟨kf, im, hkf, him, hsp⟩ := extractBase_fields html text
  refine ⟨le_max_left 0 _, max_le (by norm_num) (min_le_left _ _), ?_, ?_,
    extractSpecsFromText_length_le _, ?_⟩
  · show ((extractBase html text).1.key_features).length ≤ 10
    rw [hkf, List.length_take]
    exact min_le_left _ _
  · show ((extractBase html text).1.images).length ≤ 12
    rw [him, List.length_take]
    exact min_le_left _ _
  · show ((extractBase html text).1.specs).length ≤ (mergedSpecsOf html).length + 25
    rw [hsp]
    have h1 := objMergeStr_length_le (extractSpecsFromText (decodeEntities text))
      (mergedSpecsOf html)
    have h2 := extractSpecsFromText_length_le (decodeEntities text)
    omega

set_option maxRecDepth 20000 in
set_option maxHeartbeats 4000000 in
/-- C3 counterexample: a page whose JSON-LD product node has 26
`additionalProperty` entries yields a record with 26 spec entries, so
the claimed bound of at most 25 specs fails (structured-data specs are
merged without a cap). -/
theorem extract_product_specs_cap_cex :
    25 < (extractProduct "https://example.com/p" manySpecsHtml "").specs.length := by
  decide

lemma toNumberStr_4999 : toNumberStr "49.99" = some (4999/100) := by
  have hclean : jsCleanNumStr "49.99" = "49.99" := by decide
  have hne : ¬ (jsCleanNumStr "49.99" = "") := by rw [hclean]; decide
  have hsp2 : splitFirst '.' ("49.99".data) = some (['4', '9'], ['9', '9']) := by decide
  rw [toNumberStr, if_neg hne, hclean]
  simp only [jsNumberOfCleaned, hsp2]
  rw [if_neg (by decide), if_neg (by decide)]
  have hd1 : digitsToNat ['4', '9'] = 49 := by decide
  have hd2 : digitsToNat ['9', '9'] = 99 := by decide
  rw [hd1, hd2]
  norm_num

lemma floor_151_half : ⌊(151/2 : ℚ)⌋ = (75 : ℤ) :=
  Int.floor_eq_iff.mpr (by norm_num)

set_option maxRecDepth 20000 in
set_option maxHeartbeats 4000000 in
/-- C4: the implemented confidence equals the specification's weighted
sum (name 0.20; price 0.25 with a currency, 0.15 without; availability
0.10; brand 0.10; category 0.05; nonempty features, images, specs 0.10
each; structured data 0.10), rounded to 2 decimals and clamped to [0,1];
a known price without a currency contributes strictly less to the raw
score than one with a currency; and the JSON-LD-only scenario page
yields exactly the expected record with confidence 0.75 ≥ 0.75. -/
theorem confidence_formula_strict_and_scenario :
    (∀ p u, computeConfidence p u = confidenceSpec p u)
    ∧ (∀ p u, p.price.isSome = true → jsTruthyOptStr p.currency = false →
        confScore p u < confScore { p with currency := some "USD" } u)
    ∧ extractProduct "https://example.com/x1" scenarioJsonLdHtml ""
        = ⟨some "X1", some (4999/100), some "USD", some "in_stock", some "Acme",
           none, [], [], [], 3/4⟩
    ∧ (extractProduct "https://example.com/x1" scenarioJsonLdHtml "").confidence
        ≥ 3/4 := by
  have hname : (extractProduct "https://example.com/x1" scenarioJsonLdHtml "").name
      = some "X1" := by decide
  have hpr : (extractProduct "https://example.com/x1" scenarioJsonLdHtml "").price
      = toNumberStr "49.99" := rfl
  have hprice : (extractProduct "https://example.com/x1" scenarioJsonLdHtml "").price
      = some (4999/100) := by rw [hpr, toNumberStr_4999]
  have hcur : (extractProduct "https://example.com/x1" scenarioJsonLdHtml "").currency
      = some "USD" := by decide
  have havail : (extractProduct "https://example.com/x1" scenarioJsonLdHtml "").availability
      = some "in_stock" := by decide
  have hbrand : (extractProduct "https://example.com/x1" scenarioJsonLdHtml "").brand
      = some "Acme" := by decide
  have hcat : (extractProduct "https://example.com/x1" scenarioJsonLdHtml "").category
      = none := by decide
  have hkf : (extractProduct "https://example.com/x1" scenarioJsonLdHtml "").key_features
      = [] := by decide
  have him : (extractProduct "https://example.com/x1" scenarioJsonLdHtml "").images
      = [] := by decide
  have hspc : (extractProduct "https://example.com/x1" scenarioJsonLdHtml "").specs
      = [] := by decide
  have hused : (extractBase scenarioJsonLdHtml "").2 = true := by decide
  have hconf : (extractProduct "https://example.com/x1" scenarioJsonLdHtml "").confidence
      = 3/4 := by
    show computeConfidence (extractBase scenarioJsonLdHtml "").1
      (extractBase scenarioJsonLdHtml "").2 = 3/4
    have hn2 : (extractBase scenarioJsonLdHtml "").1.name = some "X1" := hname
    have hp2 : (extractBase scenarioJsonLdHtml "").1.price = some (4999/100) := hprice
    have hc2 : (extractBase scenarioJsonLdHtml "").1.currency = some "USD" := hcur
    have ha2 : (extractBase scenarioJsonLdHtml "").1.availability = some "in_stock" := havail
    have hb2 : (extractBase scenarioJsonLdHtml "").1.brand = some "Acme" := hbrand
    have hg2 : (extractBase scenarioJsonLdHtml "").1.category = none := hcat
    have hk2 : (extractBase scenarioJsonLdHtml "").1.key_features = [] := hkf
    have hi2 : (extractBase scenarioJsonLdHtml "").1.images = [] := him
    have hs2 : (extractBase scenarioJsonLdHtml "").1.specs = [] := hspc
    unfold computeConfidence confScore
    rw [hn2, hp2, hc2, ha2, hb2, hg2, hk2, hi2, hs2, hused]
    have g1 : jsTruthyOptStr (some "X1") = true := by decide
    have g2 : jsTruthyOptStr (some "USD") = true := by decide
    have g3 : jsTruthyOptStr (some "in_stock") = true := by decide
    have g4 : jsTruthyOptStr (some "Acme") = true := by decide
    have g5 : jsTruthyOptStr (none : Option String) = false := by decide
    rw [g1, g2, g3, g4, g5]
    norm_num
  refine ⟨?_, ?_, ?_, ?_⟩
  · intro p u
    unfold computeConfidence confidenceSpec confScore
    simp only [show ((0.20 : ℚ)) = 1/5 from by norm_num,
      show ((0.25 : ℚ)) = 1/4 from by norm_num,
      show ((0.15 : ℚ)) = 3/20 from by norm_num,
      show ((0.10 : ℚ)) = 1/10 from by norm_num,
      show ((0.05 : ℚ)) = 1/20 from by norm_num,
      ge_iff_le, Nat.one_le_iff_ne_zero, Nat.pos_iff_ne_zero]
  · intro p u hp hc
    have h1 : jsTruthyOptStr (some "USD") = true := by decide
    simp only [confScore, hp, hc, h1, Bool.false_eq_true, eq_self_iff_true,
      if_true, if_false]
    linarith [le_refl (0 : ℚ)]
  · calc extractProduct "https://example.com/x1" scenarioJsonLdHtml ""
        = ⟨(extractProduct "https://example.com/x1" scenarioJsonLdHtml "").name,
           (extractProduct "https://example.com/x1" scenarioJsonLdHtml "").price,
           (extractProduct "https://example.com/x1" scenarioJsonLdHtml "").currency,
           (extractProduct "https://example.com/x1" scenarioJsonLdHtml "").availability,
           (extractProduct "https://example.com/x1" scenarioJsonLdHtml "").brand,
           (extractProduct "https://example.com/x1" scenarioJsonLdHtml "").category,
           (extractProduct "https://example.com/x1" scenarioJsonLdHtml "").key_features,
           (extractProduct "https://example.com/x1" scenarioJsonLdHtml "").images,
           (extractProduct "https://example.com/x1" scenarioJsonLdHtml "").specs,
           (extractProduct "https://example.com/x1" scenarioJsonLdHtml "").confidence⟩ := rfl
      _ = ⟨some "X1", some (4999/100), some "USD", some "in_stock", some "Acme",
           none, [], [], [], 3/4⟩ := by
          rw [hname, hprice, hcur, havail, hbrand, hcat, hkf, him, hspc, hconf]
  · rw [hconf]

/-- C4 witness: a product with name and price 5 scores strictly higher
once a currency is present. -/
theorem confidence_formula_strict_and_scenario_witness :
    confScore ⟨some "N", some 5, none, none, none, none, [], [], []⟩ false
      < confScore ⟨some "N", some 5, some "USD", none, none, none, [], [], []⟩ false :=
  confidence_formula_strict_and_scenario.2.1
    ⟨some "N", some 5, none, none, none, none, [], [], []⟩ false rfl rfl
